import Mathlib

/-!
# Framebuffer atlas and hazard tracker of the PSX dump replayer

A shallow embedding of `src/atlas.cpp` (class `FBAtlas`) together with the
properties of the block grid, the hazard tracker and the render-pass batcher.

Machine integers are natural numbers; `unsigned` arithmetic that can wrap is
written with an explicit reduction modulo `2^32`.  The status words of the
block grid are kept as machine words (ownership value in the low bits, hazard
flags above), exactly as the source manipulates them.
-/

namespace PSX

/-! ## Constants of the missing header `atlas.hpp` -/

/-- Modelled from the spec: `atlas.hpp` is not among the sources; the spec gives
the native VRAM as 1024 pixels wide. -/
def FB_WIDTH : Nat := 1024

/-- Modelled from the spec: `atlas.hpp` is not among the sources; the spec gives
the native VRAM as 512 pixels high. -/
def FB_HEIGHT : Nat := 512

/-- Modelled from the spec: `atlas.hpp` is not among the sources; the spec gives
blocks of 8x8 unscaled pixels. -/
def BLOCK_WIDTH : Nat := 8

/-- Modelled from the spec: `atlas.hpp` is not among the sources; the spec gives
blocks of 8x8 unscaled pixels. -/
def BLOCK_HEIGHT : Nat := 8

/-- Modelled from the spec: `atlas.hpp` is not among the sources; the spec gives a
grid of 128x64 blocks. -/
def NUM_BLOCKS_X : Nat := 128

/-- Modelled from the spec: `atlas.hpp` is not among the sources; the spec gives a
grid of 128x64 blocks. -/
def NUM_BLOCKS_Y : Nat := 64

/-! ## 32-bit unsigned arithmetic -/

/-- The modulus of `unsigned` arithmetic. -/
def U32 : Nat := 4294967296

/-- Addition of two `unsigned` values. -/
def add32 (a b : Nat) : Nat := (a + b) % U32

/-- Subtraction of two `unsigned` values (wraps below zero). -/
def sub32 (a b : Nat) : Nat := (a + (U32 - b % U32)) % U32

/-- Bitwise complement `~m` of an `unsigned` value. -/
def not32 (m : Nat) : Nat := 4294967295 ^^^ m

/-- Left shift `a << k` of an `unsigned` value. -/
def shl32 (a k : Nat) : Nat := (a <<< k) % U32

/-! ## Data model -/

/-- Pixel rectangle in unscaled coordinates (`struct Rect`, fields `unsigned`). -/
structure Rect where
  x : Nat
  y : Nat
  width : Nat
  height : Nat
deriving DecidableEq, Repr

/-- The two representations of VRAM. -/
inductive Domain where
  | Unscaled
  | Scaled
deriving DecidableEq, Repr

/-- The pipeline stage performing an access. -/
inductive Stage where
  | Compute
  | Transfer
  | Fragment
deriving DecidableEq, Repr

/-- Modelled from the spec: the enumerators of `StatusFlag` live in `atlas.hpp`,
which is not among the sources, so their numeric values are parameters.  The four
ownership values and the ownership mask occupy the low bits of a status word, the
twelve hazard flags (stage x domain x read/write) are the remaining fields. -/
structure StatusLayout where
  STATUS_FB_ONLY : Nat
  STATUS_FB_PREFER : Nat
  STATUS_SFB_ONLY : Nat
  STATUS_SFB_PREFER : Nat
  STATUS_OWNERSHIP_MASK : Nat
  STATUS_COMPUTE_FB_READ : Nat
  STATUS_COMPUTE_FB_WRITE : Nat
  STATUS_COMPUTE_SFB_READ : Nat
  STATUS_COMPUTE_SFB_WRITE : Nat
  STATUS_TRANSFER_FB_READ : Nat
  STATUS_TRANSFER_SFB_READ : Nat
  STATUS_TRANSFER_FB_WRITE : Nat
  STATUS_TRANSFER_SFB_WRITE : Nat
  STATUS_FRAGMENT_SFB_READ : Nat
  STATUS_FRAGMENT_SFB_WRITE : Nat
  STATUS_FRAGMENT_FB_READ : Nat
  STATUS_FRAGMENT_FB_WRITE : Nat

namespace StatusLayout

/-- Modelled from the spec: group mask of `atlas.hpp`, every read flag on the
unscaled domain. -/
def STATUS_FB_READ (L : StatusLayout) : Nat :=
  L.STATUS_COMPUTE_FB_READ ||| L.STATUS_TRANSFER_FB_READ ||| L.STATUS_FRAGMENT_FB_READ

/-- Modelled from the spec: group mask of `atlas.hpp`, every write flag on the
unscaled domain. -/
def STATUS_FB_WRITE (L : StatusLayout) : Nat :=
  L.STATUS_COMPUTE_FB_WRITE ||| L.STATUS_TRANSFER_FB_WRITE ||| L.STATUS_FRAGMENT_FB_WRITE

/-- Modelled from the spec: group mask of `atlas.hpp`, every read flag on the
scaled domain. -/
def STATUS_SFB_READ (L : StatusLayout) : Nat :=
  L.STATUS_COMPUTE_SFB_READ ||| L.STATUS_TRANSFER_SFB_READ ||| L.STATUS_FRAGMENT_SFB_READ

/-- Modelled from the spec: group mask of `atlas.hpp`, every write flag on the
scaled domain. -/
def STATUS_SFB_WRITE (L : StatusLayout) : Nat :=
  L.STATUS_COMPUTE_SFB_WRITE ||| L.STATUS_TRANSFER_SFB_WRITE ||| L.STATUS_FRAGMENT_SFB_WRITE

/-- The four ownership values. -/
def ownerships (L : StatusLayout) : List Nat :=
  [L.STATUS_FB_ONLY, L.STATUS_FB_PREFER, L.STATUS_SFB_ONLY, L.STATUS_SFB_PREFER]

/-- The twelve hazard flags. -/
def hazard_bits (L : StatusLayout) : List Nat :=
  [L.STATUS_COMPUTE_FB_READ, L.STATUS_COMPUTE_FB_WRITE,
   L.STATUS_COMPUTE_SFB_READ, L.STATUS_COMPUTE_SFB_WRITE,
   L.STATUS_TRANSFER_FB_READ, L.STATUS_TRANSFER_SFB_READ,
   L.STATUS_TRANSFER_FB_WRITE, L.STATUS_TRANSFER_SFB_WRITE,
   L.STATUS_FRAGMENT_SFB_READ, L.STATUS_FRAGMENT_SFB_WRITE,
   L.STATUS_FRAGMENT_FB_READ, L.STATUS_FRAGMENT_FB_WRITE]

/-- What the code of `atlas.cpp` relies on about the enumerators: an ownership
value is usable as a shift amount of a 32-bit word and lies inside the ownership
mask, the four values are distinct, and the hazard flags are non-zero 32-bit
values outside the ownership mask that do not overlap each other. -/
structure WF (L : StatusLayout) : Prop where
  mask_lt : L.STATUS_OWNERSHIP_MASK < 32
  own_sub : ∀ v ∈ L.ownerships, v &&& L.STATUS_OWNERSHIP_MASK = v
  own_nodup : L.ownerships.Nodup
  hazard_ok : ∀ h ∈ L.hazard_bits,
    h ≠ 0 ∧ h < 4294967296 ∧ h &&& L.STATUS_OWNERSHIP_MASK = 0
  hazard_disjoint : L.hazard_bits.Pairwise (fun p q => p &&& q = 0)

end StatusLayout

/-- A concrete layout: ownership in the two low bits, one bit per hazard flag
above them. -/
def stdLayout : StatusLayout where
  STATUS_FB_ONLY := 0
  STATUS_FB_PREFER := 1
  STATUS_SFB_ONLY := 2
  STATUS_SFB_PREFER := 3
  STATUS_OWNERSHIP_MASK := 3
  STATUS_COMPUTE_FB_READ := 4
  STATUS_COMPUTE_FB_WRITE := 8
  STATUS_COMPUTE_SFB_READ := 16
  STATUS_COMPUTE_SFB_WRITE := 32
  STATUS_TRANSFER_FB_READ := 64
  STATUS_TRANSFER_SFB_READ := 128
  STATUS_TRANSFER_FB_WRITE := 256
  STATUS_TRANSFER_SFB_WRITE := 512
  STATUS_FRAGMENT_SFB_READ := 1024
  STATUS_FRAGMENT_SFB_WRITE := 2048
  STATUS_FRAGMENT_FB_READ := 4096
  STATUS_FRAGMENT_FB_WRITE := 8192

/-- Render-pass state of the atlas (`renderpass` member). -/
structure RenderPass where
  rect : Rect
  texture_window : Rect
  inside : Bool
  clean_clear : Bool
  wait_for_blit : Bool
deriving DecidableEq, Repr

/-- State of an `FBAtlas`: the status words `fb_info` (indexed by flat block
index), the render-pass state, and the trace of the masks passed to
`pipeline_barrier` so far (oldest first). -/
structure FBAtlas where
  fb_info : Nat → Nat
  renderpass : RenderPass
  barriers : List Nat

namespace FBAtlas

/-- Modelled from the spec: the accessor `info(x, y)` is declared in `atlas.hpp`,
which is not among the sources; the grid is stored row by row in `fb_info`, of
`NUM_BLOCKS_X * NUM_BLOCKS_Y` words. -/
def info (a : FBAtlas) (x y : Nat) : Nat :=
  a.fb_info (NUM_BLOCKS_X * y + x)

/-- Assignment `info(x, y) = v`. -/
def set_info (a : FBAtlas) (x y v : Nat) : FBAtlas :=
  { a with fb_info := Function.update a.fb_info (NUM_BLOCKS_X * y + x) v }

/-- The values `i = b, b+1, ..., e` of a loop `for (i = b; i <= e; i++)`. -/
def span (b e : Nat) : List Nat := List.range' b (e + 1 - b)

/-- The blocks `(x, y)` visited by the nested loops over
`[xbegin..xend] x [ybegin..yend]` of the hazard operations, in visiting order. -/
def block_range (rect : Rect) : List (Nat × Nat) :=
  let xbegin := rect.x / BLOCK_WIDTH
  let xend := sub32 (add32 rect.x rect.width) 1 / BLOCK_WIDTH
  let ybegin := rect.y / BLOCK_HEIGHT
  let yend := sub32 (add32 rect.y rect.height) 1 / BLOCK_HEIGHT
  (span ybegin yend).flatMap (fun y => (span xbegin xend).map (fun x => (x, y)))

/-- Constructor `FBAtlas::FBAtlas`: every block starts as `STATUS_FB_PREFER`.
The initial values of the `renderpass` member are declared in `atlas.hpp`, which is
not among the sources; they follow the spec: the render-pass state is created empty
and no pass is open. -/
def init (L : StatusLayout) : FBAtlas where
  fb_info := fun _ => L.STATUS_FB_PREFER
  renderpass :=
    { rect := ⟨0, 0, 0, 0⟩, texture_window := ⟨0, 0, 0, 0⟩,
      inside := false, clean_clear := false, wait_for_blit := false }
  barriers := []

/-- `FBAtlas::pipeline_barrier`: clears the bits of `domains` in every status
word.  The diagnostic lines the source prints to `stderr` are not modelled; the
call itself is recorded in the trace `barriers`. -/
def pipeline_barrier (domains : Nat) (a : FBAtlas) : FBAtlas :=
  { a with
    fb_info := fun i => a.fb_info i &&& not32 domains
    barriers := a.barriers ++ [domains] }

/-- `FBAtlas::inside_render_pass`. -/
def inside_render_pass (a : FBAtlas) (rect : Rect) : Bool :=
  if a.renderpass.inside = false then false
  else
    let xbegin := rect.x &&& not32 (BLOCK_WIDTH - 1)
    let ybegin := rect.y &&& not32 (BLOCK_HEIGHT - 1)
    let xend := add32 (sub32 (add32 rect.x rect.width) 1 ||| (BLOCK_WIDTH - 1)) 1
    let yend := add32 (sub32 (add32 rect.y rect.height) 1 ||| (BLOCK_HEIGHT - 1)) 1
    let x0 := max rect.x xbegin
    let x1 := min (add32 rect.x rect.width) xend
    let y0 := max rect.y ybegin
    let y1 := min (add32 rect.y rect.height) yend
    decide (x1 > x0) && decide (y1 > y0)

/-- The pair `(hazard_domains, resolve_domains)` computed at the top of
`write_domain`.  For `(Unscaled, Fragment)` the source leaves `resolve_domains`
unassigned; the model has `0` there. -/
def write_masks (L : StatusLayout) (domain : Domain) (stage : Stage) : Nat × Nat :=
  if domain = Domain.Unscaled then
    let hazard_domains := L.STATUS_FB_WRITE ||| L.STATUS_FB_READ
    if stage = Stage.Compute then
      (hazard_domains, L.STATUS_COMPUTE_FB_WRITE ||| L.STATUS_FB_ONLY)
    else if stage = Stage.Transfer then
      (hazard_domains, L.STATUS_TRANSFER_FB_WRITE ||| L.STATUS_FB_ONLY)
    else (hazard_domains, 0)
  else
    let hazard_domains := L.STATUS_SFB_WRITE ||| L.STATUS_SFB_READ
    if stage = Stage.Compute then
      (hazard_domains, L.STATUS_COMPUTE_SFB_WRITE ||| L.STATUS_SFB_ONLY)
    else if stage = Stage.Fragment then
      (hazard_domains &&& not32 (L.STATUS_FRAGMENT_SFB_WRITE ||| L.STATUS_FRAGMENT_SFB_READ),
       L.STATUS_FRAGMENT_SFB_WRITE ||| L.STATUS_SFB_ONLY)
    else
      (hazard_domains, L.STATUS_TRANSFER_SFB_WRITE ||| L.STATUS_SFB_ONLY)

/-- The pair `(hazard_domains, resolve_domains)` computed at the top of
`read_domain`.  For `(Unscaled, Fragment)` the source leaves `resolve_domains`
unassigned; the model has `0` there. -/
def read_masks (L : StatusLayout) (domain : Domain) (stage : Stage) : Nat × Nat :=
  if domain = Domain.Unscaled then
    let hazard_domains := L.STATUS_FB_WRITE
    if stage = Stage.Compute then (hazard_domains, L.STATUS_COMPUTE_FB_READ)
    else if stage = Stage.Transfer then (hazard_domains, L.STATUS_TRANSFER_FB_READ)
    else (hazard_domains, 0)
  else
    let hazard_domains := L.STATUS_SFB_WRITE
    if stage = Stage.Compute then (hazard_domains, L.STATUS_COMPUTE_SFB_READ)
    else if stage = Stage.Transfer then (hazard_domains, L.STATUS_TRANSFER_SFB_READ)
    else
      (hazard_domains &&& not32 (L.STATUS_FRAGMENT_SFB_WRITE ||| L.STATUS_FRAGMENT_SFB_READ),
       L.STATUS_FRAGMENT_SFB_READ)

/-- The scan loop `write_domains |= info(x, y) & hazard_domains` over the block
range of `rect`. -/
def scan_hazards (a : FBAtlas) (rect : Rect) (hazard_domains : Nat) : Nat :=
  (block_range rect).foldl (fun wd b => wd ||| (a.info b.1 b.2 &&& hazard_domains)) 0

/-- The conditional call `if (write_domains) pipeline_barrier(write_domains)`. -/
def barrier_if (write_domains : Nat) (a : FBAtlas) : FBAtlas :=
  if write_domains ≠ 0 then pipeline_barrier write_domains a else a

/-- Body of `write_domain` after the render-pass check (source lines 53-93). -/
def write_blocks (L : StatusLayout) (domain : Domain) (stage : Stage) (rect : Rect)
    (a : FBAtlas) : FBAtlas :=
  let m := write_masks L domain stage
  let write_domains := scan_hazards a rect m.1
  let a1 := barrier_if write_domains a
  (block_range rect).foldl
    (fun s b =>
      s.set_info b.1 b.2 ((s.info b.1 b.2 &&& not32 L.STATUS_OWNERSHIP_MASK) ||| m.2))
    a1

/-! `write_domain` and `flush_render_pass` call each other.  The recursion ends
because `flush_render_pass` clears `inside` before it calls `write_domain`, whose
render-pass check then fails: the measure is `2 * inside + 1` for `write_domain` and
`2 * inside` for `flush_render_pass`. -/

mutual

/-- `FBAtlas::write_domain`. -/
def write_domain (L : StatusLayout) (domain : Domain) (stage : Stage) (rect : Rect)
    (a : FBAtlas) : FBAtlas :=
  if inside_render_pass a rect = true then
    write_blocks L domain stage rect (flush_render_pass L a)
  else
    write_blocks L domain stage rect a
termination_by 2 * (if a.renderpass.inside = true then 1 else 0) + 1
decreasing_by all_goals simp_wf

/-- `FBAtlas::flush_render_pass`. -/
def flush_render_pass (L : StatusLayout) (a : FBAtlas) : FBAtlas :=
  if a.renderpass.inside = false then a
  else
    write_domain L Domain.Scaled Stage.Fragment a.renderpass.rect
      { a with renderpass := { a.renderpass with inside := false } }
termination_by 2 * (if a.renderpass.inside = true then 1 else 0)
decreasing_by all_goals simp_wf; simp_all

end

/-- `FBAtlas::read_domain`. -/
def read_domain (L : StatusLayout) (domain : Domain) (stage : Stage) (rect : Rect)
    (a : FBAtlas) : FBAtlas :=
  let a0 := if inside_render_pass a rect = true then flush_render_pass L a else a
  let m := read_masks L domain stage
  let write_domains := scan_hazards a0 rect m.1
  let a1 := barrier_if write_domains a0
  (block_range rect).foldl
    (fun s b => s.set_info b.1 b.2 (s.info b.1 b.2 ||| m.2))
    a1

/-- The triple `(ownership, hazard_domains, resolve_domains)` chosen by
`sync_domain`. -/
def sync_masks (L : StatusLayout) (domain : Domain) : Nat × Nat × Nat :=
  if domain = Domain.Scaled then
    (L.STATUS_FB_ONLY,
     L.STATUS_FB_WRITE ||| L.STATUS_SFB_WRITE ||| L.STATUS_SFB_READ,
     L.STATUS_TRANSFER_FB_READ ||| L.STATUS_FB_PREFER ||| L.STATUS_TRANSFER_SFB_WRITE)
  else
    (L.STATUS_SFB_ONLY,
     L.STATUS_FB_WRITE ||| L.STATUS_SFB_WRITE ||| L.STATUS_FB_READ,
     L.STATUS_TRANSFER_SFB_READ ||| L.STATUS_SFB_PREFER ||| L.STATUS_TRANSFER_FB_WRITE)

/-- The first loop of `sync_domain`: the set of ownership values present in the
block range, as a bit set. -/
def ownership_bits (L : StatusLayout) (a : FBAtlas) (rect : Rect) : Nat :=
  (block_range rect).foldl
    (fun bits b => bits ||| shl32 1 (a.info b.1 b.2 &&& L.STATUS_OWNERSHIP_MASK)) 0

/-- The value `dirty_bits` of `sync_domain`. -/
def dirty_bits (L : StatusLayout) (domain : Domain) : Nat :=
  shl32 1 (if domain = Domain.Unscaled then L.STATUS_SFB_ONLY else L.STATUS_FB_ONLY)

/-- `FBAtlas::sync_domain`. -/
def sync_domain (L : StatusLayout) (domain : Domain) (rect : Rect) (a : FBAtlas) : FBAtlas :=
  let bits := ownership_bits L a rect
  if bits &&& dirty_bits L domain = 0 then a
  else
    let a0 := if inside_render_pass a rect = true then flush_render_pass L a else a
    let m := sync_masks L domain
    let write_domains :=
      (block_range rect).foldl
        (fun wd b =>
          let mask := a0.info b.1 b.2
          if mask &&& L.STATUS_OWNERSHIP_MASK = m.1 then wd ||| (mask &&& m.2.1) else wd)
        0
    let a1 := barrier_if write_domains a0
    (block_range rect).foldl
      (fun s b =>
        let mask := s.info b.1 b.2
        if mask &&& L.STATUS_OWNERSHIP_MASK = m.1 then
          s.set_info b.1 b.2 ((mask &&& not32 L.STATUS_OWNERSHIP_MASK) ||| m.2.2)
        else s)
      a1

/-- `FBAtlas::find_suitable_domain`. -/
def find_suitable_domain (L : StatusLayout) (a : FBAtlas) (rect : Rect) : Domain :=
  if (block_range rect).any
      (fun b =>
        let i := a.info b.1 b.2
        decide (i = L.STATUS_FB_ONLY) || decide (i = L.STATUS_FB_PREFER))
  then Domain.Unscaled
  else Domain.Scaled

/-- `FBAtlas::read_compute`. -/
def read_compute (L : StatusLayout) (domain : Domain) (rect : Rect) (a : FBAtlas) : FBAtlas :=
  read_domain L domain Stage.Compute rect (sync_domain L domain rect a)

/-- `FBAtlas::write_compute`. -/
def write_compute (L : StatusLayout) (domain : Domain) (rect : Rect) (a : FBAtlas) : FBAtlas :=
  write_domain L domain Stage.Compute rect (sync_domain L domain rect a)

/-- `FBAtlas::read_transfer`. -/
def read_transfer (L : StatusLayout) (domain : Domain) (rect : Rect) (a : FBAtlas) : FBAtlas :=
  read_domain L domain Stage.Transfer rect (sync_domain L domain rect a)

/-- `FBAtlas::write_transfer`. -/
def write_transfer (L : StatusLayout) (domain : Domain) (rect : Rect) (a : FBAtlas) : FBAtlas :=
  write_domain L domain Stage.Transfer rect (sync_domain L domain rect a)

/-- `FBAtlas::read_texture`. -/
def read_texture (L : StatusLayout) (rect : Rect) (a : FBAtlas) : FBAtlas :=
  let domain := find_suitable_domain L a rect
  read_domain L domain Stage.Compute rect (sync_domain L domain rect a)

/-- `FBAtlas::set_texture_window`. -/
def set_texture_window (rect : Rect) (a : FBAtlas) : FBAtlas :=
  { a with renderpass := { a.renderpass with texture_window := rect } }

/-- `FBAtlas::discard_render_pass`. -/
def discard_render_pass (a : FBAtlas) : FBAtlas :=
  { a with renderpass := { a.renderpass with inside := false } }

/-- The three assignments that open a render pass. -/
def open_pass (clean : Bool) (a : FBAtlas) : FBAtlas :=
  { a with renderpass :=
      { a.renderpass with inside := true, clean_clear := clean, wait_for_blit := false } }

/-- `FBAtlas::write_fragment`. -/
def write_fragment (L : StatusLayout) (a : FBAtlas) : FBAtlas :=
  let a0 :=
    if inside_render_pass a a.renderpass.texture_window = true then flush_render_pass L a
    else a
  let a1 := read_texture L a0.renderpass.texture_window a0
  if a1.renderpass.inside = false then
    open_pass false (sync_domain L Domain.Scaled a1.renderpass.rect a1)
  else a1

/-- `FBAtlas::clear_rect`. -/
def clear_rect (L : StatusLayout) (rect : Rect) (a : FBAtlas) : FBAtlas :=
  if a.renderpass.rect = rect then
    open_pass true (discard_render_pass (sync_domain L Domain.Scaled rect a))
  else if a.renderpass.inside = false then
    open_pass false (sync_domain L Domain.Scaled rect a)
  else a

/-- `FBAtlas::set_draw_rect`. -/
def set_draw_rect (L : StatusLayout) (rect : Rect) (a : FBAtlas) : FBAtlas :=
  if a.renderpass.inside = false then
    { a with renderpass := { a.renderpass with rect := rect } }
  else if a.renderpass.rect ≠ rect then flush_render_pass L a
  else a

/-! ## Vocabulary of the statements -/

/-- Flat index of a block in `fb_info`, as computed by `info`. -/
def idx (b : Nat × Nat) : Nat := NUM_BLOCKS_X * b.2 + b.1

/-- The update loop `info(x, y) = f(info(x, y))` over a list of blocks. -/
def map_blocks (f : Nat → Nat) (l : List (Nat × Nat)) (a : FBAtlas) : FBAtlas :=
  l.foldl (fun s b => s.set_info b.1 b.2 (f (s.info b.1 b.2))) a

/-- The ownership field of the status word of block `(x, y)`. -/
def ownership (L : StatusLayout) (a : FBAtlas) (x y : Nat) : Nat :=
  a.info x y &&& L.STATUS_OWNERSHIP_MASK

end FBAtlas

/-- The (domain, stage) pairs the atlas accepts: the fragment stage only touches
the scaled domain. -/
def permitted (d : Domain) (s : Stage) : Prop :=
  s = Stage.Fragment → d = Domain.Scaled

instance (d : Domain) (s : Stage) : Decidable (permitted d s) := by
  unfold permitted; infer_instance

/-- A non-empty rectangle inside the 1024x512 VRAM. -/
def Rect.valid (r : Rect) : Prop :=
  0 < r.width ∧ 0 < r.height ∧ r.x + r.width ≤ FB_WIDTH ∧ r.y + r.height ≤ FB_HEIGHT

instance (r : Rect) : Decidable r.valid := by
  unfold Rect.valid; infer_instance

namespace StatusLayout

/-- The value `D_ONLY` of a domain. -/
def only_value (L : StatusLayout) : Domain → Nat
  | Domain.Unscaled => L.STATUS_FB_ONLY
  | Domain.Scaled => L.STATUS_SFB_ONLY

/-- The value `D_PREFER` of a domain. -/
def prefer_value (L : StatusLayout) : Domain → Nat
  | Domain.Unscaled => L.STATUS_FB_PREFER
  | Domain.Scaled => L.STATUS_SFB_PREFER

/-- The ownership value that makes a block dirty for a domain: only the other
store is valid. -/
def dirty_value (L : StatusLayout) : Domain → Nat
  | Domain.Unscaled => L.STATUS_SFB_ONLY
  | Domain.Scaled => L.STATUS_FB_ONLY

/-- The hazard flag `STAGE_DOMAIN_WRITE`. -/
def write_flag (L : StatusLayout) : Domain → Stage → Nat
  | Domain.Unscaled, Stage.Compute => L.STATUS_COMPUTE_FB_WRITE
  | Domain.Unscaled, Stage.Transfer => L.STATUS_TRANSFER_FB_WRITE
  | Domain.Unscaled, Stage.Fragment => L.STATUS_FRAGMENT_FB_WRITE
  | Domain.Scaled, Stage.Compute => L.STATUS_COMPUTE_SFB_WRITE
  | Domain.Scaled, Stage.Transfer => L.STATUS_TRANSFER_SFB_WRITE
  | Domain.Scaled, Stage.Fragment => L.STATUS_FRAGMENT_SFB_WRITE

end StatusLayout

namespace FBAtlas

/-- The per-block update of the last loop of `sync_domain`. -/
def sync_update (L : StatusLayout) (d : Domain) (mask : Nat) : Nat :=
  if mask &&& L.STATUS_OWNERSHIP_MASK = (sync_masks L d).1 then
    (mask &&& not32 L.STATUS_OWNERSHIP_MASK) ||| (sync_masks L d).2.2
  else mask

/-- The hazard scan of `sync_domain` (its second loop). -/
def sync_scan (L : StatusLayout) (d : Domain) (rect : Rect) (a : FBAtlas) : Nat :=
  (block_range rect).foldl
    (fun wd b =>
      let mask := a.info b.1 b.2
      if mask &&& L.STATUS_OWNERSHIP_MASK = (sync_masks L d).1 then
        wd ||| (mask &&& (sync_masks L d).2.1)
      else wd)
    0

end FBAtlas

/-- A pixel lies in a rectangle. -/
def Rect.contains (r : Rect) (px py : Nat) : Prop :=
  r.x ≤ px ∧ px < r.x + r.width ∧ r.y ≤ py ∧ py < r.y + r.height

/-- Two rectangles share at least one pixel. -/
def Rect.shares_pixel (r1 r2 : Rect) : Prop :=
  ∃ px py, r1.contains px py ∧ r2.contains px py

/-- The compute and transfer accesses of the atlas. -/
inductive Access where
  | read_compute
  | write_compute
  | read_transfer
  | write_transfer
deriving DecidableEq, Repr

/-- Performs an access on a domain and a rectangle. -/
def Access.run (L : StatusLayout) : Access → Domain → Rect → FBAtlas → FBAtlas
  | Access.read_compute => FBAtlas.read_compute L
  | Access.write_compute => FBAtlas.write_compute L
  | Access.read_transfer => FBAtlas.read_transfer L
  | Access.write_transfer => FBAtlas.write_transfer L

namespace FBAtlas

/-- No render pass is open and every block of the range of `rect` is in the state
of a fresh atlas. -/
def fresh_on (L : StatusLayout) (a : FBAtlas) (rect : Rect) : Prop :=
  a.renderpass.inside = false ∧
    ∀ b ∈ block_range rect, a.info b.1 b.2 = L.STATUS_FB_PREFER

/-- The atlas after `set_draw_rect({0,0,8,8}); clear_rect({0,0,8,8})` on a fresh
atlas: a render pass is open on `{0,0,8,8}`. -/
def open_pass_state : FBAtlas :=
  clear_rect stdLayout ⟨0, 0, 8, 8⟩ (set_draw_rect stdLayout ⟨0, 0, 8, 8⟩ (init stdLayout))

/-- The atlas after `write_compute(Unscaled, {0,0,8,8}); set_draw_rect({0,0,8,8});
clear_rect({8,8,8,8})` on a fresh atlas: a render pass is open on `{0,0,8,8}` while
block `(0,0)` is still `FB_ONLY`. -/
def dirty_pass_state : FBAtlas :=
  clear_rect stdLayout ⟨8, 8, 8, 8⟩
    (set_draw_rect stdLayout ⟨0, 0, 8, 8⟩
      (write_compute stdLayout Domain.Unscaled ⟨0, 0, 8, 8⟩ (init stdLayout)))

/-- The atlas after `copy_cpu_to_vram` on `{64,64,16,16}` of a fresh atlas. -/
def uploaded_state : FBAtlas :=
  write_compute stdLayout Domain.Unscaled ⟨64, 64, 16, 16⟩ (init stdLayout)

end FBAtlas

/-- A rectangle of zero area whose block range is empty: zero width at a positive
multiple of `BLOCK_WIDTH`, or zero height at a positive multiple of `BLOCK_HEIGHT`. -/
def Rect.empty_aligned (r : Rect) : Prop :=
  (r.width = 0 ∧ 0 < r.x ∧ r.x % BLOCK_WIDTH = 0) ∨
  (r.height = 0 ∧ 0 < r.y ∧ r.y % BLOCK_HEIGHT = 0)

instance (r : Rect) : Decidable r.empty_aligned := by
  unfold Rect.empty_aligned; infer_instance

/-- The origin of a rectangle lies inside the 1024x512 VRAM. -/
def Rect.origin_inside (r : Rect) : Prop := r.x < FB_WIDTH ∧ r.y < FB_HEIGHT

instance (r : Rect) : Decidable r.origin_inside := by
  unfold Rect.origin_inside; infer_instance

namespace FBAtlas

/-- The atlas after `set_texture_window({64,64,8,8}); set_draw_rect({0,0,8,8})` and
the `write_fragment` of a first draw on a fresh atlas: a pass is open on
`{0,0,8,8}`. -/
def first_draw_state : FBAtlas :=
  write_fragment stdLayout
    (set_draw_rect stdLayout ⟨0, 0, 8, 8⟩ (set_texture_window ⟨64, 64, 8, 8⟩ (init stdLayout)))

/-- The atlas after a second `set_draw_rect({0,0,8,8})` and the `write_fragment` of
a second draw. -/
def second_draw_state : FBAtlas :=
  write_fragment stdLayout (set_draw_rect stdLayout ⟨0, 0, 8, 8⟩ first_draw_state)

end FBAtlas

/-! ## Renderer: data model of `renderer.hpp` and `renderer.cpp` -/

/-- Modelled from the spec: `TextureMode` is declared in a header that is not among
the sources; the spec lists its four sampler paths. -/
inductive TextureMode where
  | None
  | ABGR1555
  | Palette8bpp
  | Palette4bpp
deriving DecidableEq, Repr

/-- The blend modes of `renderer.hpp`. -/
inductive SemiTransparentMode where
  | None
  | Average
  | Add
  | Sub
  | AddQuarter
deriving DecidableEq, Repr

/-- Single-precision arithmetic is not interpreted: `F` stands for `float` and the
float operations `build_attribs` and `allocate_depth` use are parameters. -/
structure FloatOps (F : Type) where
  /-- The sum `float + int` of a coordinate and a draw offset. -/
  add_int : F → Int → F
  /-- The product `uint8_t * float` of a texel coordinate and a uv scale. -/
  mul_u8 : Nat → F → F
  /-- The conversion `float(unsigned)`. -/
  of_unsigned : Nat → F
  /-- The depth `1.0f - primitive_index * (2.0f / 0xffffff)`. -/
  depth : Nat → F

/-- Input vertex (`struct Vertex`). -/
structure Vertex (F : Type) where
  x : F
  y : F
  w : F
  color : Nat
  u : Nat
  v : Nat
deriving DecidableEq, Repr

/-- Vertex of the draw queue (`struct BufferVertex`). -/
structure BufferVertex (F : Type) where
  x : F
  y : F
  z : F
  w : F
  u : F
  v : F
  layer : F
  color : Nat
deriving DecidableEq, Repr

/-- The member `render_state` of the renderer. -/
structure RenderState where
  draw_offset_x : Int
  draw_offset_y : Int
  palette_offset_x : Nat
  palette_offset_y : Nat
  texture_mode : TextureMode
  semi_transparent : SemiTransparentMode
  force_mask_bit : Bool
  texture_color_modulate : Bool
  mask_test : Bool
deriving DecidableEq, Repr

/-- Per-primitive state of the ordered queue (`struct SemiTransparentState`); its
`operator==` compares the four fields. -/
structure SemiTransparentState where
  image_index : Nat
  semi_transparent : SemiTransparentMode
  textured : Bool
  masked : Bool
deriving DecidableEq, Repr

/-- A block rectangle of a resolve list (`VkRect2D`). -/
structure VkRect2D where
  x : Int
  y : Int
  width : Nat
  height : Nat
deriving DecidableEq, Repr

/-- The draw queue (`struct OpaqueQueue`, member `queue`).  The bucket the source
calls `queue.opaque` is `opaque_flat` here. -/
structure OpaqueQueue (F : Type) where
  opaque_flat : List (BufferVertex F)
  opaque_textured : List (List (BufferVertex F))
  semi_transparent_opaque : List (List (BufferVertex F))
  semi_transparent : List (BufferVertex F)
  semi_transparent_state : List SemiTransparentState
  textures : List Nat
  scaled_resolves : List VkRect2D
  unscaled_resolves : List VkRect2D

/-- Modelled from the spec: `TextureSurface` is declared in `texture.hpp`, which is
not among the sources; `renderer.cpp` reads the bucket index `texture` and the
`layer` of the last uploaded surface. -/
structure TextureSurface where
  texture : Nat
  layer : Nat
deriving DecidableEq, Repr

/-- State of a `Renderer` as far as the draw queue, the hazard callback and the
resolve lists go. -/
structure Renderer (F : Type) where
  atlas : FBAtlas
  scaling : Nat
  render_state : RenderState
  queue : OpaqueQueue F
  primitive_index : Nat
  last_surface : TextureSurface
  last_uv_scale_x : F
  last_uv_scale_y : F
  render_pass_is_feedback : Bool

/-- The bucket `select_pipeline` points to. -/
inductive Bucket where
  | flat
  | textured (texture : Nat)
  | semi_textured (texture : Nat)
deriving DecidableEq, Repr

namespace Renderer

variable {F : Type}

/-- `std::vector::resize(n)` on a vector of buckets that is shorter than `n`. -/
def resize_buckets (l : List (List (BufferVertex F))) (n : Nat) :
    List (List (BufferVertex F)) :=
  l ++ List.replicate (n - l.length) []

/-- The content of bucket `i` of a vector of buckets (empty when the vector has no
such bucket yet). -/
def bucket_at (l : List (List (BufferVertex F))) (i : Nat) : List (BufferVertex F) :=
  l.getD i []

/-- `Renderer::allocate_depth`: marks the fragment write on the atlas, advances
`primitive_index` and returns the depth of the primitive. -/
def allocate_depth (ops : FloatOps F) (L : StatusLayout) (r : Renderer F) : Renderer F × F :=
  let r1 : Renderer F :=
    { r with
      atlas := FBAtlas.write_fragment L r.atlas
      primitive_index := add32 r.primitive_index 1 }
  (r1, ops.depth r1.primitive_index)

/-- One iteration of the loop of `build_attribs`: the queue vertex built from an
input vertex. -/
def build_vertex (ops : FloatOps F) (r : Renderer F) (z : F) (v : Vertex F) : BufferVertex F :=
  let c0 := v.color &&& 0xffffff
  let c1 :=
    if r.render_state.texture_mode ≠ TextureMode.None ∧
        r.render_state.texture_color_modulate = false then 0x808080
    else c0
  { x := ops.add_int v.x r.render_state.draw_offset_x
    y := ops.add_int v.y r.render_state.draw_offset_y
    z := z
    w := v.w
    u := ops.mul_u8 v.u r.last_uv_scale_x
    v := ops.mul_u8 v.v r.last_uv_scale_y
    layer := ops.of_unsigned r.last_surface.layer
    color := c1 ||| (if r.render_state.force_mask_bit = true then 0xff000000 else 0) }

/-- `Renderer::build_attribs`: `vertices` is the input array, the result is the
renderer after `allocate_depth` and the output array (its entries `i < count` are the
ones the loop writes). -/
def build_attribs (ops : FloatOps F) (L : StatusLayout) (r : Renderer F)
    (vertices : Nat → Vertex F) (_count : Nat) : Renderer F × (Nat → BufferVertex F) :=
  let rz := allocate_depth ops L r
  (rz.1, fun i => build_vertex ops rz.1 rz.2 (vertices i))

/-- `Renderer::select_pipeline`: the renderer after the resize of the bucket vector
and the bucket pointed to (`none` for the null pointer). -/
def select_pipeline (r : Renderer F) : Renderer F × Option Bucket :=
  if r.render_state.mask_test = true then (r, none)
  else if r.render_state.texture_mode ≠ TextureMode.None then
    if r.render_state.semi_transparent ≠ SemiTransparentMode.None then
      let q :=
        if r.last_surface.texture ≥ r.queue.semi_transparent_opaque.length then
          { r.queue with
            semi_transparent_opaque :=
              resize_buckets r.queue.semi_transparent_opaque (r.last_surface.texture + 1) }
        else r.queue
      ({ r with queue := q }, some (Bucket.semi_textured r.last_surface.texture))
    else
      let q :=
        if r.last_surface.texture ≥ r.queue.opaque_textured.length then
          { r.queue with
            opaque_textured :=
              resize_buckets r.queue.opaque_textured (r.last_surface.texture + 1) }
        else r.queue
      ({ r with queue := q }, some (Bucket.textured r.last_surface.texture))
  else (r, some Bucket.flat)

/-- The call `out->push_back(v)` on the bucket `out`. -/
def push_bucket (q : OpaqueQueue F) (out : Bucket) (v : BufferVertex F) : OpaqueQueue F :=
  match out with
  | Bucket.flat => { q with opaque_flat := q.opaque_flat ++ [v] }
  | Bucket.textured i =>
    { q with opaque_textured := q.opaque_textured.set i (bucket_at q.opaque_textured i ++ [v]) }
  | Bucket.semi_textured i =>
    { q with
      semi_transparent_opaque :=
        q.semi_transparent_opaque.set i (bucket_at q.semi_transparent_opaque i ++ [v]) }

/-- The calls `out->push_back(v)` for the listed vertices, when `out` is not null. -/
def push_all (q : OpaqueQueue F) (out : Option Bucket) (vs : List (BufferVertex F)) :
    OpaqueQueue F :=
  match out with
  | none => q
  | some b => vs.foldl (fun s v => push_bucket s b v) q

/-- The condition under which a primitive enters the ordered queue. -/
def ordered (rs : RenderState) : Bool :=
  rs.mask_test ||
    (decide (rs.texture_mode ≠ TextureMode.None) &&
      decide (rs.semi_transparent ≠ SemiTransparentMode.None))

/-- The state entry pushed to `semi_transparent_state` for a primitive. -/
def ordered_state (r : Renderer F) : SemiTransparentState :=
  { image_index := r.last_surface.texture
    semi_transparent :=
      if r.render_state.texture_mode ≠ TextureMode.None then r.render_state.semi_transparent
      else SemiTransparentMode.None
    textured := decide (r.render_state.texture_mode ≠ TextureMode.None)
    masked := r.render_state.mask_test }

/-- The condition under which a primitive needs programmable blending. -/
def dragon_path (rs : RenderState) : Bool :=
  rs.mask_test && decide (rs.texture_mode ≠ TextureMode.None) &&
    decide (rs.semi_transparent ≠ SemiTransparentMode.None)

/-- The second half of `draw_triangle` and `draw_quad`: the primitive is pushed to
the ordered queue with `states` state entries. -/
def push_ordered (r : Renderer F) (vs : List (BufferVertex F)) (states : Nat) : Renderer F :=
  if ordered r.render_state = true then
    let q : OpaqueQueue F :=
      { r.queue with
        semi_transparent := r.queue.semi_transparent ++ vs
        semi_transparent_state :=
          r.queue.semi_transparent_state ++ List.replicate states (ordered_state r) }
    { r with
      queue := q
      render_pass_is_feedback :=
        if dragon_path r.render_state = true then true else r.render_pass_is_feedback }
  else r

/-- `Renderer::draw_triangle`. -/
def draw_triangle (ops : FloatOps F) (L : StatusLayout) (vertices : Nat → Vertex F)
    (r : Renderer F) : Renderer F :=
  let rv := build_attribs ops L r vertices 3
  let vert := rv.2
  let ro := select_pipeline rv.1
  let r1 : Renderer F :=
    { ro.1 with queue := push_all ro.1.queue ro.2 [vert 0, vert 1, vert 2] }
  push_ordered r1 [vert 0, vert 1, vert 2] 1

/-- `Renderer::draw_quad`. -/
def draw_quad (ops : FloatOps F) (L : StatusLayout) (vertices : Nat → Vertex F)
    (r : Renderer F) : Renderer F :=
  let rv := build_attribs ops L r vertices 4
  let vert := rv.2
  let ro := select_pipeline rv.1
  let r1 : Renderer F :=
    { ro.1 with
      queue := push_all ro.1.queue ro.2 [vert 0, vert 1, vert 2, vert 3, vert 2, vert 1] }
  push_ordered r1 [vert 0, vert 1, vert 2, vert 3, vert 2, vert 1] 2

end Renderer

namespace Renderer

variable {F : Type}

/-- The content of an opaque bucket of the queue. -/
def content (q : OpaqueQueue F) : Bucket → List (BufferVertex F)
  | Bucket.flat => q.opaque_flat
  | Bucket.textured i => bucket_at q.opaque_textured i
  | Bucket.semi_textured i => bucket_at q.semi_transparent_opaque i

/-- The routing table of the spec: the opaque bucket of a primitive, by mask test,
texture mode and semi-transparent mode (`none`: no opaque bucket). -/
def routed_bucket (rs : RenderState) (tex : Nat) : Option Bucket :=
  if rs.mask_test = true then none
  else if rs.texture_mode = TextureMode.None then some Bucket.flat
  else if rs.semi_transparent = SemiTransparentMode.None then some (Bucket.textured tex)
  else some (Bucket.semi_textured tex)

/-- The bucket exists in the queue (the flat bucket always does). -/
def bucket_valid (q : OpaqueQueue F) : Bucket → Prop
  | Bucket.flat => True
  | Bucket.textured i => i < q.opaque_textured.length
  | Bucket.semi_textured i => i < q.semi_transparent_opaque.length

end Renderer

/-! ## Renderer: ordered draws, hazard callback and resolves -/

/-- Product of two `unsigned` values. -/
def mul32 (a b : Nat) : Nat := (a * b) % U32

/-- The conversion `int(x)` of an `unsigned` value: values from `2^31` on wrap to
negative numbers. -/
def int_of_unsigned (x : Nat) : Int :=
  if x % U32 < 2147483648 then Int.ofNat (x % U32) else Int.ofNat (x % U32) - 4294967296

/-- Commands that `render_semi_transparent_primitives` records after its fixed
preamble: the vertex upload, the calls of its local function `set_state`, and the
draw calls `cmd->draw(vertex_count, instance_count, first_vertex, first_instance)`. -/
inductive SemiCmd where
  | upload (vertex_count : Nat)
  | set_state (state : SemiTransparentState)
  | draw (vertex_count instance_count first_vertex first_instance : Nat)
deriving DecidableEq, Repr

namespace Renderer

variable {F : Type}

/-- The test `last_state.masked && last_state.semi_transparent != None`: the state
needs programmable blending. -/
def programmable (s : SemiTransparentState) : Bool :=
  s.masked && decide (s.semi_transparent ≠ SemiTransparentMode.None)

/-- The batching loop of `render_semi_transparent_primitives` from index `i` on:
`rest` holds the entries `semi_transparent_state[i], [i+1], ...` still to visit; after
the last one the final draw of the function is recorded. -/
def semi_loop : List SemiTransparentState → Nat → SemiTransparentState → Nat → List SemiCmd
  | [], prims, _, last_draw_offset =>
    [SemiCmd.draw (mul32 (prims - last_draw_offset) 3) 1 (mul32 last_draw_offset 3) 0]
  | s :: rest, i, last_state, last_draw_offset =>
    if programmable last_state = true ∨ last_state ≠ s then
      SemiCmd.draw (mul32 (i - last_draw_offset) 3) 1 (mul32 last_draw_offset 3) 0
        :: SemiCmd.set_state s :: semi_loop rest (i + 1) s i
    else semi_loop rest (i + 1) last_state last_draw_offset

/-- `Renderer::render_semi_transparent_primitives`: the commands recorded for the
ordered queue. -/
def render_semi_transparent_primitives (q : OpaqueQueue F) : List SemiCmd :=
  let prims := q.semi_transparent_state.length % U32
  match q.semi_transparent_state.take prims with
  | [] => []
  | s0 :: rest =>
    SemiCmd.upload q.semi_transparent.length :: SemiCmd.set_state s0 :: semi_loop rest 1 s0 0

/-- The draw calls of a command list, as pairs (vertex count, first vertex). -/
def draw_ranges : List SemiCmd → List (Nat × Nat)
  | [] => []
  | SemiCmd.draw n _ first _ :: cs => (n, first) :: draw_ranges cs
  | SemiCmd.upload _ :: cs => draw_ranges cs
  | SemiCmd.set_state _ :: cs => draw_ranges cs

/-- The runs of a list that starts with the open run `cur` repeated `n + 1`
times. -/
def runs_from {α : Type} [DecidableEq α] (cur : α) (n : Nat) : List α → List (List α)
  | [] => [List.replicate (n + 1) cur]
  | b :: l =>
    if b = cur then runs_from cur (n + 1) l
    else List.replicate (n + 1) cur :: runs_from b 0 l

/-- The maximal runs of consecutive equal elements of a list, in order. -/
def runs {α : Type} [DecidableEq α] : List α → List (List α)
  | [] => []
  | a :: l => runs_from a 0 l

/-- One draw range per run: vertex count 3 x (run length), first vertex
3 x (run start), where `start` is the index of the first primitive of the first
run. -/
def run_ranges {α : Type} (start : Nat) : List (List α) → List (Nat × Nat)
  | [] => []
  | g :: gs => (3 * g.length, 3 * start) :: run_ranges (start + g.length) gs

end Renderer

/-- Commands that `flush_resolves` records: the binding of the resolve program of a
target domain, the upload of a slice of a resolve list as constant data, and
`cmd->dispatch(x, y, z)`. -/
inductive ResolveCmd where
  | bind_program (target : Domain)
  | upload (rects : List VkRect2D)
  | dispatch (x y z : Nat)
deriving DecidableEq, Repr

/-- `VK_PIPELINE_STAGE_FRAGMENT_SHADER_BIT` of the Vulkan headers. -/
def VK_PIPELINE_STAGE_FRAGMENT_SHADER_BIT : Nat := 0x80

/-- `VK_PIPELINE_STAGE_COLOR_ATTACHMENT_OUTPUT_BIT` of the Vulkan headers. -/
def VK_PIPELINE_STAGE_COLOR_ATTACHMENT_OUTPUT_BIT : Nat := 0x400

/-- `VK_PIPELINE_STAGE_COMPUTE_SHADER_BIT` of the Vulkan headers. -/
def VK_PIPELINE_STAGE_COMPUTE_SHADER_BIT : Nat := 0x800

/-- `VK_PIPELINE_STAGE_ALL_GRAPHICS_BIT` of the Vulkan headers. -/
def VK_PIPELINE_STAGE_ALL_GRAPHICS_BIT : Nat := 0x8000

/-- `VK_ACCESS_INPUT_ATTACHMENT_READ_BIT` of the Vulkan headers. -/
def VK_ACCESS_INPUT_ATTACHMENT_READ_BIT : Nat := 0x10

/-- `VK_ACCESS_SHADER_READ_BIT` of the Vulkan headers. -/
def VK_ACCESS_SHADER_READ_BIT : Nat := 0x20

/-- `VK_ACCESS_SHADER_WRITE_BIT` of the Vulkan headers. -/
def VK_ACCESS_SHADER_WRITE_BIT : Nat := 0x40

/-- `VK_ACCESS_COLOR_ATTACHMENT_READ_BIT` of the Vulkan headers. -/
def VK_ACCESS_COLOR_ATTACHMENT_READ_BIT : Nat := 0x80

/-- `VK_ACCESS_COLOR_ATTACHMENT_WRITE_BIT` of the Vulkan headers. -/
def VK_ACCESS_COLOR_ATTACHMENT_WRITE_BIT : Nat := 0x100

/-- What `Renderer::hazard` does when its assertions hold: the four masks passed to
`cmd->barrier`, and whether `flush_resolves` and `flush_texture_allocator` are called
before the barrier. -/
structure HazardBarrier where
  src_stages : Nat
  src_access : Nat
  dst_stages : Nat
  dst_access : Nat
  flushes_resolves : Bool
  flushes_texture_allocator : Bool
deriving DecidableEq, Repr

namespace Renderer

variable {F : Type}

/-- The masks `Renderer::hazard` computes from `flags`, before its last two
assertions. -/
def hazard_masks (L : StatusLayout) (flags : Nat) : HazardBarrier :=
  let src_stages0 : Nat := 0
  let src_access0 : Nat := 0
  let dst_stages0 : Nat := 0
  let dst_access0 : Nat := 0
  let src_stages1 :=
    if flags &&& (L.STATUS_FRAGMENT_FB_READ ||| L.STATUS_FRAGMENT_SFB_READ) ≠ 0 then
      src_stages0 ||| VK_PIPELINE_STAGE_ALL_GRAPHICS_BIT
    else src_stages0
  let fragment_write : Bool :=
    decide (flags &&& (L.STATUS_FRAGMENT_FB_WRITE ||| L.STATUS_FRAGMENT_SFB_WRITE) ≠ 0)
  let src_stages2 :=
    if fragment_write = true then src_stages1 ||| VK_PIPELINE_STAGE_ALL_GRAPHICS_BIT
    else src_stages1
  let src_access1 :=
    if fragment_write = true then src_access0 ||| VK_ACCESS_COLOR_ATTACHMENT_WRITE_BIT
    else src_access0
  let dst_access1 :=
    if fragment_write = true then
      dst_access0 ||| (VK_ACCESS_SHADER_READ_BIT ||| VK_ACCESS_SHADER_WRITE_BIT)
    else dst_access0
  let src_stages3 :=
    if flags &&& (L.STATUS_COMPUTE_FB_READ ||| L.STATUS_COMPUTE_SFB_READ) ≠ 0 then
      src_stages2 ||| VK_PIPELINE_STAGE_COMPUTE_SHADER_BIT
    else src_stages2
  let compute_write : Bool :=
    decide (flags &&& (L.STATUS_COMPUTE_FB_WRITE ||| L.STATUS_COMPUTE_SFB_WRITE) ≠ 0)
  let src_stages4 :=
    if compute_write = true then src_stages3 ||| VK_PIPELINE_STAGE_COMPUTE_SHADER_BIT
    else src_stages3
  let src_access2 :=
    if compute_write = true then src_access1 ||| VK_ACCESS_SHADER_WRITE_BIT else src_access1
  let dst_access2 :=
    if compute_write = true then
      dst_access1 ||| (VK_ACCESS_SHADER_READ_BIT ||| VK_ACCESS_SHADER_WRITE_BIT)
    else dst_access1
  let scaled_write : Bool :=
    decide (flags &&& (L.STATUS_COMPUTE_SFB_WRITE ||| L.STATUS_FRAGMENT_SFB_WRITE) ≠ 0)
  let dst_stages1 :=
    if scaled_write = true then
      dst_stages0 |||
        (VK_PIPELINE_STAGE_FRAGMENT_SHADER_BIT ||| VK_PIPELINE_STAGE_COLOR_ATTACHMENT_OUTPUT_BIT)
    else dst_stages0
  let dst_access3 :=
    if scaled_write = true then
      dst_access2 |||
        (VK_ACCESS_COLOR_ATTACHMENT_READ_BIT ||| VK_ACCESS_COLOR_ATTACHMENT_WRITE_BIT |||
          VK_ACCESS_INPUT_ATTACHMENT_READ_BIT)
    else dst_access2
  let dst_stages2 := dst_stages1 ||| VK_PIPELINE_STAGE_COMPUTE_SHADER_BIT
  { src_stages := src_stages4
    src_access := src_access2
    dst_stages := dst_stages2
    dst_access := dst_access3
    flushes_resolves :=
      decide (flags &&& (L.STATUS_COMPUTE_FB_READ ||| L.STATUS_COMPUTE_FB_WRITE |||
        L.STATUS_COMPUTE_SFB_READ ||| L.STATUS_COMPUTE_SFB_WRITE) ≠ 0)
    flushes_texture_allocator :=
      decide (flags &&& (L.STATUS_COMPUTE_FB_READ ||| L.STATUS_COMPUTE_SFB_READ) ≠ 0) }

/-- `Renderer::hazard`: `none` when one of its three assertions fails (a transfer
flag in `flags`, an empty source stage mask, an empty destination stage mask),
otherwise the barrier it records. -/
def hazard (L : StatusLayout) (flags : Nat) : Option HazardBarrier :=
  if flags &&& (L.STATUS_TRANSFER_FB_READ ||| L.STATUS_TRANSFER_FB_WRITE |||
      L.STATUS_TRANSFER_SFB_READ ||| L.STATUS_TRANSFER_SFB_WRITE) ≠ 0 then none
  else
    let b := hazard_masks L flags
    if b.src_stages = 0 then none
    else if b.dst_stages = 0 then none
    else some b

/-- The dispatch loop of `flush_resolves` over one resolve list, from index `i` on:
`size` is the `unsigned` size of the list, `gx`, `gy` the first two group counts.
The loop counter is an `unsigned`; `none` when the fuel runs out first. -/
def resolve_loop (gx gy : Nat) (rects : List VkRect2D) (size : Nat) :
    Nat → Nat → Option (List ResolveCmd)
  | 0, i => if i < size then none else some []
  | fuel + 1, i =>
    if i < size then
      let to_run := min (sub32 size i) 1024
      (resolve_loop gx gy rects size fuel (add32 i 1024)).map
        (fun cmds =>
          ResolveCmd.upload ((rects.drop i).take to_run) ::
            ResolveCmd.dispatch gx gy to_run :: cmds)
    else some []

/-- One of the two halves of `flush_resolves`: nothing for an empty list, otherwise
the program binding and the dispatch loop. -/
def resolve_pass (target : Domain) (gx gy : Nat) (rects : List VkRect2D) (fuel : Nat) :
    Option (List ResolveCmd) :=
  if rects = [] then some []
  else
    (resolve_loop gx gy rects (rects.length % U32) fuel 0).map
      (fun cmds => ResolveCmd.bind_program target :: cmds)

/-- `Renderer::flush_resolves`: the commands recorded and the renderer with both
resolve lists cleared; `none` when the fuel does not cover the loops. -/
def flush_resolves (fuel : Nat) (r : Renderer F) : Option (Renderer F × List ResolveCmd) :=
  match resolve_pass Domain.Scaled r.scaling r.scaling r.queue.scaled_resolves fuel,
      resolve_pass Domain.Unscaled 1 1 r.queue.unscaled_resolves fuel with
  | some c1, some c2 =>
    some ({ r with queue := { r.queue with scaled_resolves := [], unscaled_resolves := [] } },
      c1 ++ c2)
  | _, _ => none

/-- `Renderer::resolve`: queues the resolve of one block. -/
def resolve (target_domain : Domain) (x y : Nat) (r : Renderer F) : Renderer F :=
  if target_domain = Domain.Scaled then
    { r with
      queue :=
        { r.queue with
          scaled_resolves :=
            r.queue.scaled_resolves ++
              [⟨int_of_unsigned x, int_of_unsigned y, BLOCK_WIDTH, BLOCK_HEIGHT⟩] } }
  else
    { r with
      queue :=
        { r.queue with
          unscaled_resolves :=
            r.queue.unscaled_resolves ++
              [⟨int_of_unsigned x, int_of_unsigned y, BLOCK_WIDTH, BLOCK_HEIGHT⟩] } }

/-- The chunks of a resolve list in the words of the spec: `ceil(n / 1024)`
consecutive slices of at most 1024 rectangles, in order. -/
def chunks (rects : List VkRect2D) : List (List VkRect2D) :=
  (List.range ((rects.length + 1023) / 1024)).map
    (fun k => (rects.drop (1024 * k)).take 1024)

/-- The commands the spec describes for one resolve list: after the program binding
every chunk is uploaded and dispatched as `(gx, gy, N)`. -/
def chunk_cmds (target : Domain) (gx gy : Nat) (rects : List VkRect2D) : List ResolveCmd :=
  if rects = [] then []
  else
    ResolveCmd.bind_program target ::
      (chunks rects).flatMap (fun c => [ResolveCmd.upload c, ResolveCmd.dispatch gx gy c.length])

end Renderer

/-- Integer arithmetic in the place of the float operations, for concrete
examples. -/
def int_ops : FloatOps Int where
  add_int := fun a b => a + b
  mul_u8 := fun n a => Int.ofNat n * a
  of_unsigned := fun n => Int.ofNat n
  depth := fun n => 16777215 - 2 * Int.ofNat n

/-- An ordered queue of two quads with different textures: four state entries. -/
def sample_queue : OpaqueQueue Int where
  opaque_flat := []
  opaque_textured := []
  semi_transparent_opaque := []
  semi_transparent := []
  semi_transparent_state :=
    [⟨0, SemiTransparentMode.Add, true, false⟩, ⟨0, SemiTransparentMode.Add, true, false⟩,
     ⟨1, SemiTransparentMode.Add, true, false⟩, ⟨1, SemiTransparentMode.Add, true, false⟩]
  textures := []
  scaled_resolves := []
  unscaled_resolves := []

/-- A renderer of scaling 2 with two queued scaled resolves. -/
def sample_renderer : Renderer Int where
  atlas := FBAtlas.init stdLayout
  scaling := 2
  render_state :=
    { draw_offset_x := 0, draw_offset_y := 0, palette_offset_x := 0, palette_offset_y := 0,
      texture_mode := TextureMode.None, semi_transparent := SemiTransparentMode.None,
      force_mask_bit := false, texture_color_modulate := false, mask_test := false }
  queue := { sample_queue with scaled_resolves := [⟨0, 0, 8, 8⟩, ⟨8, 0, 8, 8⟩] }
  primitive_index := 0
  last_surface := ⟨0, 0⟩
  last_uv_scale_x := 1
  last_uv_scale_y := 1
  render_pass_is_feedback := false

/-! ## Atlas: block areas, barrier counts and bounded call depth -/

namespace StatusLayout

/-- The four transfer flags, as the first assertion of `Renderer::hazard` joins
them. -/
def transfer_flags (L : StatusLayout) : Nat :=
  L.STATUS_TRANSFER_FB_READ ||| L.STATUS_TRANSFER_FB_WRITE |||
    L.STATUS_TRANSFER_SFB_READ ||| L.STATUS_TRANSFER_SFB_WRITE

end StatusLayout

namespace FBAtlas

/-- No status word of the grid carries a transfer flag. -/
def transfer_free (L : StatusLayout) (a : FBAtlas) : Prop :=
  ∀ j, a.fb_info j &&& L.transfer_flags = 0

/-- The step from `a` to `b` passed only well-formed masks to `pipeline_barrier`:
each is non-zero and has no ownership bit, and none has a transfer flag when no
status word of `a` carries one. -/
def issues_masks (L : StatusLayout) (a b : FBAtlas) : Prop :=
  ∃ l : List Nat, b.barriers = a.barriers ++ l ∧
    (∀ m ∈ l, m ≠ 0 ∧ m &&& L.STATUS_OWNERSHIP_MASK = 0) ∧
    (transfer_free L a → ∀ m ∈ l, m &&& L.transfer_flags = 0)

/-- The pixel area of block `(bx, by)`. -/
def block_rect (b : Nat × Nat) : Rect :=
  ⟨BLOCK_WIDTH * b.1, BLOCK_HEIGHT * b.2, BLOCK_WIDTH, BLOCK_HEIGHT⟩

/-- The number of open render passes: 1 or 0. -/
def open_passes (a : FBAtlas) : Nat := if a.renderpass.inside = true then 1 else 0

/-- The atlas after `write_compute(Unscaled, {0,0,8,8})` on a fresh atlas. -/
def written_state : FBAtlas :=
  write_compute stdLayout Domain.Unscaled ⟨0, 0, 8, 8⟩ (init stdLayout)

/-- The atlas after `read_compute(Scaled, {8,0,8,8}); write_compute(Unscaled,
{0,0,8,8}); set_draw_rect({8,0,8,8}); clear_rect({8,0,8,8})` on a fresh atlas: a pass
is open on `{8,0,8,8}`, block `(1,0)` carries `COMPUTE_SFB_READ` and block `(0,0)` is
`FB_ONLY` with `COMPUTE_FB_WRITE`. -/
def busy_pass_state : FBAtlas :=
  clear_rect stdLayout ⟨8, 0, 8, 8⟩
    (set_draw_rect stdLayout ⟨8, 0, 8, 8⟩
      (write_compute stdLayout Domain.Unscaled ⟨0, 0, 8, 8⟩
        (read_compute stdLayout Domain.Scaled ⟨8, 0, 8, 8⟩ (init stdLayout))))

mutual

/-- `FBAtlas::write_domain` with an explicit bound on the nesting of calls in the place
of a termination argument: `none` when the bound is exceeded, otherwise the state and
the number of calls of `flush_render_pass` that got past its guard. -/
def write_domain_calls (L : StatusLayout) :
    Nat → Domain → Stage → Rect → FBAtlas → Option (FBAtlas × Nat)
  | 0, _, _, _, _ => none
  | depth + 1, domain, stage, rect, a =>
    if inside_render_pass a rect = true then
      (flush_render_pass_calls L depth a).map
        (fun p => (write_blocks L domain stage rect p.1, p.2))
    else some (write_blocks L domain stage rect a, 0)

/-- `FBAtlas::flush_render_pass` with the same bound and counter. -/
def flush_render_pass_calls (L : StatusLayout) : Nat → FBAtlas → Option (FBAtlas × Nat)
  | 0, _ => none
  | depth + 1, a =>
    if a.renderpass.inside = false then some (a, 0)
    else
      (write_domain_calls L depth Domain.Scaled Stage.Fragment a.renderpass.rect
        { a with renderpass := { a.renderpass with inside := false } }).map
        (fun p => (p.1, p.2 + 1))

end

/-- The step from `a` to `b` issued at most `n` pipeline barriers, one more being
allowed when it closed the open render pass. -/
def issues_within (n : Nat) (a b : FBAtlas) : Prop :=
  ∃ l : List Nat, b.barriers = a.barriers ++ l ∧ l.length + open_passes b ≤ n + open_passes a

/-- The atlas after an upload into the draw area, a draw and a change of the draw
rect: `set_texture_window({64,64,8,8}); write_compute(Unscaled, {0,0,8,8});
set_draw_rect({0,0,8,8}); write_fragment(); set_draw_rect({8,8,8,8})` on a fresh
atlas. -/
def drawn_upload_state : FBAtlas :=
  set_draw_rect stdLayout ⟨8, 8, 8, 8⟩
    (write_fragment stdLayout
      (set_draw_rect stdLayout ⟨0, 0, 8, 8⟩
        (write_compute stdLayout Domain.Unscaled ⟨0, 0, 8, 8⟩
          (set_texture_window ⟨64, 64, 8, 8⟩ (init stdLayout)))))

end FBAtlas

/-! ## Renderer: queue reset and client calls -/

/-- A draw call of the client, with the values at the time of the call of the members
that the setters of `renderer.hpp` (`render_state`) and the texture uploads
(`last_surface`) assign between draws. -/
inductive DrawCall (F : Type) where
  | triangle (rs : RenderState) (surface : TextureSurface) (vertices : Nat → Vertex F)
  | quad (rs : RenderState) (surface : TextureSurface) (vertices : Nat → Vertex F)

/-- A call that changes the draw queue: a draw, or `reset_queue` (called by
`flush_render_pass` and `discard_render_pass`). -/
inductive QueueCall (F : Type) where
  | draw (c : DrawCall F)
  | reset

namespace Renderer

variable {F : Type}

/-- Whether the local function `set_state` of `render_semi_transparent_primitives`
records `cmd->pixel_barrier()` for a state: in the masked branch of each of the four
blend modes, not for mode `None`. -/
def set_state_pixel_barrier (s : SemiTransparentState) : Bool :=
  match s.semi_transparent with
  | SemiTransparentMode.None => false
  | SemiTransparentMode.Add => s.masked
  | SemiTransparentMode.Average => s.masked
  | SemiTransparentMode.Sub => s.masked
  | SemiTransparentMode.AddQuarter => s.masked

/-- The draw ranges (vertex count, first vertex) follow each other without gap or
overlap from vertex `start` to vertex `stop`, none of them empty. -/
def covers : Nat → List (Nat × Nat) → Nat → Prop
  | start, [], stop => start = stop
  | start, r :: rs, stop => r.2 = start ∧ 0 < r.1 ∧ covers (start + r.1) rs stop

/-- `Renderer::reset_queue`; the restart of the texture allocator is not modelled. -/
def reset_queue (r : Renderer F) : Renderer F :=
  { r with
    queue :=
      { r.queue with
        opaque_flat := []
        opaque_textured := []
        textures := []
        semi_transparent := []
        semi_transparent_state := []
        semi_transparent_opaque := [] }
    primitive_index := 0
    render_pass_is_feedback := false }

end Renderer

namespace DrawCall

variable {F : Type}

/-- The render state a draw call is issued with. -/
def state : DrawCall F → RenderState
  | triangle rs _ _ => rs
  | quad rs _ _ => rs

/-- Performs a draw call. -/
def run (ops : FloatOps F) (L : StatusLayout) : DrawCall F → Renderer F → Renderer F
  | triangle rs surface vertices, r =>
    Renderer.draw_triangle ops L vertices { r with render_state := rs, last_surface := surface }
  | quad rs surface vertices, r =>
    Renderer.draw_quad ops L vertices { r with render_state := rs, last_surface := surface }

end DrawCall

namespace QueueCall

variable {F : Type}

/-- Performs a call. -/
def run (ops : FloatOps F) (L : StatusLayout) : QueueCall F → Renderer F → Renderer F
  | draw c, r => c.run ops L r
  | reset, r => Renderer.reset_queue r

end QueueCall

namespace Renderer

/-- An ordered queue of three masked `Add` primitives of one texture. -/
def masked_queue : OpaqueQueue Int :=
  { sample_queue with
    semi_transparent_state :=
      [⟨0, SemiTransparentMode.Add, true, true⟩, ⟨0, SemiTransparentMode.Add, true, true⟩,
       ⟨0, SemiTransparentMode.Add, true, true⟩] }

/-- A renderer with an empty draw queue whose atlas has a texture window and a draw
rect set. -/
def ready_renderer : Renderer Int :=
  reset_queue
    { sample_renderer with
      atlas :=
        FBAtlas.set_draw_rect stdLayout ⟨0, 0, 8, 8⟩
          (FBAtlas.set_texture_window ⟨64, 64, 8, 8⟩ (FBAtlas.init stdLayout)) }

/-- The render state of a masked, textured, semi-transparent draw. -/
def masked_blend_state : RenderState :=
  { draw_offset_x := 0, draw_offset_y := 0, palette_offset_x := 0, palette_offset_y := 0,
    texture_mode := TextureMode.ABGR1555, semi_transparent := SemiTransparentMode.Add,
    force_mask_bit := false, texture_color_modulate := false, mask_test := true }

/-- A quad, a queue reset and a triangle, all drawn with `masked_blend_state`. -/
def sample_calls : List (QueueCall Int) :=
  [QueueCall.draw (DrawCall.quad masked_blend_state ⟨0, 0⟩ (fun _ => ⟨0, 0, 1, 0, 0, 0⟩)),
   QueueCall.reset,
   QueueCall.draw (DrawCall.triangle masked_blend_state ⟨0, 0⟩ (fun _ => ⟨0, 0, 1, 0, 0, 0⟩))]

end Renderer

/-! ## Command stream reader of `main.cpp` -/

namespace Replayer

/-! Opcodes of the command stream (the anonymous `enum` of `main.cpp`). -/

/-- Opcode `RSX_END`: end of the stream. -/
def RSX_END : Nat := 0

/-- Opcode `RSX_PREPARE_FRAME`: start of a frame. -/
def RSX_PREPARE_FRAME : Nat := 1

/-- Opcode `RSX_FINALIZE_FRAME`: end of a frame. -/
def RSX_FINALIZE_FRAME : Nat := 2

/-- Opcode `RSX_TEX_WINDOW`: texture window. -/
def RSX_TEX_WINDOW : Nat := 3

/-- Opcode `RSX_DRAW_OFFSET`: draw offset. -/
def RSX_DRAW_OFFSET : Nat := 4

/-- Opcode `RSX_DRAW_AREA`: draw area. -/
def RSX_DRAW_AREA : Nat := 5

/-- Opcode `RSX_DISPLAY_MODE`: display mode. -/
def RSX_DISPLAY_MODE : Nat := 6

/-- Opcode `RSX_TRIANGLE`: triangle. -/
def RSX_TRIANGLE : Nat := 7

/-- Opcode `RSX_QUAD`: quad. -/
def RSX_QUAD : Nat := 8

/-- Opcode `RSX_LINE`: line. -/
def RSX_LINE : Nat := 9

/-- Opcode `RSX_LOAD_IMAGE`: image upload. -/
def RSX_LOAD_IMAGE : Nat := 10

/-- Opcode `RSX_FILL_RECT`: rectangle fill. -/
def RSX_FILL_RECT : Nat := 11

/-- Opcode `RSX_COPY_RECT`: rectangle copy. -/
def RSX_COPY_RECT : Nat := 12

/-- Opcode `RSX_TOGGLE_DISPLAY`: display toggle. -/
def RSX_TOGGLE_DISPLAY : Nat := 13


/-- `read_u32`: the `FILE` is the list of the bytes not yet read; `fread` of one
4-byte item (little endian), an exception when fewer than 4 bytes are left. -/
def read_u32 (file : List Nat) : Except String (Nat × List Nat) :=
  match file with
  | b0 :: b1 :: b2 :: b3 :: rest =>
    Except.ok (b0 + 256 * b1 + 65536 * b2 + 16777216 * b3, rest)
  | _ => Except.error "Failed to read u32"

/-- `read_i32`: as `read_u32`; the value is kept as the 32-bit word read. -/
def read_i32 (file : List Nat) : Except String (Nat × List Nat) :=
  match file with
  | b0 :: b1 :: b2 :: b3 :: rest =>
    Except.ok (b0 + 256 * b1 + 65536 * b2 + 16777216 * b3, rest)
  | _ => Except.error "Failed to read i32"

/-- The conversion of a `float`, given by its 32 bits (IEEE 754 single precision),
to `int32_t`: the value truncated toward zero.  For a NaN, an infinity or a value
outside the range of `int32_t` C++ leaves the conversion undefined; the model has
`-2^31` there, the result of the x86 conversion instruction. -/
def f32_to_i32 (bits : Nat) : Int :=
  let sign := bits / 2147483648 % 2
  let exponent := bits / 8388608 % 256
  let mantissa := bits % 8388608
  if exponent < 127 then 0
  else if exponent ≥ 158 then -2147483648
  else
    let magnitude :=
      if exponent ≥ 150 then (8388608 + mantissa) * 2 ^ (exponent - 150)
      else (8388608 + mantissa) / 2 ^ (150 - exponent)
    if sign = 1 then -Int.ofNat magnitude else Int.ofNat magnitude

/-- `read_f32`: `fread` of one `float`, returned as `int32_t`. -/
def read_f32 (file : List Nat) : Except String (Int × List Nat) :=
  match file with
  | b0 :: b1 :: b2 :: b3 :: rest =>
    Except.ok (f32_to_i32 (b0 + 256 * b1 + 65536 * b2 + 16777216 * b3), rest)
  | _ => Except.error "Failed to read f32"

/-- `struct CommandVertex`; the `float` fields hold the whole numbers `read_f32`
returns. -/
structure CommandVertex where
  x : Int
  y : Int
  w : Int
  color : Nat
  tx : Nat
  ty : Nat
deriving DecidableEq, Repr

/-- `struct RenderState` of `main.cpp`. -/
structure RenderState where
  texpage_x : Nat
  texpage_y : Nat
  clut_x : Nat
  clut_y : Nat
  texture_blend_mode : Nat
  depth_shift : Nat
  dither : Bool
  blend_mode : Nat
  mask_test : Bool
  set_mask : Bool
deriving DecidableEq, Repr

/-- `struct CommandLine`. -/
structure CommandLine where
  x0 : Nat
  y0 : Nat
  x1 : Nat
  y1 : Nat
  c0 : Nat
  c1 : Nat
  dither : Bool
  blend_mode : Nat
  mask_test : Bool
  set_mask : Bool
deriving DecidableEq, Repr

/-- `read_vertex`. -/
def read_vertex (file : List Nat) : Except String (CommandVertex × List Nat) := do
  let (x, f1) ← read_f32 file
  let (y, f2) ← read_f32 f1
  let (w, f3) ← read_f32 f2
  let (color, f4) ← read_u32 f3
  let (tx, f5) ← read_u32 f4
  let (ty, f6) ← read_u32 f5
  pure ({ x := x, y := y, w := w, color := color, tx := tx % 65536, ty := ty % 65536 }, f6)

/-- `read_state`. -/
def read_state (file : List Nat) : Except String (RenderState × List Nat) := do
  let (texpage_x, f1) ← read_u32 file
  let (texpage_y, f2) ← read_u32 f1
  let (clut_x, f3) ← read_u32 f2
  let (clut_y, f4) ← read_u32 f3
  let (texture_blend_mode, f5) ← read_u32 f4
  let (depth_shift, f6) ← read_u32 f5
  let (dither, f7) ← read_u32 f6
  let (blend_mode, f8) ← read_u32 f7
  let (mask_test, f9) ← read_u32 f8
  let (set_mask, f10) ← read_u32 f9
  pure ({ texpage_x := texpage_x % 65536, texpage_y := texpage_y % 65536,
          clut_x := clut_x % 65536, clut_y := clut_y % 65536,
          texture_blend_mode := texture_blend_mode % 256, depth_shift := depth_shift % 256,
          dither := decide (dither ≠ 0), blend_mode := blend_mode,
          mask_test := decide (mask_test ≠ 0), set_mask := decide (set_mask ≠ 0) }, f10)

/-- `read_line`. -/
def read_line (file : List Nat) : Except String (CommandLine × List Nat) := do
  let (x0, f1) ← read_i32 file
  let (y0, f2) ← read_i32 f1
  let (x1, f3) ← read_i32 f2
  let (y1, f4) ← read_i32 f3
  let (c0, f5) ← read_u32 f4
  let (c1, f6) ← read_u32 f5
  let (dither, f7) ← read_u32 f6
  let (blend_mode, f8) ← read_u32 f7
  let (mask_test, f9) ← read_u32 f8
  let (set_mask, f10) ← read_u32 f9
  pure ({ x0 := x0 % 65536, y0 := y0 % 65536, x1 := x1 % 65536, y1 := y1 % 65536,
          c0 := c0, c1 := c1, dither := decide (dither ≠ 0), blend_mode := blend_mode,
          mask_test := decide (mask_test ≠ 0), set_mask := decide (set_mask ≠ 0) }, f10)

/-- The call `fread(ptr, size, count, file)` whose result the caller ignores: the
bytes left in the file after it.  It consumes `size * count` bytes, or all that is
left when the file is shorter. -/
def fread_unchecked (size count : Nat) (file : List Nat) : List Nat :=
  file.drop (size * count)

/-- What a call of `read_command` that returns normally hands back: the `bool` it
returns, the flag `eof`, and the bytes of the file not yet read. -/
structure Outcome where
  result : Bool
  eof : Bool
  file : List Nat
deriving DecidableEq, Repr

/-- `read_command`: the reading of one record.  The calls into the renderer that
follow the reads of a record are not modelled; an exception thrown by a read is the
error of the result. -/
def read_command (file : List Nat) : Except String Outcome := do
  let (op, f0) ← read_u32 file
  if op = RSX_PREPARE_FRAME then pure ⟨true, false, f0⟩
  else if op = RSX_FINALIZE_FRAME then pure ⟨false, false, f0⟩
  else if op = RSX_END then pure ⟨false, true, f0⟩
  else if op = RSX_TEX_WINDOW then
    let (_tww, f1) ← read_u32 f0
    let (_twh, f2) ← read_u32 f1
    let (_twx, f3) ← read_u32 f2
    let (_twy, f4) ← read_u32 f3
    pure ⟨true, false, f4⟩
  else if op = RSX_DRAW_OFFSET then
    let (_x, f1) ← read_i32 f0
    let (_y, f2) ← read_i32 f1
    pure ⟨true, false, f2⟩
  else if op = RSX_DRAW_AREA then
    let (_x0, f1) ← read_u32 f0
    let (_y0, f2) ← read_u32 f1
    let (_x1, f3) ← read_u32 f2
    let (_y1, f4) ← read_u32 f3
    pure ⟨true, false, f4⟩
  else if op = RSX_DISPLAY_MODE then
    let (_x, f1) ← read_u32 f0
    let (_y, f2) ← read_u32 f1
    let (_w, f3) ← read_u32 f2
    let (_h, f4) ← read_u32 f3
    let (_depth_24bpp, f5) ← read_u32 f4
    pure ⟨true, false, f5⟩
  else if op = RSX_TRIANGLE then
    let (_v0, f1) ← read_vertex f0
    let (_v1, f2) ← read_vertex f1
    let (_v2, f3) ← read_vertex f2
    let (_state, f4) ← read_state f3
    pure ⟨true, false, f4⟩
  else if op = RSX_QUAD then
    let (_v0, f1) ← read_vertex f0
    let (_v1, f2) ← read_vertex f1
    let (_v2, f3) ← read_vertex f2
    let (_v3, f4) ← read_vertex f3
    let (_state, f5) ← read_state f4
    pure ⟨true, false, f5⟩
  else if op = RSX_LINE then
    let (_line, f1) ← read_line f0
    pure ⟨true, false, f1⟩
  else if op = RSX_LOAD_IMAGE then
    let (_x, f1) ← read_u32 f0
    let (_y, f2) ← read_u32 f1
    let (width, f3) ← read_u32 f2
    let (height, f4) ← read_u32 f3
    let (_mask_test, f5) ← read_u32 f4
    let (_set_mask, f6) ← read_u32 f5
    pure ⟨true, false, fread_unchecked 2 (mul32 width height) f6⟩
  else if op = RSX_FILL_RECT then
    let (_color, f1) ← read_u32 f0
    let (_x, f2) ← read_u32 f1
    let (_y, f3) ← read_u32 f2
    let (_w, f4) ← read_u32 f3
    let (_h, f5) ← read_u32 f4
    pure ⟨true, false, f5⟩
  else if op = RSX_COPY_RECT then
    let (_src_x, f1) ← read_u32 f0
    let (_src_y, f2) ← read_u32 f1
    let (_dst_x, f3) ← read_u32 f2
    let (_dst_y, f4) ← read_u32 f3
    let (_w, f5) ← read_u32 f4
    let (_h, f6) ← read_u32 f5
    let (_mask_test, f7) ← read_u32 f6
    let (_set_mask, f8) ← read_u32 f7
    pure ⟨true, false, f8⟩
  else if op = RSX_TOGGLE_DISPLAY then
    let (_toggle, f1) ← read_u32 f0
    pure ⟨true, false, f1⟩
  else throw "Invalid opcode."

/-- The call returned normally (no exception reached the caller). -/
def returns_normally {α : Type} : Except String α → Bool
  | Except.ok _ => true
  | Except.error _ => false

/-- The bytes of a `u32` in the file. -/
def u32_bytes (v : Nat) : List Nat :=
  [v % 256, v / 256 % 256, v / 65536 % 256, v / 16777216 % 256]

/-- A `LOAD_IMAGE` record for the rectangle `{0,0,1,1}`, with its one pixel. -/
def load_image_record : List Nat :=
  u32_bytes RSX_LOAD_IMAGE ++ u32_bytes 0 ++ u32_bytes 0 ++ u32_bytes 1 ++ u32_bytes 1 ++
    u32_bytes 0 ++ u32_bytes 0 ++ [0x34, 0x12]

end Replayer

/-! ## Bit-level lemmas -/

theorem testBit_not32 (m i : Nat) :
    (not32 m).testBit i = (decide (i < 32) ^^ m.testBit i) := by
  unfold not32
  rw [Nat.testBit_xor]
  have h : (4294967295 : Nat) = 2 ^ 32 - 1 := by norm_num
  rw [h, Nat.testBit_two_pow_sub_one]

theorem testBit_high_of_lt {m : Nat} (hm : m < 4294967296) {i : Nat} (hi : ¬ i < 32) :
    m.testBit i = false := by
  apply Nat.testBit_lt_two_pow
  calc m < 2 ^ 32 := by simpa using hm
    _ ≤ 2 ^ i := Nat.pow_le_pow_right (by norm_num) (by omega)

theorem lt_32_of_testBit {m : Nat} (hm : m < 4294967296) {i : Nat}
    (h : m.testBit i = true) : i < 32 := by
  by_contra hi
  rw [testBit_high_of_lt hm hi] at h
  exact Bool.false_ne_true h

theorem testBit_of_and_eq_zero {p q : Nat} (h : p &&& q = 0) (i : Nat) :
    p.testBit i = true → q.testBit i = false := by
  intro hp
  have h1 := congrArg (fun n => n.testBit i) h
  simp only [Nat.testBit_and, Nat.zero_testBit, hp, Bool.true_and] at h1
  exact h1

theorem and_eq_zero_of_testBit {p q : Nat}
    (h : ∀ i, p.testBit i = true → q.testBit i = false) : p &&& q = 0 := by
  apply Nat.eq_of_testBit_eq
  intro i
  simp only [Nat.testBit_and, Nat.zero_testBit]
  cases hp : p.testBit i
  · simp
  · simp [h i hp]

theorem and_not32_self (x m : Nat) (hm : m < 4294967296) : (x &&& not32 m) &&& m = 0 := by
  apply and_eq_zero_of_testBit
  intro i hi
  simp only [Nat.testBit_and, testBit_not32, Bool.and_eq_true] at hi
  by_cases h32 : i < 32
  · cases hmi : m.testBit i
    · rfl
    · simp [h32, hmi] at hi
  · exact testBit_high_of_lt hm h32

/-- Clearing the bits of `d` leaves the bits of a disjoint 32-bit mask alone. -/
theorem and_not32_disjoint (x d k : Nat) (hk : k < 4294967296) (hd : d &&& k = 0) :
    (x &&& not32 d) &&& k = x &&& k := by
  apply Nat.eq_of_testBit_eq
  intro i
  simp only [Nat.testBit_and, testBit_not32]
  cases hki : k.testBit i
  · simp
  · have h32 : i < 32 := lt_32_of_testBit hk hki
    have hdi : d.testBit i = false := by
      cases hdi : d.testBit i
      · rfl
      · have := testBit_of_and_eq_zero hd i hdi
        rw [hki] at this
        exact absurd this (by simp)
    simp [h32, hdi]

/-- The ownership field after `(x & ~MASK) | (w | o)`. -/
theorem ownership_after_write (x m w o : Nat) (hm : m < 4294967296)
    (hw : w &&& m = 0) (ho : o &&& m = o) :
    ((x &&& not32 m) ||| (w ||| o)) &&& m = o := by
  rw [Nat.and_distrib_right, Nat.and_distrib_right, and_not32_self x m hm, hw, ho]
  simp

/-- The flag `w` is set after `(x & ~MASK) | (w | o)`. -/
theorem flag_after_write (y w o : Nat) : (y ||| (w ||| o)) &&& w = w := by
  apply Nat.eq_of_testBit_eq
  intro i
  simp only [Nat.testBit_and, Nat.testBit_or]
  cases w.testBit i <;> simp

theorem clear_or_idem (m r v : Nat) :
    (((v &&& not32 m) ||| r) &&& not32 m) ||| r = (v &&& not32 m) ||| r := by
  apply Nat.eq_of_testBit_eq
  intro i
  simp only [Nat.testBit_and, Nat.testBit_or]
  cases v.testBit i <;> cases (not32 m).testBit i <;> cases r.testBit i <;> rfl

theorem and_two_pow_eq_zero (x k : Nat) : x &&& 2 ^ k = 0 ↔ x.testBit k = false := by
  constructor
  · intro h
    cases hx : x.testBit k
    · rfl
    · have := testBit_of_and_eq_zero h k hx
      rw [Nat.testBit_two_pow_self] at this
      exact absurd this (by simp)
  · intro h
    apply and_eq_zero_of_testBit
    intro i hi
    rw [Nat.testBit_two_pow]
    by_cases hki : k = i
    · subst hki; rw [h] at hi; exact absurd hi (by simp)
    · simp [hki]

theorem shl32_one (k : Nat) (hk : k < 32) : shl32 1 k = 2 ^ k := by
  unfold shl32 U32
  rw [Nat.one_shiftLeft]
  apply Nat.mod_eq_of_lt
  calc 2 ^ k < 2 ^ 32 := Nat.pow_lt_pow_right (by norm_num) hk
    _ = 4294967296 := by norm_num

theorem or_lt32 {p q : Nat} (hp : p < 4294967296) (hq : q < 4294967296) :
    p ||| q < 4294967296 := by
  have h : (4294967296 : Nat) = 2 ^ 32 := by norm_num
  rw [h] at hp hq ⊢
  exact Nat.or_lt_two_pow hp hq

theorem or_and_eq_zero {p q m : Nat} (hp : p &&& m = 0) (hq : q &&& m = 0) :
    (p ||| q) &&& m = 0 := by
  rw [Nat.and_distrib_right, hp, hq]
  rfl

theorem and_eq_zero_of_sub {v p q : Nat}
    (hsub : ∀ i, p.testBit i = true → q.testBit i = true) (h : v &&& q = 0) :
    v &&& p = 0 := by
  apply and_eq_zero_of_testBit
  intro i hv
  cases hp : p.testBit i
  · rfl
  · have := testBit_of_and_eq_zero h i hv
    rw [hsub i hp] at this
    exact absurd this (by simp)

theorem and_eq_self_of_sub {p q : Nat}
    (hsub : ∀ i, p.testBit i = true → q.testBit i = true) : p &&& q = p := by
  apply Nat.eq_of_testBit_eq
  intro i
  rw [Nat.testBit_and]
  cases hp : p.testBit i
  · rfl
  · rw [hsub i hp]; rfl

theorem and_comm_eq_zero {p q : Nat} (h : p &&& q = 0) : q &&& p = 0 := by
  rw [Nat.and_comm]; exact h

/-- A flag that is cleared by `~(f | g)` does not meet `w & ~(f | g)`. -/
theorem flag_and_cleared (f g w : Nat) (hf : f < 4294967296) :
    f &&& (w &&& not32 (f ||| g)) = 0 := by
  apply and_eq_zero_of_testBit
  intro i hi
  rw [Nat.testBit_and, testBit_not32, Nat.testBit_or, hi]
  simp [lt_32_of_testBit hf hi]

/-! ## Loops over the block range -/

theorem foldl_or_testBit {β : Type} (f : β → Nat) (l : List β) (z i : Nat) :
    (l.foldl (fun wd b => wd ||| f b) z).testBit i = true ↔
      (z.testBit i = true ∨ ∃ b ∈ l, (f b).testBit i = true) := by
  induction l generalizing z with
  | nil => simp
  | cons c t ih =>
    simp only [List.foldl_cons, ih, Nat.testBit_or, Bool.or_eq_true, List.mem_cons,
      exists_eq_or_imp]
    tauto

theorem foldl_or_eq_zero {β : Type} (f : β → Nat) (l : List β) :
    l.foldl (fun wd b => wd ||| f b) 0 = 0 ↔ ∀ b ∈ l, f b = 0 := by
  constructor
  · intro h b hb
    apply Nat.eq_of_testBit_eq
    intro i
    have h1 := foldl_or_testBit f l 0 i
    rw [h] at h1
    simp only [Nat.zero_testBit, Bool.false_eq_true, false_or, false_iff, not_exists,
      not_and] at h1
    simpa using h1 b hb
  · intro h
    apply Nat.eq_of_testBit_eq
    intro i
    have h1 := foldl_or_testBit f l 0 i
    cases hv : (l.foldl (fun wd b => wd ||| f b) 0).testBit i
    · simp
    · rw [hv] at h1
      obtain ⟨b, hb, hbi⟩ := (h1.mp rfl).resolve_left (by simp)
      rw [h b hb] at hbi
      simp at hbi

theorem foldl_or_const {β : Type} (f : β → Nat) (l : List β) (c : Nat) (b0 : β)
    (hb0 : b0 ∈ l) (h : ∀ b ∈ l, f b = c) :
    l.foldl (fun wd b => wd ||| f b) 0 = c := by
  apply Nat.eq_of_testBit_eq
  intro i
  have h1 := foldl_or_testBit f l 0 i
  simp only [Nat.zero_testBit, Bool.false_eq_true, false_or] at h1
  cases hc : c.testBit i
  · cases hv : (l.foldl (fun wd b => wd ||| f b) 0).testBit i
    · rfl
    · obtain ⟨b, hb, hbi⟩ := h1.mp hv
      rw [h b hb, hc] at hbi
      exact absurd hbi (by simp)
  · exact h1.mpr ⟨b0, hb0, by rw [h b0 hb0]; exact hc⟩

namespace FBAtlas

theorem map_blocks_renderpass (f : Nat → Nat) (l : List (Nat × Nat)) (a : FBAtlas) :
    (map_blocks f l a).renderpass = a.renderpass := by
  unfold map_blocks
  induction l generalizing a with
  | nil => rfl
  | cons c t ih => simp only [List.foldl_cons]; rw [ih]; rfl

theorem map_blocks_barriers (f : Nat → Nat) (l : List (Nat × Nat)) (a : FBAtlas) :
    (map_blocks f l a).barriers = a.barriers := by
  unfold map_blocks
  induction l generalizing a with
  | nil => rfl
  | cons c t ih => simp only [List.foldl_cons]; rw [ih]; rfl

/-- A loop that applies an idempotent update `f` to every listed block applies it
once to the listed words and leaves the other words alone. -/
theorem map_blocks_fb_info (f : Nat → Nat) (hf : ∀ v, f (f v) = f v)
    (l : List (Nat × Nat)) (a : FBAtlas) (j : Nat) :
    (map_blocks f l a).fb_info j =
      if j ∈ l.map idx then f (a.fb_info j) else a.fb_info j := by
  unfold map_blocks
  induction l generalizing a with
  | nil => simp
  | cons c t ih =>
    simp only [List.foldl_cons, List.map_cons, List.mem_cons]
    rw [ih]
    by_cases hj : j = idx c
    · subst hj
      have key : (a.set_info c.1 c.2 (f (a.info c.1 c.2))).fb_info (idx c)
          = f (a.fb_info (idx c)) := by
        show Function.update a.fb_info (idx c) (f (a.fb_info (idx c))) (idx c) = _
        exact Function.update_same _ _ _
      rw [key, hf]
      simp
    · have hne : (a.set_info c.1 c.2 (f (a.info c.1 c.2))).fb_info j = a.fb_info j := by
        simp only [set_info]
        exact Function.update_noteq hj _ _
      rw [hne]
      by_cases hm : j ∈ List.map idx t
      · rw [if_pos hm, if_pos (Or.inr hm)]
      · rw [if_neg hm, if_neg (fun h => h.elim hj hm)]

theorem map_blocks_info_mem (f : Nat → Nat) (hf : ∀ v, f (f v) = f v)
    (l : List (Nat × Nat)) (a : FBAtlas) (b : Nat × Nat) (hb : b ∈ l) :
    (map_blocks f l a).info b.1 b.2 = f (a.info b.1 b.2) := by
  have h := map_blocks_fb_info f hf l a (idx b)
  rw [if_pos (List.mem_map_of_mem idx hb)] at h
  exact h

/-! ## The mutual recursion of `write_domain` and `flush_render_pass` -/

theorem inside_render_pass_closed (a : FBAtlas) (rect : Rect)
    (h : a.renderpass.inside = false) : inside_render_pass a rect = false := by
  simp [inside_render_pass, h]

theorem write_domain_closed (L : StatusLayout) (d : Domain) (s : Stage) (rect : Rect)
    (a : FBAtlas) (h : a.renderpass.inside = false) :
    write_domain L d s rect a = write_blocks L d s rect a := by
  rw [write_domain, inside_render_pass_closed a rect h]
  simp

theorem flush_render_pass_eq (L : StatusLayout) (a : FBAtlas) :
    flush_render_pass L a =
      if a.renderpass.inside = false then a
      else write_blocks L Domain.Scaled Stage.Fragment a.renderpass.rect
        { a with renderpass := { a.renderpass with inside := false } } := by
  rw [flush_render_pass]
  by_cases h : a.renderpass.inside = false
  · simp [h]
  · simp only [h, dite_false, if_false]
    exact write_domain_closed L _ _ _ _ rfl

theorem write_domain_eq (L : StatusLayout) (d : Domain) (s : Stage) (rect : Rect)
    (a : FBAtlas) :
    write_domain L d s rect a =
      write_blocks L d s rect
        (if inside_render_pass a rect = true then flush_render_pass L a else a) := by
  rw [write_domain]
  by_cases h : inside_render_pass a rect = true <;> simp [h]

end FBAtlas

/-! ## Facts about a well-formed layout -/

namespace StatusLayout

theorem WF.mask_lt32 {L : StatusLayout} (hL : L.WF) : L.STATUS_OWNERSHIP_MASK < 4294967296 :=
  Nat.lt_trans hL.mask_lt (by norm_num)

theorem WF.only_sub {L : StatusLayout} (hL : L.WF) (d : Domain) :
    L.only_value d &&& L.STATUS_OWNERSHIP_MASK = L.only_value d := by
  cases d <;> exact hL.own_sub _ (by simp [ownerships, only_value])

theorem WF.write_flag_mask {L : StatusLayout} (hL : L.WF) (d : Domain) (s : Stage) :
    L.write_flag d s &&& L.STATUS_OWNERSHIP_MASK = 0 := by
  cases d <;> cases s <;> exact (hL.hazard_ok _ (by simp [hazard_bits, write_flag])).2.2

theorem WF.dirty_sub {L : StatusLayout} (hL : L.WF) (d : Domain) :
    L.dirty_value d &&& L.STATUS_OWNERSHIP_MASK = L.dirty_value d := by
  cases d <;> exact hL.own_sub _ (by simp [ownerships, dirty_value])

theorem WF.dirty_lt {L : StatusLayout} (hL : L.WF) (d : Domain) : L.dirty_value d < 32 := by
  rw [← hL.dirty_sub d]
  exact Nat.lt_of_le_of_lt Nat.and_le_right hL.mask_lt

end StatusLayout

theorem stdLayout_wf : stdLayout.WF := by constructor <;> decide

namespace FBAtlas

/-! ## `write_domain`, `pipeline_barrier`, `flush_render_pass` -/

theorem write_masks_resolve (L : StatusLayout) (d : Domain) (s : Stage) (hp : permitted d s) :
    (write_masks L d s).2 = L.write_flag d s ||| L.only_value d := by
  cases d <;> cases s <;> first | rfl | exact absurd (hp rfl) (by decide)

theorem write_blocks_eq (L : StatusLayout) (d : Domain) (s : Stage) (rect : Rect)
    (a : FBAtlas) :
    write_blocks L d s rect a =
      map_blocks (fun v => (v &&& not32 L.STATUS_OWNERSHIP_MASK) ||| (write_masks L d s).2)
        (block_range rect) (barrier_if (scan_hazards a rect (write_masks L d s).1) a) := rfl

theorem barrier_if_renderpass (wd : Nat) (a : FBAtlas) :
    (barrier_if wd a).renderpass = a.renderpass := by
  unfold barrier_if pipeline_barrier
  split <;> rfl

theorem write_blocks_renderpass (L : StatusLayout) (d : Domain) (s : Stage) (rect : Rect)
    (a : FBAtlas) : (write_blocks L d s rect a).renderpass = a.renderpass := by
  rw [write_blocks_eq, map_blocks_renderpass, barrier_if_renderpass]

theorem write_blocks_info (L : StatusLayout) (d : Domain) (s : Stage) (rect : Rect)
    (a : FBAtlas) (b : Nat × Nat) (hb : b ∈ block_range rect) :
    (write_blocks L d s rect a).info b.1 b.2 =
      ((barrier_if (scan_hazards a rect (write_masks L d s).1) a).info b.1 b.2
        &&& not32 L.STATUS_OWNERSHIP_MASK) ||| (write_masks L d s).2 := by
  rw [write_blocks_eq]
  exact map_blocks_info_mem _ (clear_or_idem _ _) _ _ b hb

theorem write_blocks_marks (L : StatusLayout) (hL : L.WF) (d : Domain) (s : Stage)
    (hp : permitted d s) (rect : Rect) (a : FBAtlas) (b : Nat × Nat)
    (hb : b ∈ block_range rect) :
    ownership L (write_blocks L d s rect a) b.1 b.2 = L.only_value d ∧
    (write_blocks L d s rect a).info b.1 b.2 &&& L.write_flag d s = L.write_flag d s := by
  unfold ownership
  rw [write_blocks_info L d s rect a b hb, write_masks_resolve L d s hp]
  exact ⟨ownership_after_write _ _ _ _ hL.mask_lt32 (hL.write_flag_mask d s) (hL.only_sub d),
    flag_after_write _ _ _⟩

/-! ## `sync_domain` -/

theorem ownership_lt (L : StatusLayout) (hL : L.WF) (a : FBAtlas) (x y : Nat) :
    ownership L a x y < 32 :=
  Nat.lt_of_le_of_lt Nat.and_le_right hL.mask_lt

theorem dirty_bits_eq (L : StatusLayout) (hL : L.WF) (d : Domain) :
    dirty_bits L d = 2 ^ L.dirty_value d := by
  unfold dirty_bits
  cases d
  · exact shl32_one _ (hL.dirty_lt Domain.Unscaled)
  · exact shl32_one _ (hL.dirty_lt Domain.Scaled)

/-- The fast path of `sync_domain` is taken exactly when no block of the range has
the dirty ownership. -/
theorem sync_fast_iff (L : StatusLayout) (hL : L.WF) (d : Domain) (rect : Rect)
    (a : FBAtlas) :
    ownership_bits L a rect &&& dirty_bits L d = 0 ↔
      ∀ b ∈ block_range rect, ownership L a b.1 b.2 ≠ L.dirty_value d := by
  rw [dirty_bits_eq L hL, and_two_pow_eq_zero]
  unfold ownership_bits
  rw [Bool.eq_false_iff, Ne, foldl_or_testBit]
  simp only [Nat.zero_testBit, Bool.false_eq_true, false_or, not_exists, not_and]
  constructor
  · intro h b hb heq
    apply h b hb
    have hlt : a.info b.1 b.2 &&& L.STATUS_OWNERSHIP_MASK < 32 := ownership_lt L hL a b.1 b.2
    rw [shl32_one _ hlt, Nat.testBit_two_pow]
    simpa [ownership] using heq
  · intro h b hb hbit
    have hlt : a.info b.1 b.2 &&& L.STATUS_OWNERSHIP_MASK < 32 := ownership_lt L hL a b.1 b.2
    rw [shl32_one _ hlt, Nat.testBit_two_pow] at hbit
    exact h b hb (by simpa [ownership] using hbit)

theorem set_info_self (s : FBAtlas) (x y : Nat) : s.set_info x y (s.info x y) = s := by
  unfold set_info info
  rw [Function.update_eq_self]

theorem sync_domain_eq (L : StatusLayout) (d : Domain) (rect : Rect) (a : FBAtlas) :
    sync_domain L d rect a =
      if ownership_bits L a rect &&& dirty_bits L d = 0 then a
      else
        map_blocks (sync_update L d) (block_range rect)
          (barrier_if
            (sync_scan L d rect
              (if inside_render_pass a rect = true then flush_render_pass L a else a))
            (if inside_render_pass a rect = true then flush_render_pass L a else a)) := by
  unfold sync_domain map_blocks sync_scan
  simp only
  split
  · rfl
  · congr 1
    funext s b
    unfold sync_update
    split
    · rfl
    · rw [set_info_self]

theorem sync_masks_fst (L : StatusLayout) (d : Domain) :
    (sync_masks L d).1 = L.dirty_value d := by
  cases d <;> rfl

/-- The ownership value written by the resolve of `sync_domain`. -/
theorem sync_resolve_ownership (L : StatusLayout) (hL : L.WF) (d : Domain) (x : Nat) :
    ((x &&& not32 L.STATUS_OWNERSHIP_MASK) ||| (sync_masks L d).2.2)
      &&& L.STATUS_OWNERSHIP_MASK =
      (match d with
        | Domain.Scaled => L.STATUS_FB_PREFER
        | Domain.Unscaled => L.STATUS_SFB_PREFER) := by
  cases d
  · show ((x &&& not32 L.STATUS_OWNERSHIP_MASK) |||
      (L.STATUS_TRANSFER_SFB_READ ||| L.STATUS_SFB_PREFER ||| L.STATUS_TRANSFER_FB_WRITE))
      &&& L.STATUS_OWNERSHIP_MASK = L.STATUS_SFB_PREFER
    rw [Nat.and_distrib_right, Nat.and_distrib_right, Nat.and_distrib_right,
      and_not32_self _ _ hL.mask_lt32,
      (hL.hazard_ok L.STATUS_TRANSFER_SFB_READ (by simp [StatusLayout.hazard_bits])).2.2,
      (hL.hazard_ok L.STATUS_TRANSFER_FB_WRITE (by simp [StatusLayout.hazard_bits])).2.2,
      hL.own_sub L.STATUS_SFB_PREFER (by simp [StatusLayout.ownerships])]
    simp
  · show ((x &&& not32 L.STATUS_OWNERSHIP_MASK) |||
      (L.STATUS_TRANSFER_FB_READ ||| L.STATUS_FB_PREFER ||| L.STATUS_TRANSFER_SFB_WRITE))
      &&& L.STATUS_OWNERSHIP_MASK = L.STATUS_FB_PREFER
    rw [Nat.and_distrib_right, Nat.and_distrib_right, Nat.and_distrib_right,
      and_not32_self _ _ hL.mask_lt32,
      (hL.hazard_ok L.STATUS_TRANSFER_FB_READ (by simp [StatusLayout.hazard_bits])).2.2,
      (hL.hazard_ok L.STATUS_TRANSFER_SFB_WRITE (by simp [StatusLayout.hazard_bits])).2.2,
      hL.own_sub L.STATUS_FB_PREFER (by simp [StatusLayout.ownerships])]
    simp

theorem sync_update_not_dirty (L : StatusLayout) (hL : L.WF) (d : Domain) (v : Nat) :
    sync_update L d v &&& L.STATUS_OWNERSHIP_MASK ≠ L.dirty_value d := by
  unfold sync_update
  split
  · rw [sync_resolve_ownership L hL]
    have h3 := hL.own_nodup
    simp only [StatusLayout.ownerships, List.nodup_cons, List.mem_cons, List.mem_singleton,
      not_or, List.not_mem_nil, not_false_eq_true, List.nodup_nil, and_true] at h3
    cases d
    · exact fun h => h3.2.2 h.symm
    · exact fun h => h3.1.1 h.symm
  · rename_i h
    rw [sync_masks_fst] at h
    exact h

theorem sync_update_idem (L : StatusLayout) (hL : L.WF) (d : Domain) (v : Nat) :
    sync_update L d (sync_update L d v) = sync_update L d v := by
  have h := sync_update_not_dirty L hL d v
  rw [← sync_masks_fst] at h
  show (if sync_update L d v &&& L.STATUS_OWNERSHIP_MASK = (sync_masks L d).1 then _
    else sync_update L d v) = _
  rw [if_neg h]

end FBAtlas

namespace StatusLayout

theorem WF.hz {L : StatusLayout} (hL : L.WF) (h : Nat) (hm : h ∈ L.hazard_bits) :
    h < 4294967296 ∧ h &&& L.STATUS_OWNERSHIP_MASK = 0 :=
  (hL.hazard_ok h hm).2

theorem WF.groups_lt {L : StatusLayout} (hL : L.WF) :
    L.STATUS_FB_READ < 4294967296 ∧ L.STATUS_FB_WRITE < 4294967296 ∧
    L.STATUS_SFB_READ < 4294967296 ∧ L.STATUS_SFB_WRITE < 4294967296 := by
  refine ⟨?_, ?_, ?_, ?_⟩ <;>
    exact or_lt32 (or_lt32 (hL.hz _ (by simp [hazard_bits])).1
      (hL.hz _ (by simp [hazard_bits])).1) (hL.hz _ (by simp [hazard_bits])).1

theorem WF.groups_mask {L : StatusLayout} (hL : L.WF) :
    L.STATUS_FB_READ &&& L.STATUS_OWNERSHIP_MASK = 0 ∧
    L.STATUS_FB_WRITE &&& L.STATUS_OWNERSHIP_MASK = 0 ∧
    L.STATUS_SFB_READ &&& L.STATUS_OWNERSHIP_MASK = 0 ∧
    L.STATUS_SFB_WRITE &&& L.STATUS_OWNERSHIP_MASK = 0 := by
  refine ⟨?_, ?_, ?_, ?_⟩ <;>
    exact or_and_eq_zero (or_and_eq_zero (hL.hz _ (by simp [hazard_bits])).2
      (hL.hz _ (by simp [hazard_bits])).2) (hL.hz _ (by simp [hazard_bits])).2

end StatusLayout

namespace FBAtlas

/-! ## Hazard masks -/

theorem write_hazard_lt (L : StatusLayout) (hL : L.WF) (d : Domain) (s : Stage) :
    (write_masks L d s).1 < 4294967296 := by
  obtain ⟨h1, h2, h3, h4⟩ := hL.groups_lt
  cases d <;> cases s
  · exact or_lt32 h2 h1
  · exact or_lt32 h2 h1
  · exact or_lt32 h2 h1
  · exact or_lt32 h4 h3
  · exact or_lt32 h4 h3
  · exact Nat.lt_of_le_of_lt Nat.and_le_left (or_lt32 h4 h3)

theorem write_hazard_mask (L : StatusLayout) (hL : L.WF) (d : Domain) (s : Stage) :
    (write_masks L d s).1 &&& L.STATUS_OWNERSHIP_MASK = 0 := by
  obtain ⟨h1, h2, h3, h4⟩ := hL.groups_mask
  cases d <;> cases s
  · exact or_and_eq_zero h2 h1
  · exact or_and_eq_zero h2 h1
  · exact or_and_eq_zero h2 h1
  · exact or_and_eq_zero h4 h3
  · exact or_and_eq_zero h4 h3
  · exact and_comm_eq_zero
      (and_eq_zero_of_sub (fun i hi => by
        have hi2 : ((L.STATUS_SFB_WRITE ||| L.STATUS_SFB_READ) &&&
            not32 (L.STATUS_FRAGMENT_SFB_WRITE ||| L.STATUS_FRAGMENT_SFB_READ)).testBit i
            = true := hi
        rw [Nat.testBit_and, Bool.and_eq_true] at hi2; exact hi2.1)
        (and_comm_eq_zero (or_and_eq_zero h4 h3)))

/-- Every bit of the hazard mask of a read is in the hazard mask of the write of the
same (domain, stage). -/
theorem read_hazard_sub_write (L : StatusLayout) (d : Domain) (s : Stage) (i : Nat)
    (h : ((read_masks L d s).1).testBit i = true) :
    ((write_masks L d s).1).testBit i = true := by
  cases d <;> cases s <;>
    simp only [read_masks, write_masks, if_true, if_false, reduceCtorEq, Nat.testBit_or,
      Nat.testBit_and, Bool.or_eq_true, Bool.and_eq_true] at h ⊢ <;> tauto

theorem read_hazard_mask (L : StatusLayout) (hL : L.WF) (d : Domain) (s : Stage) :
    (read_masks L d s).1 &&& L.STATUS_OWNERSHIP_MASK = 0 :=
  and_comm_eq_zero
    (and_eq_zero_of_sub (read_hazard_sub_write L d s)
      (and_comm_eq_zero (write_hazard_mask L hL d s)))

theorem write_flag_read_hazard (L : StatusLayout) (hL : L.WF) (d : Domain) (s : Stage)
    (hp : permitted d s) :
    L.write_flag d s &&& (read_masks L d s).1 =
      if s = Stage.Fragment then 0 else L.write_flag d s := by
  cases d <;> cases s
  · exact and_eq_self_of_sub (fun i hi => by
      simp only [read_masks, StatusLayout.STATUS_FB_WRITE, Nat.testBit_or]
      simp only [StatusLayout.write_flag] at hi
      simp [hi])
  · exact and_eq_self_of_sub (fun i hi => by
      simp only [read_masks, StatusLayout.STATUS_FB_WRITE, Nat.testBit_or]
      simp only [StatusLayout.write_flag] at hi
      simp [hi])
  · exact absurd (hp rfl) (by decide)
  · exact and_eq_self_of_sub (fun i hi => by
      simp only [read_masks, StatusLayout.STATUS_SFB_WRITE, Nat.testBit_or]
      simp only [StatusLayout.write_flag] at hi
      simp [hi])
  · exact and_eq_self_of_sub (fun i hi => by
      simp only [read_masks, StatusLayout.STATUS_SFB_WRITE, Nat.testBit_or]
      simp only [StatusLayout.write_flag] at hi
      simp [hi])
  · exact flag_and_cleared _ _ _
      (hL.hz L.STATUS_FRAGMENT_SFB_WRITE (by simp [StatusLayout.hazard_bits])).1

/-! ## The block range of a rectangle inside VRAM -/

theorem mem_span (b e i : Nat) : i ∈ span b e ↔ b ≤ i ∧ i ≤ e := by
  unfold span
  rw [List.mem_range'_1]
  omega

theorem mem_block_range (rect : Rect) (b : Nat × Nat) :
    b ∈ block_range rect ↔
      (rect.x / BLOCK_WIDTH ≤ b.1 ∧ b.1 ≤ sub32 (add32 rect.x rect.width) 1 / BLOCK_WIDTH) ∧
      (rect.y / BLOCK_HEIGHT ≤ b.2 ∧ b.2 ≤ sub32 (add32 rect.y rect.height) 1 / BLOCK_HEIGHT) := by
  obtain ⟨bx, bY⟩ := b
  unfold block_range
  simp only [List.mem_flatMap, List.mem_map, mem_span, Prod.mk.injEq]
  constructor
  · rintro ⟨y, hy, x, hx, rfl, rfl⟩
    exact ⟨hx, hy⟩
  · rintro ⟨hx, hy⟩
    exact ⟨bY, hy, bx, hx, rfl, rfl⟩

theorem sub32_add32_one (x w : Nat) (hw : 0 < w) (h : x + w ≤ 1024) :
    sub32 (add32 x w) 1 = x + w - 1 := by
  unfold sub32 add32 U32
  omega

theorem mem_block_range_valid (rect : Rect) (hv : rect.valid) (b : Nat × Nat) :
    b ∈ block_range rect ↔
      (rect.x / 8 ≤ b.1 ∧ b.1 ≤ (rect.x + rect.width - 1) / 8) ∧
      (rect.y / 8 ≤ b.2 ∧ b.2 ≤ (rect.y + rect.height - 1) / 8) := by
  obtain ⟨hw, hh, hx, hy⟩ := hv
  rw [mem_block_range, sub32_add32_one _ _ hw hx,
    sub32_add32_one _ _ hh (Nat.le_trans hy (by decide))]
  rfl

theorem block_range_nonempty (rect : Rect) (hv : rect.valid) :
    (rect.x / 8, rect.y / 8) ∈ block_range rect := by
  rw [mem_block_range_valid rect hv]
  obtain ⟨hw, hh, hx, hy⟩ := hv
  refine ⟨⟨Nat.le_refl _, ?_⟩, ⟨Nat.le_refl _, ?_⟩⟩
  · exact Nat.div_le_div_right (by omega)
  · exact Nat.div_le_div_right (by omega)

theorem block_range_in_grid (rect : Rect) (hv : rect.valid) (b : Nat × Nat)
    (hb : b ∈ block_range rect) : b.1 < NUM_BLOCKS_X ∧ b.2 < NUM_BLOCKS_Y := by
  rw [mem_block_range_valid rect hv] at hb
  obtain ⟨hw, hh, hx, hy⟩ := hv
  unfold FB_WIDTH at hx
  unfold FB_HEIGHT at hy
  unfold NUM_BLOCKS_X NUM_BLOCKS_Y
  omega

theorem idx_injective (b c : Nat × Nat) (hb : b.1 < NUM_BLOCKS_X) (hc : c.1 < NUM_BLOCKS_X)
    (h : idx b = idx c) : b = c := by
  obtain ⟨bx, bY⟩ := b
  obtain ⟨cx, cy⟩ := c
  unfold idx NUM_BLOCKS_X at *
  simp only at hb hc h
  have h1 : bx = cx ∧ bY = cy := by omega
  rw [h1.1, h1.2]

/-! ## Barriers of reads and writes -/

theorem and_and_eq_zero (v n r : Nat) (h : v &&& r = 0) : (v &&& n) &&& r = 0 := by
  rw [Nat.and_assoc, Nat.and_comm n r, ← Nat.and_assoc, h, Nat.zero_and]

theorem barrier_if_barriers (wd : Nat) (a : FBAtlas) :
    (barrier_if wd a).barriers = a.barriers ++ (if wd ≠ 0 then [wd] else []) := by
  unfold barrier_if pipeline_barrier
  split <;> simp

/-- After the conditional barrier on the scanned hazards, no block of the range
carries a bit of the scanned mask. -/
theorem barrier_clears_scanned (a : FBAtlas) (rect : Rect) (h : Nat) (hh : h < 4294967296)
    (b : Nat × Nat) (hb : b ∈ block_range rect) :
    (barrier_if (scan_hazards a rect h) a).info b.1 b.2 &&& h = 0 := by
  unfold barrier_if
  split
  · show (a.info b.1 b.2 &&& not32 (scan_hazards a rect h)) &&& h = 0
    apply and_eq_zero_of_testBit
    intro i hi
    rw [Nat.testBit_and, Bool.and_eq_true, testBit_not32] at hi
    cases hhi : h.testBit i
    · rfl
    · have hscan : (scan_hazards a rect h).testBit i = true := by
        unfold scan_hazards
        rw [foldl_or_testBit]
        exact Or.inr ⟨b, hb, by rw [Nat.testBit_and, hi.1, hhi]; rfl⟩
      have h32 : i < 32 := lt_32_of_testBit hh hhi
      rw [hscan] at hi
      simp [h32] at hi
  · rename_i hz
    have hz0 : scan_hazards a rect h = 0 := by
      by_contra hne
      exact hz hne
    unfold scan_hazards at hz0
    exact (foldl_or_eq_zero _ _).mp hz0 b hb

theorem read_domain_closed (L : StatusLayout) (d : Domain) (s : Stage) (rect : Rect)
    (a : FBAtlas) (h : a.renderpass.inside = false) :
    read_domain L d s rect a =
      map_blocks (fun v => v ||| (read_masks L d s).2) (block_range rect)
        (barrier_if (scan_hazards a rect (read_masks L d s).1) a) := by
  unfold read_domain
  rw [inside_render_pass_closed a rect h]
  rfl

/-- The hazards a read finds right after a write of the same (domain, stage). -/
theorem scan_after_write (L : StatusLayout) (hL : L.WF) (d : Domain) (s : Stage)
    (hp : permitted d s) (rect : Rect) (hv : rect.valid) (a : FBAtlas) :
    scan_hazards (write_blocks L d s rect a) rect (read_masks L d s).1 =
      if s = Stage.Fragment then 0 else L.write_flag d s := by
  unfold scan_hazards
  apply foldl_or_const _ _ _ _ (block_range_nonempty rect hv)
  intro b hb
  rw [write_blocks_info L d s rect a b hb, write_masks_resolve L d s hp,
    Nat.and_distrib_right, Nat.and_distrib_right, write_flag_read_hazard L hL d s hp]
  have h1 : (barrier_if (scan_hazards a rect (write_masks L d s).1) a).info b.1 b.2
      &&& (read_masks L d s).1 = 0 :=
    and_eq_zero_of_sub (read_hazard_sub_write L d s)
      (barrier_clears_scanned a rect _ (write_hazard_lt L hL d s) b hb)
  have h2 : L.only_value d &&& (read_masks L d s).1 = 0 := by
    rw [← hL.only_sub d, Nat.and_assoc, Nat.and_comm _ (read_masks L d s).1,
      read_hazard_mask L hL d s, Nat.and_zero]
  rw [and_and_eq_zero _ _ _ h1, h2]
  simp

/-! ## Accesses on fresh blocks -/

theorem or_idem_right (r v : Nat) : (v ||| r) ||| r = v ||| r := by
  rw [Nat.or_assoc, Nat.or_self]

theorem barrier_if_zero (a : FBAtlas) : barrier_if 0 a = a := by
  unfold barrier_if
  simp

theorem fb_prefer_and (L : StatusLayout) (hL : L.WF) (h : Nat)
    (hh : h &&& L.STATUS_OWNERSHIP_MASK = 0) : L.STATUS_FB_PREFER &&& h = 0 := by
  rw [← hL.own_sub L.STATUS_FB_PREFER (by simp [StatusLayout.ownerships]), Nat.and_assoc,
    Nat.and_comm _ h, hh, Nat.and_zero]

theorem scan_fresh (L : StatusLayout) (hL : L.WF) (a : FBAtlas) (rect : Rect)
    (hf : fresh_on L a rect) (h : Nat) (hh : h &&& L.STATUS_OWNERSHIP_MASK = 0) :
    scan_hazards a rect h = 0 := by
  unfold scan_hazards
  rw [foldl_or_eq_zero]
  intro b hb
  rw [hf.2 b hb]
  exact fb_prefer_and L hL h hh

theorem sync_domain_fresh (L : StatusLayout) (hL : L.WF) (d : Domain) (a : FBAtlas)
    (rect : Rect) (hf : fresh_on L a rect) : sync_domain L d rect a = a := by
  rw [sync_domain_eq, if_pos]
  rw [sync_fast_iff L hL]
  intro b hb
  unfold ownership
  rw [hf.2 b hb, hL.own_sub L.STATUS_FB_PREFER (by simp [StatusLayout.ownerships])]
  have h3 := hL.own_nodup
  simp only [StatusLayout.ownerships, List.nodup_cons, List.mem_cons, List.mem_singleton,
    not_or, List.not_mem_nil, not_false_eq_true, List.nodup_nil, and_true] at h3
  cases d
  · exact h3.2.1.1
  · exact fun h => h3.1.1 h.symm

theorem read_domain_fresh (L : StatusLayout) (hL : L.WF) (d : Domain) (s : Stage)
    (a : FBAtlas) (rect : Rect) (hf : fresh_on L a rect) :
    read_domain L d s rect a =
      map_blocks (fun v => v ||| (read_masks L d s).2) (block_range rect) a := by
  rw [read_domain_closed L d s rect a hf.1,
    scan_fresh L hL a rect hf _ (read_hazard_mask L hL d s), barrier_if_zero]

theorem write_domain_fresh (L : StatusLayout) (hL : L.WF) (d : Domain) (s : Stage)
    (a : FBAtlas) (rect : Rect) (hf : fresh_on L a rect) :
    write_domain L d s rect a =
      map_blocks (fun v => (v &&& not32 L.STATUS_OWNERSHIP_MASK) ||| (write_masks L d s).2)
        (block_range rect) a := by
  rw [write_domain_closed L d s rect a hf.1, write_blocks_eq,
    scan_fresh L hL a rect hf _ (write_hazard_mask L hL d s), barrier_if_zero]

/-- On blocks in the fresh state an access is a plain update loop: it issues no
barrier and touches no block outside its range. -/
theorem run_fresh (L : StatusLayout) (hL : L.WF) (acc : Access) (d : Domain) (a : FBAtlas)
    (rect : Rect) (hf : fresh_on L a rect) :
    ∃ f : Nat → Nat, (∀ v, f (f v) = f v) ∧
      acc.run L d rect a = map_blocks f (block_range rect) a := by
  cases acc
  · exact ⟨_, or_idem_right _, by
      show read_domain L d Stage.Compute rect (sync_domain L d rect a) = _
      rw [sync_domain_fresh L hL d a rect hf, read_domain_fresh L hL d _ a rect hf]⟩
  · exact ⟨_, clear_or_idem _ _, by
      show write_domain L d Stage.Compute rect (sync_domain L d rect a) = _
      rw [sync_domain_fresh L hL d a rect hf, write_domain_fresh L hL d _ a rect hf]⟩
  · exact ⟨_, or_idem_right _, by
      show read_domain L d Stage.Transfer rect (sync_domain L d rect a) = _
      rw [sync_domain_fresh L hL d a rect hf, read_domain_fresh L hL d _ a rect hf]⟩
  · exact ⟨_, clear_or_idem _ _, by
      show write_domain L d Stage.Transfer rect (sync_domain L d rect a) = _
      rw [sync_domain_fresh L hL d a rect hf, write_domain_fresh L hL d _ a rect hf]⟩

theorem init_fresh (L : StatusLayout) (rect : Rect) : fresh_on L (init L) rect :=
  ⟨rfl, fun _ _ => rfl⟩

/-! ## A read right after a write -/

theorem sync_domain_closed (L : StatusLayout) (d : Domain) (rect : Rect) (a : FBAtlas)
    (h : a.renderpass.inside = false) :
    (sync_domain L d rect a).renderpass.inside = false := by
  rw [sync_domain_eq]
  split
  · exact h
  · rw [map_blocks_renderpass, barrier_if_renderpass, inside_render_pass_closed a rect h]
    exact h

theorem only_ne_dirty (L : StatusLayout) (hL : L.WF) (d : Domain) :
    L.only_value d ≠ L.dirty_value d := by
  have h3 := hL.own_nodup
  simp only [StatusLayout.ownerships, List.nodup_cons, List.mem_cons, List.mem_singleton,
    not_or, List.not_mem_nil, not_false_eq_true, List.nodup_nil, and_true] at h3
  cases d
  · exact h3.1.2.1
  · exact fun h => h3.1.2.1 h.symm

/-- A `sync_domain` right after a write of the same domain and rectangle takes the
fast path. -/
theorem sync_domain_after_write (L : StatusLayout) (hL : L.WF) (d : Domain) (s : Stage)
    (hp : permitted d s) (rect : Rect) (a : FBAtlas) :
    sync_domain L d rect (write_domain L d s rect a) = write_domain L d s rect a := by
  rw [sync_domain_eq, if_pos]
  rw [sync_fast_iff L hL]
  intro b hb
  rw [write_domain_eq, (write_blocks_marks L hL d s hp rect _ b hb).1]
  exact only_ne_dirty L hL d

/-- The barriers of a `read_domain` that follows a `write_domain` of the same
(domain, stage, rectangle) while no pass is open. -/
theorem read_after_write_barriers (L : StatusLayout) (hL : L.WF) (d : Domain) (s : Stage)
    (hp : permitted d s) (rect : Rect) (hv : rect.valid) (a : FBAtlas)
    (hin : a.renderpass.inside = false) :
    (read_domain L d s rect (write_domain L d s rect a)).barriers =
      (write_domain L d s rect a).barriers ++
        (if s = Stage.Fragment then [] else [L.write_flag d s]) := by
  rw [write_domain_closed L d s rect a hin]
  have hin1 : (write_blocks L d s rect a).renderpass.inside = false := by
    rw [write_blocks_renderpass]; exact hin
  rw [read_domain_closed L d s rect _ hin1, map_blocks_barriers, barrier_if_barriers,
    scan_after_write L hL d s hp rect hv a]
  by_cases hs : s = Stage.Fragment
  · simp [hs]
  · have hne : L.write_flag d s ≠ 0 := by
      cases d <;> cases s <;>
        exact (hL.hazard_ok _ (by simp [StatusLayout.hazard_bits, StatusLayout.write_flag])).1
    simp [hs, hne]

/-! ## Ownership under synchronisation -/

theorem foldl_or_and_zero {β : Type} (f : β → Nat) (l : List β) (T : Nat)
    (h : ∀ b ∈ l, f b &&& T = 0) : l.foldl (fun wd b => wd ||| f b) 0 &&& T = 0 := by
  apply and_eq_zero_of_testBit
  intro i hi
  obtain ⟨b, hb, hbi⟩ := ((foldl_or_testBit f l 0 i).mp hi).resolve_left (by simp)
  exact testBit_of_and_eq_zero (h b hb) i hbi

theorem sync_scan_eq (L : StatusLayout) (d : Domain) (rect : Rect) (a : FBAtlas) :
    sync_scan L d rect a =
      (block_range rect).foldl
        (fun wd b => wd |||
          (if a.info b.1 b.2 &&& L.STATUS_OWNERSHIP_MASK = (sync_masks L d).1 then
            a.info b.1 b.2 &&& (sync_masks L d).2.1 else 0)) 0 := by
  unfold sync_scan
  congr 1
  funext wd b
  simp only
  split
  · rfl
  · simp

theorem sync_hazard_mask (L : StatusLayout) (hL : L.WF) (d : Domain) :
    (sync_masks L d).2.1 &&& L.STATUS_OWNERSHIP_MASK = 0 := by
  obtain ⟨h1, h2, h3, h4⟩ := hL.groups_mask
  unfold sync_masks
  split
  · exact or_and_eq_zero (or_and_eq_zero h2 h4) h3
  · exact or_and_eq_zero (or_and_eq_zero h2 h4) h1

theorem sync_update_clean (L : StatusLayout) (d : Domain) (v : Nat)
    (h : v &&& L.STATUS_OWNERSHIP_MASK ≠ L.dirty_value d) : sync_update L d v = v := by
  unfold sync_update
  rw [sync_masks_fst, if_neg h]

theorem barrier_if_ownership (L : StatusLayout) (hL : L.WF) (wd : Nat)
    (hwd : wd &&& L.STATUS_OWNERSHIP_MASK = 0) (a : FBAtlas) (x y : Nat) :
    ownership L (barrier_if wd a) x y = ownership L a x y := by
  unfold barrier_if
  split
  · exact and_not32_disjoint _ _ _ hL.mask_lt32 hwd
  · rfl

theorem sync_scan_ownership (L : StatusLayout) (hL : L.WF) (d : Domain) (a : FBAtlas)
    (rect : Rect) : sync_scan L d rect a &&& L.STATUS_OWNERSHIP_MASK = 0 := by
  rw [sync_scan_eq]
  apply foldl_or_and_zero
  intro b _
  split
  · rw [Nat.and_assoc, sync_hazard_mask L hL d, Nat.and_zero]
  · simp

/-! ## Claims C1 - C10 -/

/-- C1 as stated fails: on a freshly constructed atlas `sync_domain(Scaled, R)` with
`R = {0,0,8,8}` takes the fast path and leaves block `(0,0)` with ownership
`FB_PREFER`, which is neither `SFB_ONLY` nor `SFB_PREFER`. -/
theorem sync_domain_scaled_leaves_fb_prefer :
    (⟨0, 0, 8, 8⟩ : Rect).valid ∧
    ¬ (∀ b ∈ block_range ⟨0, 0, 8, 8⟩,
        ownership stdLayout (sync_domain stdLayout Domain.Scaled ⟨0, 0, 8, 8⟩ (init stdLayout))
            b.1 b.2 = stdLayout.only_value Domain.Scaled ∨
        ownership stdLayout (sync_domain stdLayout Domain.Scaled ⟨0, 0, 8, 8⟩ (init stdLayout))
            b.1 b.2 = stdLayout.prefer_value Domain.Scaled) := by
  refine ⟨by decide, ?_⟩
  intro h
  have h0 := h (0, 0) (by decide)
  revert h0
  decide

/-- C1, amended: for every atlas state, every domain D and every rectangle R, after
`sync_domain(D, R)` no block of the block range of R has the dirty ownership of D
(`FB_ONLY` when D = Scaled, `SFB_ONLY` when D = Unscaled); when the call flushes no
render pass, every block of R that was not dirty keeps its ownership. -/
theorem sync_domain_not_dirty (L : StatusLayout) (hL : L.WF) (d : Domain) (rect : Rect)
    (a : FBAtlas) :
    (∀ b ∈ block_range rect,
      ownership L (sync_domain L d rect a) b.1 b.2 ≠ L.dirty_value d) ∧
    (inside_render_pass a rect = false →
      ∀ b ∈ block_range rect, ownership L a b.1 b.2 ≠ L.dirty_value d →
        ownership L (sync_domain L d rect a) b.1 b.2 = ownership L a b.1 b.2) := by
  constructor
  · intro b hb
    rw [sync_domain_eq]
    split
    · rename_i h
      exact (sync_fast_iff L hL d rect a).mp h b hb
    · unfold ownership
      rw [map_blocks_info_mem _ (sync_update_idem L hL d) _ _ b hb]
      exact sync_update_not_dirty L hL d _
  · intro hin b hb hc
    rw [sync_domain_eq]
    split
    · rfl
    · have hf : (if inside_render_pass a rect = true then flush_render_pass L a else a) = a := by
        rw [hin]
        rfl
      rw [hf]
      have ho := barrier_if_ownership L hL (sync_scan L d rect a)
        (sync_scan_ownership L hL d a rect) a b.1 b.2
      unfold ownership at ho hc ⊢
      rw [map_blocks_info_mem _ (sync_update_idem L hL d) _ _ b hb]
      rw [sync_update_clean L d _ (by rw [ho]; exact hc)]
      exact ho

/-- Witness of `sync_domain_not_dirty`: the standard layout and the blocks of an
upload to `{64,64,16,16}`, synchronised for the scaled domain. -/
theorem sync_domain_not_dirty_witness :
    stdLayout.WF ∧
    ∀ b ∈ block_range ⟨64, 64, 16, 16⟩,
      ownership stdLayout
        (sync_domain stdLayout Domain.Scaled ⟨64, 64, 16, 16⟩ uploaded_state)
        b.1 b.2 ≠ stdLayout.dirty_value Domain.Scaled :=
  ⟨stdLayout_wf,
    (sync_domain_not_dirty stdLayout stdLayout_wf Domain.Scaled ⟨64, 64, 16, 16⟩
      uploaded_state).1⟩

/-- C2, evaluated at the failing input: after `write_compute(Unscaled, {64,64,16,16})`
on a fresh atlas, block `(8,8)` of the range has ownership `FB_ONLY` (and carries
`COMPUTE_FB_WRITE`), yet `find_suitable_domain({64,64,16,16})` returns `Scaled`: it
compares the whole status word with the ownership values. -/
theorem find_suitable_domain_misses_flagged_block :
    (⟨64, 64, 16, 16⟩ : Rect).valid ∧
    (8, 8) ∈ block_range ⟨64, 64, 16, 16⟩ ∧
    ownership stdLayout uploaded_state 8 8 = stdLayout.STATUS_FB_ONLY ∧
    uploaded_state.info 8 8 =
      stdLayout.STATUS_FB_ONLY ||| stdLayout.STATUS_COMPUTE_FB_WRITE ∧
    find_suitable_domain stdLayout uploaded_state ⟨64, 64, 16, 16⟩ = Domain.Scaled := by
  simp only [uploaded_state, write_compute, write_domain_eq]
  decide

/-- C3: for every atlas state, every permitted (domain, stage) pair and every
rectangle R, after `write_domain(D, S, R)` every block of the block range of R has
ownership `D_ONLY` and has the hazard flag `S_D_WRITE` set; in particular
`write_compute(Unscaled, R)`, the call of `copy_cpu_to_vram`, leaves every block of
R as `FB_ONLY` with `COMPUTE_FB_WRITE`. -/
theorem write_domain_marks_blocks (L : StatusLayout) (hL : L.WF) (d : Domain) (s : Stage)
    (hp : permitted d s) (rect : Rect) (a : FBAtlas) :
    (∀ b ∈ block_range rect,
      ownership L (write_domain L d s rect a) b.1 b.2 = L.only_value d ∧
      (write_domain L d s rect a).info b.1 b.2 &&& L.write_flag d s = L.write_flag d s) ∧
    (∀ b ∈ block_range rect,
      ownership L (write_compute L Domain.Unscaled rect a) b.1 b.2 = L.STATUS_FB_ONLY ∧
      (write_compute L Domain.Unscaled rect a).info b.1 b.2 &&& L.STATUS_COMPUTE_FB_WRITE
        = L.STATUS_COMPUTE_FB_WRITE) := by
  constructor
  · intro b hb
    rw [write_domain_eq]
    exact write_blocks_marks L hL d s hp rect _ b hb
  · intro b hb
    rw [write_compute, write_domain_eq]
    exact write_blocks_marks L hL Domain.Unscaled Stage.Compute (by decide) rect _ b hb

/-- Witness of `write_domain_marks_blocks`: a transfer write to the scaled domain on
`{64,64,16,16}` of a fresh atlas. -/
theorem write_domain_marks_blocks_witness :
    stdLayout.WF ∧ permitted Domain.Scaled Stage.Transfer ∧
    (∀ b ∈ block_range ⟨64, 64, 16, 16⟩,
      ownership stdLayout
        (write_domain stdLayout Domain.Scaled Stage.Transfer ⟨64, 64, 16, 16⟩ (init stdLayout))
        b.1 b.2 = stdLayout.only_value Domain.Scaled ∧
      (write_domain stdLayout Domain.Scaled Stage.Transfer ⟨64, 64, 16, 16⟩
        (init stdLayout)).info b.1 b.2 &&& stdLayout.write_flag Domain.Scaled Stage.Transfer
        = stdLayout.write_flag Domain.Scaled Stage.Transfer) ∧
    (∀ b ∈ block_range ⟨64, 64, 16, 16⟩,
      ownership stdLayout
        (write_compute stdLayout Domain.Unscaled ⟨64, 64, 16, 16⟩ (init stdLayout)) b.1 b.2
        = stdLayout.STATUS_FB_ONLY ∧
      (write_compute stdLayout Domain.Unscaled ⟨64, 64, 16, 16⟩ (init stdLayout)).info b.1 b.2
        &&& stdLayout.STATUS_COMPUTE_FB_WRITE = stdLayout.STATUS_COMPUTE_FB_WRITE) :=
  ⟨stdLayout_wf, by decide,
    write_domain_marks_blocks stdLayout stdLayout_wf Domain.Scaled Stage.Transfer (by decide)
      ⟨64, 64, 16, 16⟩ (init stdLayout)⟩

/-- C4: for every block grid of 32-bit status words and every 32-bit hazard mask M,
after `pipeline_barrier(M)` every block satisfies `status & M = 0`, and every bit of
every status word outside M (the ownership field included) is unchanged. -/
theorem pipeline_barrier_clears (M : Nat) (hM : M < 4294967296) (a : FBAtlas)
    (hw : ∀ x y, a.info x y < 4294967296) :
    ∀ x y, (pipeline_barrier M a).info x y &&& M = 0 ∧
      ∀ i, M.testBit i = false →
        ((pipeline_barrier M a).info x y).testBit i = (a.info x y).testBit i := by
  intro x y
  refine ⟨and_not32_self _ _ hM, ?_⟩
  intro i hi
  show (a.info x y &&& not32 M).testBit i = _
  rw [Nat.testBit_and, testBit_not32, hi]
  cases hx : (a.info x y).testBit i
  · rfl
  · simp [lt_32_of_testBit (hw x y) hx]

/-- Witness of `pipeline_barrier_clears`: a barrier on `COMPUTE_FB_WRITE` after a
compute write to block `(0,0)` of a fresh atlas. -/
theorem pipeline_barrier_clears_witness :
    (8 : Nat) < 4294967296 ∧
    (∀ x y, (write_blocks stdLayout Domain.Unscaled Stage.Compute ⟨0, 0, 8, 8⟩
      (init stdLayout)).info x y < 4294967296) ∧
    ∀ x y,
      (pipeline_barrier 8 (write_blocks stdLayout Domain.Unscaled Stage.Compute ⟨0, 0, 8, 8⟩
        (init stdLayout))).info x y &&& 8 = 0 ∧
      ∀ i, Nat.testBit 8 i = false →
        ((pipeline_barrier 8 (write_blocks stdLayout Domain.Unscaled Stage.Compute ⟨0, 0, 8, 8⟩
          (init stdLayout))).info x y).testBit i =
        ((write_blocks stdLayout Domain.Unscaled Stage.Compute ⟨0, 0, 8, 8⟩
          (init stdLayout)).info x y).testBit i :=
  have hw : ∀ x y, (write_blocks stdLayout Domain.Unscaled Stage.Compute ⟨0, 0, 8, 8⟩
      (init stdLayout)).info x y < 4294967296 := by
    intro x y
    show Function.update (fun _ => 1) 0 8 (NUM_BLOCKS_X * y + x) < 4294967296
    by_cases h : NUM_BLOCKS_X * y + x = 0
    · rw [h]; simp
    · rw [Function.update_noteq h]; norm_num
  ⟨by norm_num, hw, pipeline_barrier_clears 8 (by norm_num) _ hw⟩

/-- C5 as stated fails: on a fresh atlas (no open pass) the compute write of
`{0,0,8,8}` in the unscaled domain followed at once by the compute read of the same
rectangle issues a pipeline barrier during the read. -/
theorem compute_read_after_write_barriers :
    (init stdLayout).renderpass.inside = false ∧
    permitted Domain.Unscaled Stage.Compute ∧ (⟨0, 0, 8, 8⟩ : Rect).valid ∧
    (read_domain stdLayout Domain.Unscaled Stage.Compute ⟨0, 0, 8, 8⟩
      (write_domain stdLayout Domain.Unscaled Stage.Compute ⟨0, 0, 8, 8⟩
        (init stdLayout))).barriers ≠
    (write_domain stdLayout Domain.Unscaled Stage.Compute ⟨0, 0, 8, 8⟩
        (init stdLayout)).barriers := by
  simp only [write_domain_eq]
  decide

/-- C5, amended: for every atlas state with no open render pass, every permitted
(domain, stage) pair and every non-empty in-bounds rectangle R, `write(D, S, R)`
followed at once by `read(D, S, R)` issues no pipeline barrier during the read when
S is the fragment stage, and exactly one barrier, of mask `S_D_WRITE`, when S is the
compute or the transfer stage; the same holds for `write_compute` followed by
`read_compute` and for `write_transfer` followed by `read_transfer`. -/
theorem write_then_read_barrier (L : StatusLayout) (hL : L.WF) (d : Domain) (s : Stage)
    (hp : permitted d s) (rect : Rect) (hv : rect.valid) (a : FBAtlas)
    (hin : a.renderpass.inside = false) :
    (read_domain L d s rect (write_domain L d s rect a)).barriers =
      (write_domain L d s rect a).barriers ++
        (if s = Stage.Fragment then [] else [L.write_flag d s]) ∧
    (read_compute L d rect (write_compute L d rect a)).barriers =
      (write_compute L d rect a).barriers ++ [L.write_flag d Stage.Compute] ∧
    (read_transfer L d rect (write_transfer L d rect a)).barriers =
      (write_transfer L d rect a).barriers ++ [L.write_flag d Stage.Transfer] := by
  refine ⟨read_after_write_barriers L hL d s hp rect hv a hin, ?_, ?_⟩
  · unfold read_compute write_compute
    rw [sync_domain_after_write L hL d Stage.Compute (fun h => Stage.noConfusion h),
      read_after_write_barriers L hL d Stage.Compute (fun h => Stage.noConfusion h) rect hv _
        (sync_domain_closed L d rect a hin)]
    rfl
  · unfold read_transfer write_transfer
    rw [sync_domain_after_write L hL d Stage.Transfer (fun h => Stage.noConfusion h),
      read_after_write_barriers L hL d Stage.Transfer (fun h => Stage.noConfusion h) rect hv _
        (sync_domain_closed L d rect a hin)]
    rfl

/-- Witness of `write_then_read_barrier`: a fragment write and read of `{0,0,8,8}`
in the scaled domain on a fresh atlas. -/
theorem write_then_read_barrier_witness :
    stdLayout.WF ∧ permitted Domain.Scaled Stage.Fragment ∧ (⟨0, 0, 8, 8⟩ : Rect).valid ∧
    (init stdLayout).renderpass.inside = false ∧
    ((read_domain stdLayout Domain.Scaled Stage.Fragment ⟨0, 0, 8, 8⟩
      (write_domain stdLayout Domain.Scaled Stage.Fragment ⟨0, 0, 8, 8⟩
        (init stdLayout))).barriers =
      (write_domain stdLayout Domain.Scaled Stage.Fragment ⟨0, 0, 8, 8⟩
        (init stdLayout)).barriers ++
        (if Stage.Fragment = Stage.Fragment then []
          else [stdLayout.write_flag Domain.Scaled Stage.Fragment]) ∧
    (read_compute stdLayout Domain.Scaled ⟨0, 0, 8, 8⟩
      (write_compute stdLayout Domain.Scaled ⟨0, 0, 8, 8⟩ (init stdLayout))).barriers =
      (write_compute stdLayout Domain.Scaled ⟨0, 0, 8, 8⟩ (init stdLayout)).barriers ++
        [stdLayout.write_flag Domain.Scaled Stage.Compute] ∧
    (read_transfer stdLayout Domain.Scaled ⟨0, 0, 8, 8⟩
      (write_transfer stdLayout Domain.Scaled ⟨0, 0, 8, 8⟩ (init stdLayout))).barriers =
      (write_transfer stdLayout Domain.Scaled ⟨0, 0, 8, 8⟩ (init stdLayout)).barriers ++
        [stdLayout.write_flag Domain.Scaled Stage.Transfer]) :=
  ⟨stdLayout_wf, by decide, by decide, rfl,
    write_then_read_barrier stdLayout stdLayout_wf Domain.Scaled Stage.Fragment (by decide)
      ⟨0, 0, 8, 8⟩ (by decide) (init stdLayout) rfl⟩

/-- C6 as stated fails: `{0,0,4,4}` and `{4,0,4,4}` share no pixel but lie in the same
block `(0,0)`; on a fresh atlas `write_compute(Unscaled, {0,0,4,4})` followed by
`read_compute(Unscaled, {4,0,4,4})` issues a barrier during the second access. -/
theorem same_block_accesses_barrier :
    (⟨0, 0, 4, 4⟩ : Rect).valid ∧ (⟨4, 0, 4, 4⟩ : Rect).valid ∧
    ¬ (⟨0, 0, 4, 4⟩ : Rect).shares_pixel ⟨4, 0, 4, 4⟩ ∧
    (Access.read_compute.run stdLayout Domain.Unscaled ⟨4, 0, 4, 4⟩
      (Access.write_compute.run stdLayout Domain.Unscaled ⟨0, 0, 4, 4⟩
        (init stdLayout))).barriers ≠
    (Access.write_compute.run stdLayout Domain.Unscaled ⟨0, 0, 4, 4⟩
        (init stdLayout)).barriers := by
  refine ⟨by decide, by decide, ?_, ?_⟩
  · rintro ⟨px, py, h1, h2⟩
    simp only [Rect.contains] at h1 h2
    omega
  · simp only [Access.run, write_compute, read_compute, write_domain_eq]
    decide

/-- C6, amended: starting from a freshly constructed atlas, for every two non-empty
in-bounds rectangles R1 and R2 whose block ranges share no block and every two
accesses (read or write, compute or transfer stage, either domain), performing the
first access on R1 and then the second on R2 issues no pipeline barrier during the
second access. -/
theorem disjoint_blocks_no_barrier (L : StatusLayout) (hL : L.WF) (acc1 acc2 : Access)
    (d1 d2 : Domain) (r1 r2 : Rect) (hv1 : r1.valid) (hv2 : r2.valid)
    (hdisj : ∀ b ∈ block_range r1, b ∉ block_range r2) :
    (acc2.run L d2 r2 (acc1.run L d1 r1 (init L))).barriers =
      (acc1.run L d1 r1 (init L)).barriers := by
  obtain ⟨f1, hf1, h1⟩ := run_fresh L hL acc1 d1 (init L) r1 (init_fresh L r1)
  have hfresh : fresh_on L (acc1.run L d1 r1 (init L)) r2 := by
    rw [h1]
    refine ⟨by rw [map_blocks_renderpass]; rfl, ?_⟩
    intro b hb
    show (map_blocks f1 (block_range r1) (init L)).fb_info (idx b) = _
    rw [map_blocks_fb_info f1 hf1, if_neg]
    · rfl
    · intro hmem
      obtain ⟨c, hc, hcb⟩ := List.mem_map.mp hmem
      have hcb2 : c = b :=
        idx_injective c b (block_range_in_grid r1 hv1 c hc).1
          (block_range_in_grid r2 hv2 b hb).1 hcb
      exact hdisj c hc (hcb2 ▸ hb)
  obtain ⟨f2, _, h2⟩ := run_fresh L hL acc2 d2 _ r2 hfresh
  rw [h2, map_blocks_barriers]

/-- Witness of `disjoint_blocks_no_barrier`: a compute write of block `(0,0)` then a
compute read of block `(1,0)`. -/
theorem disjoint_blocks_no_barrier_witness :
    stdLayout.WF ∧ (⟨0, 0, 8, 8⟩ : Rect).valid ∧ (⟨8, 0, 8, 8⟩ : Rect).valid ∧
    (∀ b ∈ block_range ⟨0, 0, 8, 8⟩, b ∉ block_range ⟨8, 0, 8, 8⟩) ∧
    (Access.read_compute.run stdLayout Domain.Unscaled ⟨8, 0, 8, 8⟩
      (Access.write_compute.run stdLayout Domain.Unscaled ⟨0, 0, 8, 8⟩
        (init stdLayout))).barriers =
    (Access.write_compute.run stdLayout Domain.Unscaled ⟨0, 0, 8, 8⟩
        (init stdLayout)).barriers :=
  ⟨stdLayout_wf, by decide, by decide, by decide,
    disjoint_blocks_no_barrier stdLayout stdLayout_wf Access.write_compute Access.read_compute
      Domain.Unscaled Domain.Unscaled ⟨0, 0, 8, 8⟩ ⟨8, 0, 8, 8⟩ (by decide) (by decide)
      (by decide)⟩

/-- C7, evaluated at the failing input: with a render pass open on `{0,0,8,8}`,
`inside_render_pass({512,256,8,8})` returns true although the two rectangles share
no pixel, and a compute read of `{512,256,8,8}` flushes the pass: the function
intersects its argument with itself and never looks at the draw rect. -/
theorem inside_render_pass_ignores_draw_rect :
    open_pass_state.renderpass.inside = true ∧
    open_pass_state.renderpass.rect = ⟨0, 0, 8, 8⟩ ∧
    ¬ (⟨512, 256, 8, 8⟩ : Rect).shares_pixel ⟨0, 0, 8, 8⟩ ∧
    inside_render_pass open_pass_state ⟨512, 256, 8, 8⟩ = true ∧
    (read_domain stdLayout Domain.Scaled Stage.Compute ⟨512, 256, 8, 8⟩
      open_pass_state).renderpass.inside = false ∧
    ownership stdLayout
      (read_domain stdLayout Domain.Scaled Stage.Compute ⟨512, 256, 8, 8⟩ open_pass_state)
      0 0 = stdLayout.STATUS_SFB_ONLY ∧
    (read_domain stdLayout Domain.Scaled Stage.Compute ⟨512, 256, 8, 8⟩
      open_pass_state).info 0 0 &&& stdLayout.STATUS_FRAGMENT_SFB_WRITE
      = stdLayout.STATUS_FRAGMENT_SFB_WRITE := by
  refine ⟨by decide, by decide, ?_, by decide, ?_⟩
  · rintro ⟨px, py, h1, h2⟩
    simp only [Rect.contains] at h1 h2
    omega
  · simp only [read_domain, flush_render_pass_eq]
    decide

/-- C8, evaluated at the failing input: with a render pass open on `{0,0,8,8}`,
`set_draw_rect({8,8,8,8})` flushes the pass but does not store the new rectangle:
the stored draw rect is still `{0,0,8,8}`. -/
theorem set_draw_rect_keeps_old_rect :
    open_pass_state.renderpass.inside = true ∧
    open_pass_state.renderpass.rect = ⟨0, 0, 8, 8⟩ ∧
    (set_draw_rect stdLayout ⟨8, 8, 8, 8⟩ open_pass_state).renderpass.inside = false ∧
    (set_draw_rect stdLayout ⟨8, 8, 8, 8⟩ open_pass_state).renderpass.rect
      = ⟨0, 0, 8, 8⟩ := by
  simp only [set_draw_rect, flush_render_pass_eq]
  decide

/-- C9 as stated fails: in the reachable state `dirty_pass_state` a pass is open on
`{0,0,8,8}` while block `(0,0)` is `FB_ONLY`; `clear_rect({0,0,8,8})` then flushes
the pass inside `sync_domain`, and the fragment write of the flush turns the status
of block `(0,0)` into `SFB_ONLY` with `FRAGMENT_SFB_WRITE`. -/
theorem clear_rect_flushes_dirty_pass :
    dirty_pass_state.renderpass.inside = true ∧
    dirty_pass_state.renderpass.rect = ⟨0, 0, 8, 8⟩ ∧
    ¬ (∀ x y, (clear_rect stdLayout ⟨0, 0, 8, 8⟩ dirty_pass_state).info x y
        = dirty_pass_state.info x y) ∧
    ownership stdLayout (clear_rect stdLayout ⟨0, 0, 8, 8⟩ dirty_pass_state) 0 0
      = stdLayout.STATUS_SFB_ONLY ∧
    (clear_rect stdLayout ⟨0, 0, 8, 8⟩ dirty_pass_state).info 0 0
      &&& stdLayout.STATUS_FRAGMENT_SFB_WRITE = stdLayout.STATUS_FRAGMENT_SFB_WRITE := by
  simp only [dirty_pass_state, write_compute, write_domain_eq, set_draw_rect, clear_rect,
    sync_domain, flush_render_pass_eq]
  refine ⟨by decide, by decide, ?_, by decide, by decide⟩
  intro h
  have h0 := h 0 0
  revert h0
  decide

/-- C9, amended: for every atlas state in which a render pass is open on draw rect R
and no block of the block range of R has ownership `FB_ONLY`, `clear_rect(R)`
discards the pass without flushing it (the block grid is unchanged and no barrier is
issued) and returns with a pass open and `clean_clear = true`. -/
theorem clear_rect_discards_clean_pass (L : StatusLayout) (hL : L.WF) (rect : Rect)
    (a : FBAtlas) (_hin : a.renderpass.inside = true) (hr : a.renderpass.rect = rect)
    (hclean : ∀ b ∈ block_range rect, ownership L a b.1 b.2 ≠ L.STATUS_FB_ONLY) :
    (clear_rect L rect a).fb_info = a.fb_info ∧
    (clear_rect L rect a).barriers = a.barriers ∧
    (clear_rect L rect a).renderpass.inside = true ∧
    (clear_rect L rect a).renderpass.clean_clear = true := by
  unfold clear_rect
  rw [if_pos hr]
  have hs : sync_domain L Domain.Scaled rect a = a := by
    rw [sync_domain_eq, if_pos]
    exact (sync_fast_iff L hL Domain.Scaled rect a).mpr hclean
  rw [hs]
  exact ⟨rfl, rfl, rfl, rfl⟩

/-- Witness of `clear_rect_discards_clean_pass`: a second clear of the draw rect
`{0,0,8,8}` of the open pass of `open_pass_state`. -/
theorem clear_rect_discards_clean_pass_witness :
    stdLayout.WF ∧ open_pass_state.renderpass.inside = true ∧
    open_pass_state.renderpass.rect = ⟨0, 0, 8, 8⟩ ∧
    (∀ b ∈ block_range ⟨0, 0, 8, 8⟩,
      ownership stdLayout open_pass_state b.1 b.2 ≠ stdLayout.STATUS_FB_ONLY) ∧
    (clear_rect stdLayout ⟨0, 0, 8, 8⟩ open_pass_state).fb_info = open_pass_state.fb_info ∧
    (clear_rect stdLayout ⟨0, 0, 8, 8⟩ open_pass_state).barriers = open_pass_state.barriers ∧
    (clear_rect stdLayout ⟨0, 0, 8, 8⟩ open_pass_state).renderpass.inside = true ∧
    (clear_rect stdLayout ⟨0, 0, 8, 8⟩ open_pass_state).renderpass.clean_clear = true :=
  ⟨stdLayout_wf, by decide, by decide, by decide,
    clear_rect_discards_clean_pass stdLayout stdLayout_wf ⟨0, 0, 8, 8⟩ open_pass_state
      (by decide) (by decide) (by decide)⟩

/-- C10: for every atlas state with an open render pass, after
`flush_render_pass()` the pass is closed and every block of the block range of the
draw rect has ownership `SFB_ONLY` with the `FRAGMENT_SFB_WRITE` hazard flag set. -/
theorem flush_render_pass_marks (L : StatusLayout) (hL : L.WF) (a : FBAtlas)
    (h : a.renderpass.inside = true) :
    (flush_render_pass L a).renderpass.inside = false ∧
    ∀ b ∈ block_range a.renderpass.rect,
      ownership L (flush_render_pass L a) b.1 b.2 = L.STATUS_SFB_ONLY ∧
      (flush_render_pass L a).info b.1 b.2 &&& L.STATUS_FRAGMENT_SFB_WRITE
        = L.STATUS_FRAGMENT_SFB_WRITE := by
  rw [flush_render_pass_eq, if_neg (by simp [h])]
  refine ⟨by rw [write_blocks_renderpass], ?_⟩
  intro b hb
  exact write_blocks_marks L hL Domain.Scaled Stage.Fragment (fun _ => rfl) _ _ b hb

/-- Witness of `flush_render_pass_marks`: the flush of the pass open on `{0,0,8,8}`
in `open_pass_state`. -/
theorem flush_render_pass_marks_witness :
    stdLayout.WF ∧ open_pass_state.renderpass.inside = true ∧
    (flush_render_pass stdLayout open_pass_state).renderpass.inside = false ∧
    ∀ b ∈ block_range open_pass_state.renderpass.rect,
      ownership stdLayout (flush_render_pass stdLayout open_pass_state) b.1 b.2
        = stdLayout.STATUS_SFB_ONLY ∧
      (flush_render_pass stdLayout open_pass_state).info b.1 b.2
        &&& stdLayout.STATUS_FRAGMENT_SFB_WRITE = stdLayout.STATUS_FRAGMENT_SFB_WRITE :=
  ⟨stdLayout_wf, by decide,
    flush_render_pass_marks stdLayout stdLayout_wf open_pass_state (by decide)⟩

/-! ## Zero-area rectangles -/

theorem block_range_empty_aligned (rect : Rect) (ho : rect.origin_inside)
    (he : rect.empty_aligned) : block_range rect = [] := by
  apply List.eq_nil_iff_forall_not_mem.mpr
  intro b hb
  rw [mem_block_range] at hb
  obtain ⟨hx, hy⟩ := ho
  unfold FB_WIDTH at hx
  unfold FB_HEIGHT at hy
  unfold sub32 add32 U32 BLOCK_WIDTH BLOCK_HEIGHT at hb
  unfold Rect.empty_aligned BLOCK_WIDTH BLOCK_HEIGHT at he
  rcases he with ⟨hw, h0, hm⟩ | ⟨hh, h0, hm⟩
  · rw [hw] at hb
    omega
  · rw [hh] at hb
    omega

theorem inside_render_pass_zero_area (a : FBAtlas) (rect : Rect) (ho : rect.origin_inside)
    (hz : rect.width = 0 ∨ rect.height = 0) : inside_render_pass a rect = false := by
  obtain ⟨hx, hy⟩ := ho
  unfold FB_WIDTH at hx
  unfold FB_HEIGHT at hy
  unfold inside_render_pass
  split
  · rfl
  · simp only [Bool.and_eq_false_iff, decide_eq_false_iff_not, not_lt, gt_iff_lt]
    rcases hz with hw | hh
    · left
      have h1 : add32 rect.x rect.width = rect.x := by
        rw [hw]; unfold add32 U32; omega
      rw [h1]
      exact Nat.le_trans (Nat.min_le_left _ _) (Nat.le_max_left _ _)
    · right
      have h1 : add32 rect.y rect.height = rect.y := by
        rw [hh]; unfold add32 U32; omega
      rw [h1]
      exact Nat.le_trans (Nat.min_le_left _ _) (Nat.le_max_left _ _)

end FBAtlas

theorem and_or_eq_zero_iff (x p q : Nat) : x &&& (p ||| q) = 0 ↔ x &&& p = 0 ∧ x &&& q = 0 := by
  constructor
  · intro h
    constructor
    · exact and_eq_zero_of_sub (fun i hi => by rw [Nat.testBit_or, hi]; rfl) h
    · exact and_eq_zero_of_sub (fun i hi => by rw [Nat.testBit_or, hi, Bool.or_true]) h
  · intro h
    rw [Nat.and_or_distrib_left, h.1, h.2]
    rfl

/-! ## Renderer: buckets of the draw queue -/

namespace Renderer

variable {F : Type}

theorem bucket_at_resize (l : List (List (BufferVertex F))) (n j : Nat) :
    bucket_at (resize_buckets l n) j = bucket_at l j := by
  unfold bucket_at resize_buckets
  simp only [List.getD_eq_getElem?_getD]
  by_cases hj : j < l.length
  · rw [List.getElem?_append_left hj]
  · rw [List.getElem?_append_right (by omega), List.getElem?_eq_none (l := l) (by omega)]
    by_cases hj2 : j - l.length < n - l.length
    · rw [List.getElem?_replicate_of_lt hj2]; rfl
    · rw [List.getElem?_eq_none (by simp; omega)]

theorem bucket_at_set (l : List (List (BufferVertex F))) (i j : Nat) (x : List (BufferVertex F))
    (hi : i < l.length) :
    bucket_at (l.set i x) j = if j = i then x else bucket_at l j := by
  unfold bucket_at
  simp only [List.getD_eq_getElem?_getD]
  by_cases hj : j = i
  · subst hj
    rw [if_pos rfl, List.getElem?_set_self hi]
    rfl
  · rw [if_neg hj, List.getElem?_set_ne (fun h => hj h.symm)]

theorem length_resize (l : List (List (BufferVertex F))) (n : Nat) :
    (resize_buckets l n).length = max l.length n := by
  unfold resize_buckets
  simp
  omega


theorem push_bucket_content (q : OpaqueQueue F) (b : Bucket) (v : BufferVertex F)
    (hb : bucket_valid q b) (c : Bucket) :
    content (push_bucket q b v) c = if c = b then content q c ++ [v] else content q c := by
  cases b with
  | flat =>
    cases c <;> simp [push_bucket, content]
  | textured i =>
    cases c with
    | flat => simp [push_bucket, content]
    | textured j =>
      simp only [push_bucket, content, Bucket.textured.injEq]
      rw [bucket_at_set _ _ _ _ hb]
      by_cases hj : j = i
      · subst hj; simp
      · simp [hj]
    | semi_textured j => simp [push_bucket, content]
  | semi_textured i =>
    cases c with
    | flat => simp [push_bucket, content]
    | textured j => simp [push_bucket, content]
    | semi_textured j =>
      simp only [push_bucket, content, Bucket.semi_textured.injEq]
      rw [bucket_at_set _ _ _ _ hb]
      by_cases hj : j = i
      · subst hj; simp
      · simp [hj]

theorem push_bucket_valid (q : OpaqueQueue F) (b : Bucket) (v : BufferVertex F)
    (c : Bucket) (hc : bucket_valid q c) : bucket_valid (push_bucket q b v) c := by
  cases b <;> cases c <;> simp_all [push_bucket, bucket_valid]

theorem push_bucket_ordered (q : OpaqueQueue F) (b : Bucket) (v : BufferVertex F) :
    (push_bucket q b v).semi_transparent = q.semi_transparent ∧
    (push_bucket q b v).semi_transparent_state = q.semi_transparent_state := by
  cases b <;> exact ⟨rfl, rfl⟩

theorem foldl_push_content (vs : List (BufferVertex F)) (q : OpaqueQueue F) (b : Bucket)
    (hb : bucket_valid q b) (c : Bucket) :
    content (vs.foldl (fun s v => push_bucket s b v) q) c =
      if c = b then content q c ++ vs else content q c := by
  induction vs generalizing q with
  | nil => simp
  | cons v t ih =>
    simp only [List.foldl_cons]
    rw [ih _ (push_bucket_valid q b v b hb), push_bucket_content q b v hb]
    by_cases hc : c = b <;> simp [hc]

theorem foldl_push_ordered (vs : List (BufferVertex F)) (q : OpaqueQueue F) (b : Bucket) :
    (vs.foldl (fun s v => push_bucket s b v) q).semi_transparent = q.semi_transparent ∧
    (vs.foldl (fun s v => push_bucket s b v) q).semi_transparent_state
      = q.semi_transparent_state := by
  induction vs generalizing q with
  | nil => exact ⟨rfl, rfl⟩
  | cons v t ih =>
    simp only [List.foldl_cons]
    rw [(ih _).1, (ih _).2]
    exact push_bucket_ordered q b v

/-- What `select_pipeline` returns: the bucket of the routing table, valid in the
resized queue, whose buckets hold what they held. -/
theorem select_pipeline_spec (r : Renderer F) :
    (select_pipeline r).2 = routed_bucket r.render_state r.last_surface.texture ∧
    (∀ b, (select_pipeline r).2 = some b → bucket_valid (select_pipeline r).1.queue b) ∧
    (∀ c, content (select_pipeline r).1.queue c = content r.queue c) ∧
    (select_pipeline r).1.queue.semi_transparent = r.queue.semi_transparent ∧
    (select_pipeline r).1.queue.semi_transparent_state = r.queue.semi_transparent_state ∧
    (select_pipeline r).1.render_state = r.render_state ∧
    (select_pipeline r).1.last_surface = r.last_surface ∧
    (select_pipeline r).1.render_pass_is_feedback = r.render_pass_is_feedback := by
  unfold select_pipeline routed_bucket
  by_cases hm : r.render_state.mask_test = true
  · rw [if_pos hm, if_pos hm]
    exact ⟨rfl, fun b hb => (by cases hb), fun _ => rfl, rfl, rfl, rfl, rfl, rfl⟩
  · rw [if_neg hm, if_neg hm]
    by_cases ht : r.render_state.texture_mode = TextureMode.None
    · rw [if_neg (not_not.mpr ht), if_pos ht]
      exact ⟨rfl, fun b hb => (by cases hb; trivial), fun _ => rfl, rfl, rfl, rfl, rfl, rfl⟩
    · rw [if_pos ht, if_neg ht]
      by_cases hs : r.render_state.semi_transparent = SemiTransparentMode.None
      · rw [if_neg (not_not.mpr hs), if_pos hs]
        by_cases hge : r.last_surface.texture ≥ r.queue.opaque_textured.length
        · rw [if_pos hge]
          refine ⟨rfl, ?_, ?_, rfl, rfl, rfl, rfl, rfl⟩
          · intro b hb
            cases hb
            show r.last_surface.texture < (resize_buckets _ _).length
            rw [length_resize]
            omega
          · intro c
            cases c
            · rfl
            · exact bucket_at_resize _ _ _
            · rfl
        · rw [if_neg hge]
          refine ⟨rfl, ?_, fun _ => rfl, rfl, rfl, rfl, rfl, rfl⟩
          intro b hb
          cases hb
          show r.last_surface.texture < r.queue.opaque_textured.length
          omega
      · rw [if_pos hs, if_neg hs]
        by_cases hge : r.last_surface.texture ≥ r.queue.semi_transparent_opaque.length
        · rw [if_pos hge]
          refine ⟨rfl, ?_, ?_, rfl, rfl, rfl, rfl, rfl⟩
          · intro b hb
            cases hb
            show r.last_surface.texture < (resize_buckets _ _).length
            rw [length_resize]
            omega
          · intro c
            cases c
            · rfl
            · rfl
            · exact bucket_at_resize _ _ _
        · rw [if_neg hge]
          refine ⟨rfl, ?_, fun _ => rfl, rfl, rfl, rfl, rfl, rfl⟩
          intro b hb
          cases hb
          show r.last_surface.texture < r.queue.semi_transparent_opaque.length
          omega

theorem push_all_content (q : OpaqueQueue F) (out : Option Bucket)
    (hv : ∀ b, out = some b → bucket_valid q b) (vs : List (BufferVertex F)) (c : Bucket) :
    content (push_all q out vs) c = if out = some c then content q c ++ vs else content q c := by
  cases out with
  | none => simp [push_all]
  | some b =>
    simp only [push_all, Option.some.injEq]
    rw [foldl_push_content vs q b (hv b rfl)]
    by_cases hc : c = b
    · subst hc; simp
    · rw [if_neg hc, if_neg (fun h => hc h.symm)]

theorem push_all_ordered (q : OpaqueQueue F) (out : Option Bucket) (vs : List (BufferVertex F)) :
    (push_all q out vs).semi_transparent = q.semi_transparent ∧
    (push_all q out vs).semi_transparent_state = q.semi_transparent_state := by
  cases out with
  | none => exact ⟨rfl, rfl⟩
  | some b => exact foldl_push_ordered vs q b

theorem push_ordered_content (r : Renderer F) (vs : List (BufferVertex F)) (n : Nat)
    (c : Bucket) : content (push_ordered r vs n).queue c = content r.queue c := by
  unfold push_ordered
  split
  · cases c <;> rfl
  · rfl

theorem build_attribs_fields (ops : FloatOps F) (L : StatusLayout) (r : Renderer F)
    (vertices : Nat → Vertex F) (count : Nat) :
    (build_attribs ops L r vertices count).1.queue = r.queue ∧
    (build_attribs ops L r vertices count).1.render_state = r.render_state ∧
    (build_attribs ops L r vertices count).1.last_surface = r.last_surface ∧
    (build_attribs ops L r vertices count).1.render_pass_is_feedback
      = r.render_pass_is_feedback :=
  ⟨rfl, rfl, rfl, rfl⟩

/-- The opaque buckets after the first half of a draw: the routed bucket has the
vertices appended, every other bucket is unchanged. -/
theorem draw_opaque_content (ops : FloatOps F) (L : StatusLayout) (r : Renderer F)
    (vertices : Nat → Vertex F) (count : Nat) (vs : List (BufferVertex F)) (c : Bucket) :
    content
      (push_all (select_pipeline (build_attribs ops L r vertices count).1).1.queue
        (select_pipeline (build_attribs ops L r vertices count).1).2 vs) c =
      if routed_bucket r.render_state r.last_surface.texture = some c then
        content r.queue c ++ vs
      else content r.queue c := by
  obtain ⟨h1, h2, h3, _⟩ := select_pipeline_spec (build_attribs ops L r vertices count).1
  rw [push_all_content _ _ h2, h1, h3]
  rfl

theorem ordered_iff (rs : RenderState) :
    ordered rs = true ↔
      (rs.mask_test = true ∨
        (rs.texture_mode ≠ TextureMode.None ∧
          rs.semi_transparent ≠ SemiTransparentMode.None)) := by
  unfold ordered
  simp

/-- The ordered queue after a draw that pushes `vs` with `n` state entries. -/
theorem draw_ordered_lists (ops : FloatOps F) (L : StatusLayout) (r : Renderer F)
    (vertices : Nat → Vertex F) (count : Nat) (ws vs : List (BufferVertex F)) (n : Nat) :
    ((push_ordered
        { (select_pipeline (build_attribs ops L r vertices count).1).1 with
          queue :=
            push_all (select_pipeline (build_attribs ops L r vertices count).1).1.queue
              (select_pipeline (build_attribs ops L r vertices count).1).2 ws }
        vs n).queue.semi_transparent =
      if r.render_state.mask_test = true ∨
          (r.render_state.texture_mode ≠ TextureMode.None ∧
            r.render_state.semi_transparent ≠ SemiTransparentMode.None) then
        r.queue.semi_transparent ++ vs
      else r.queue.semi_transparent) ∧
    ((push_ordered
        { (select_pipeline (build_attribs ops L r vertices count).1).1 with
          queue :=
            push_all (select_pipeline (build_attribs ops L r vertices count).1).1.queue
              (select_pipeline (build_attribs ops L r vertices count).1).2 ws }
        vs n).queue.semi_transparent_state =
      if r.render_state.mask_test = true ∨
          (r.render_state.texture_mode ≠ TextureMode.None ∧
            r.render_state.semi_transparent ≠ SemiTransparentMode.None) then
        r.queue.semi_transparent_state ++ List.replicate n (ordered_state r)
      else r.queue.semi_transparent_state) := by
  obtain ⟨_, _, _, h4, h5, h6, h7, _⟩ :=
    select_pipeline_spec (build_attribs ops L r vertices count).1
  have hq := push_all_ordered (select_pipeline (build_attribs ops L r vertices count).1).1.queue
    (select_pipeline (build_attribs ops L r vertices count).1).2 ws
  have hrs : (select_pipeline (build_attribs ops L r vertices count).1).1.render_state
      = r.render_state := h6
  have hls : (select_pipeline (build_attribs ops L r vertices count).1).1.last_surface
      = r.last_surface := h7
  unfold push_ordered
  simp only [hrs]
  by_cases hc : ordered r.render_state = true
  · rw [if_pos hc, if_pos ((ordered_iff _).mp hc), if_pos ((ordered_iff _).mp hc)]
    simp only [hq.1, hq.2, h4, h5]
    refine ⟨rfl, ?_⟩
    unfold ordered_state
    simp only [hrs, hls]
    rfl
  · rw [if_neg hc, if_neg (fun h => hc ((ordered_iff _).mpr h)),
      if_neg (fun h => hc ((ordered_iff _).mpr h))]
    simp only [hq.1, hq.2, h4, h5]
    exact ⟨rfl, rfl⟩

theorem low24_or_high (c m : Nat) (hc : c < 16777216) :
    (c ||| m * 16777216) &&& 0xffffff = c ∧ (c ||| m * 16777216) >>> 24 = m := by
  have h24 : (16777216 : Nat) = 2 ^ 24 := by norm_num
  have hor : c ||| m * 16777216 = 2 ^ 24 * m + c := by
    rw [Nat.or_comm, Nat.mul_comm, h24]
    exact (Nat.mul_add_lt_is_or (by rw [← h24]; exact hc) m).symm
  have hmask : (0xffffff : Nat) = 2 ^ 24 - 1 := by norm_num
  rw [hor, hmask, Nat.and_pow_two_sub_one_eq_mod, Nat.shiftRight_eq_div_pow]
  constructor
  · rw [Nat.mul_add_mod]; exact Nat.mod_eq_of_lt (by rw [← h24]; exact hc)
  · rw [Nat.mul_add_div (by norm_num), Nat.div_eq_of_lt (by rw [← h24]; exact hc)]
    rfl

/-! ## Renderer: batching of the ordered queue -/

section runs
variable {α : Type} [DecidableEq α]

theorem runs_from_join (cur : α) (n : Nat) (l : List α) :
    (runs_from cur n l).flatten = List.replicate (n + 1) cur ++ l := by
  induction l generalizing cur n with
  | nil => simp [runs_from]
  | cons b t ih =>
    unfold runs_from
    by_cases hb : b = cur
    · rw [if_pos hb, ih, hb]
      simp [List.replicate_succ' (n + 1)]
    · rw [if_neg hb, List.flatten_cons, ih]
      simp

theorem runs_join (l : List α) : (runs l).flatten = l := by
  cases l with
  | nil => rfl
  | cons a t => simp [runs, runs_from_join]

theorem runs_from_head (cur : α) (n : Nat) (l : List α) :
    ∃ k gs, runs_from cur n l = List.replicate (k + 1) cur :: gs := by
  induction l generalizing n with
  | nil => exact ⟨n, [], rfl⟩
  | cons b t ih =>
    unfold runs_from
    by_cases hb : b = cur
    · rw [if_pos hb]; exact ih (n + 1)
    · rw [if_neg hb]; exact ⟨n, _, rfl⟩

theorem runs_from_constant (cur : α) (n : Nat) (l : List α) :
    ∀ g ∈ runs_from cur n l, ∃ s k, g = List.replicate (k + 1) s := by
  induction l generalizing cur n with
  | nil =>
    intro g hg
    simp only [runs_from, List.mem_singleton] at hg
    exact ⟨cur, n, hg⟩
  | cons b t ih =>
    intro g hg
    unfold runs_from at hg
    by_cases hb : b = cur
    · rw [if_pos hb] at hg; exact ih cur (n + 1) g hg
    · rw [if_neg hb, List.mem_cons] at hg
      rcases hg with h | h
      · exact ⟨cur, n, h⟩
      · exact ih b 0 g h

theorem runs_from_maximal (cur : α) (n : Nat) (l : List α) :
    List.Chain' (fun g h => ∀ s ∈ g, ∀ t ∈ h, s ≠ t) (runs_from cur n l) := by
  induction l generalizing cur n with
  | nil => simp [runs_from]
  | cons b t ih =>
    unfold runs_from
    by_cases hb : b = cur
    · rw [if_pos hb]; exact ih cur (n + 1)
    · rw [if_neg hb]
      obtain ⟨k, gs, hk⟩ := runs_from_head b 0 t
      have h2 := ih b 0
      rw [hk] at h2 ⊢
      refine List.Chain'.cons ?_ h2
      intro s hs u hu
      rw [List.eq_of_mem_replicate hs, List.eq_of_mem_replicate hu]
      exact fun h => hb h.symm

end runs


theorem mul32_three (a : Nat) (h : 3 * a < U32) : mul32 a 3 = 3 * a := by
  unfold mul32
  rw [Nat.mul_comm]
  exact Nat.mod_eq_of_lt h

theorem semi_loop_ranges (rest : List SemiTransparentState) (i : Nat)
    (last : SemiTransparentState) (off : Nat) (hoff : off < i)
    (hlast : programmable last = false)
    (hrest : ∀ s ∈ rest, programmable s = false)
    (hsize : 3 * (i + rest.length) < U32) :
    draw_ranges (semi_loop rest i last off) =
      run_ranges off (runs_from last (i - off - 1) rest) := by
  induction rest generalizing i last off with
  | nil =>
    simp only [List.length_nil, Nat.add_zero] at hsize
    simp only [semi_loop, draw_ranges, runs_from, run_ranges, List.length_replicate]
    rw [mul32_three _ (by omega), mul32_three _ (by omega)]
    have h : i - off - 1 + 1 = i - off := by omega
    rw [h]
  | cons s t ih =>
    simp only [List.length_cons] at hsize
    have ht : ∀ u ∈ t, programmable u = false := fun u hu => hrest u (List.mem_cons_of_mem _ hu)
    have hs : programmable s = false := hrest s (List.mem_cons_self _ _)
    unfold semi_loop runs_from
    by_cases hsl : s = last
    · rw [if_neg (by simp [hlast, hsl]), if_pos hsl]
      rw [ih (i + 1) last off (by omega) hlast ht (by omega)]
      have h : i + 1 - off - 1 = i - off - 1 + 1 := by omega
      rw [h]
    · rw [if_pos (Or.inr (fun h => hsl h.symm)), if_neg hsl]
      simp only [draw_ranges, run_ranges, List.length_replicate]
      rw [ih (i + 1) s i (by omega) hs ht (by omega)]
      rw [mul32_three _ (by omega), mul32_three _ (by omega)]
      have h1 : i - off - 1 + 1 = i - off := by omega
      have h2 : off + (i - off) = i := by omega
      have h3 : i + 1 - i - 1 = 0 := by omega
      rw [h1, h2, h3]

/-- The draw calls of `render_semi_transparent_primitives` on a queue without
programmable states are the draw ranges of the maximal runs. -/
theorem render_ranges (q : OpaqueQueue F)
    (hp : ∀ s ∈ q.semi_transparent_state, programmable s = false)
    (hsize : 3 * q.semi_transparent_state.length < U32) :
    draw_ranges (render_semi_transparent_primitives q) =
      run_ranges 0 (runs q.semi_transparent_state) := by
  unfold render_semi_transparent_primitives
  have hlen : q.semi_transparent_state.length % U32 = q.semi_transparent_state.length :=
    Nat.mod_eq_of_lt (by omega)
  simp only [hlen, List.take_length]
  cases hst : q.semi_transparent_state with
  | nil => rfl
  | cons s0 rest =>
    rw [hst] at hp hsize
    simp only [List.length_cons] at hsize
    simp only [draw_ranges, runs]
    exact semi_loop_ranges rest 1 s0 0 (by omega) (hp s0 (List.mem_cons_self _ _))
      (fun u hu => hp u (List.mem_cons_of_mem _ hu)) (by omega)

/-! ## Renderer: chunks of a resolve list -/

/-- The slice a loop iteration uploads is the chunk of the same index. -/
theorem slice_eq (rects : List VkRect2D) (i : Nat) (hi : i ≤ rects.length) :
    (rects.drop i).take (min (rects.length - i) 1024) = (rects.drop i).take 1024 ∧
    min (rects.length - i) 1024 = ((rects.drop i).take 1024).length := by
  constructor
  · rw [← List.take_take]
    apply List.take_of_length_le
    rw [List.length_take, List.length_drop]
    omega
  · rw [List.length_take, List.length_drop]
    omega

theorem resolve_loop_eq (gx gy : Nat) (rects : List VkRect2D)
    (hn : rects.length + 1024 ≤ U32) (fuel k : Nat)
    (hk : k ≤ (rects.length + 1023) / 1024)
    (hfuel : (rects.length + 1023) / 1024 - k ≤ fuel) :
    resolve_loop gx gy rects rects.length fuel (1024 * k) =
      some ((List.range' k ((rects.length + 1023) / 1024 - k)).flatMap
        (fun j =>
          [ResolveCmd.upload ((rects.drop (1024 * j)).take 1024),
           ResolveCmd.dispatch gx gy ((rects.drop (1024 * j)).take 1024).length])) := by
  induction fuel generalizing k with
  | zero =>
    have hkm : (rects.length + 1023) / 1024 - k = 0 := by omega
    unfold resolve_loop
    rw [hkm, if_neg (by omega)]
    rfl
  | succ fuel ih =>
    unfold resolve_loop
    by_cases hlt : 1024 * k < rects.length
    · rw [if_pos hlt]
      have hadd : add32 (1024 * k) 1024 = 1024 * (k + 1) := by
        unfold add32; unfold U32 at hn ⊢; omega
      have hsub : sub32 rects.length (1024 * k) = rects.length - 1024 * k := by
        unfold sub32; unfold U32 at hn ⊢; omega
      have hk1 : k + 1 ≤ (rects.length + 1023) / 1024 := by omega
      simp only [hadd, hsub]
      rw [ih (k + 1) hk1 (by omega)]
      obtain ⟨h1, h2⟩ := slice_eq rects (1024 * k) (by omega)
      rw [h1, h2]
      have hr : (rects.length + 1023) / 1024 - k
          = ((rects.length + 1023) / 1024 - (k + 1)) + 1 := by omega
      rw [hr, List.range'_succ]
      rfl
    · rw [if_neg hlt]
      have hkm : (rects.length + 1023) / 1024 - k = 0 := by omega
      rw [hkm]
      rfl

theorem resolve_pass_eq (target : Domain) (gx gy : Nat) (rects : List VkRect2D)
    (hn : rects.length + 1024 ≤ U32) (fuel : Nat) (hfuel : rects.length ≤ 1024 * fuel) :
    resolve_pass target gx gy rects fuel = some (chunk_cmds target gx gy rects) := by
  unfold resolve_pass chunk_cmds
  by_cases he : rects = []
  · rw [if_pos he, if_pos he]
  · rw [if_neg he, if_neg he]
    have hmod : rects.length % U32 = rects.length := Nat.mod_eq_of_lt (by omega)
    rw [hmod]
    have h := resolve_loop_eq gx gy rects hn fuel 0 (Nat.zero_le _) (by omega)
    rw [Nat.mul_zero] at h
    rw [h]
    simp only [Option.map_some', Nat.sub_zero, chunks, List.flatMap_def, List.map_map,
      List.range_eq_range']
    rfl

theorem chunks_length (rects : List VkRect2D) :
    (chunks rects).length = (rects.length + 1023) / 1024 := by
  simp [chunks]

theorem chunks_size (rects : List VkRect2D) :
    ∀ c ∈ chunks rects, 1 ≤ c.length ∧ c.length ≤ 1024 := by
  intro c hc
  simp only [chunks, List.mem_map, List.mem_range] at hc
  obtain ⟨k, hk, rfl⟩ := hc
  rw [List.length_take, List.length_drop]
  omega

theorem chunks_initial (rects : List VkRect2D) (m : Nat) :
    ((List.range m).map (fun k => (rects.drop (1024 * k)).take 1024)).flatten =
      rects.take (1024 * m) := by
  induction m with
  | zero => simp
  | succ m ih =>
    rw [List.range_succ, List.map_append, List.flatten_append, ih, Nat.mul_succ, List.take_add]
    simp

theorem chunks_flatten (rects : List VkRect2D) : (chunks rects).flatten = rects := by
  unfold chunks
  rw [chunks_initial]
  exact List.take_of_length_le (by omega)

theorem chunks_sum (rects : List VkRect2D) :
    ((chunks rects).map List.length).sum = rects.length := by
  rw [← List.length_flatten, chunks_flatten]

end Renderer

namespace Renderer

theorem runs_constant {α : Type} [DecidableEq α] (l : List α) :
    ∀ g ∈ runs l, ∃ s k, g = List.replicate (k + 1) s := by
  cases l with
  | nil => intro g hg; simp [runs] at hg
  | cons a t => exact runs_from_constant a 0 t

theorem runs_maximal {α : Type} [DecidableEq α] (l : List α) :
    List.Chain' (fun g h => ∀ s ∈ g, ∀ t ∈ h, s ≠ t) (runs l) := by
  cases l with
  | nil => simp [runs]
  | cons a t => exact runs_from_maximal a 0 t

end Renderer

/-! ## Claims C11 - C20 -/

namespace FBAtlas

/-- C11, evaluated at its input: on a fresh atlas, after
`write_compute(Unscaled, {64,64,16,16})` the call `read_texture({64,64,16,16})` has
`find_suitable_domain` return `Scaled`, not `Unscaled`, and issues two pipeline
barriers, of masks `COMPUTE_FB_WRITE` and `TRANSFER_SFB_WRITE`, not one. -/
theorem read_texture_after_upload_barriers :
    uploaded_state.barriers = [] ∧
    find_suitable_domain stdLayout uploaded_state ⟨64, 64, 16, 16⟩ = Domain.Scaled ∧
    (read_texture stdLayout ⟨64, 64, 16, 16⟩ uploaded_state).barriers =
      [stdLayout.STATUS_COMPUTE_FB_WRITE, stdLayout.STATUS_TRANSFER_SFB_WRITE] := by
  simp only [uploaded_state, read_texture, write_compute, write_domain_eq]
  decide

/-- C12, evaluated at a failing input: draw rect `{0,0,8,8}`, texture window
`{64,64,8,8}` (no common pixel).  The first draw opens a pass and leaves block
`(0,0)` as `FB_PREFER`; at the second draw `inside_render_pass` is true for the
texture window, so `write_fragment` flushes the pass: block `(0,0)` then carries the
marks of the flush, `SFB_ONLY` and `FRAGMENT_SFB_WRITE`, and the pass that is open
afterwards is a new one. -/
theorem second_draw_flushes_pass :
    ¬ (⟨64, 64, 8, 8⟩ : Rect).shares_pixel ⟨0, 0, 8, 8⟩ ∧
    first_draw_state.renderpass.inside = true ∧
    first_draw_state.renderpass.rect = ⟨0, 0, 8, 8⟩ ∧
    first_draw_state.renderpass.texture_window = ⟨64, 64, 8, 8⟩ ∧
    first_draw_state.info 0 0 = stdLayout.STATUS_FB_PREFER ∧
    inside_render_pass (set_draw_rect stdLayout ⟨0, 0, 8, 8⟩ first_draw_state)
      ⟨64, 64, 8, 8⟩ = true ∧
    (second_draw_state.renderpass.inside = true ∧
      ownership stdLayout second_draw_state 0 0 = stdLayout.STATUS_SFB_ONLY ∧
      second_draw_state.info 0 0 &&& stdLayout.STATUS_FRAGMENT_SFB_WRITE
        = stdLayout.STATUS_FRAGMENT_SFB_WRITE) := by
  refine ⟨?_, by decide, by decide, by decide, by decide, by decide, ?_⟩
  · rintro ⟨px, py, h1, h2⟩
    simp only [Rect.contains] at h1 h2
    omega
  · unfold second_draw_state
    rw [write_fragment, flush_render_pass_eq]
    decide

end FBAtlas

namespace Renderer

variable {F : Type}

/-- C13: for every renderer state, `draw_triangle` appends the three vertices of the
primitive to the opaque bucket of the routing table (mask test on: none; mask test
off and texture mode None: the flat bucket; mask test off, textured, semi-transparent
mode None: `opaque_textured[tex]`; mask test off, textured, semi-transparent mode not
None: `semi_transparent_opaque[tex]`) and leaves every other opaque bucket as it
was. -/
theorem draw_triangle_opaque_bucket (ops : FloatOps F) (L : StatusLayout) (r : Renderer F)
    (vertices : Nat → Vertex F) (c : Bucket) :
    content (draw_triangle ops L vertices r).queue c =
      if routed_bucket r.render_state r.last_surface.texture = some c then
        content r.queue c ++
          [(build_attribs ops L r vertices 3).2 0, (build_attribs ops L r vertices 3).2 1,
           (build_attribs ops L r vertices 3).2 2]
      else content r.queue c := by
  unfold draw_triangle
  simp only
  rw [push_ordered_content]
  exact draw_opaque_content ops L r vertices 3 _ c

/-- C14: for every renderer state, `draw_triangle` and `draw_quad` append the
primitive at the end of the ordered list `semi_transparent` (three vertices and one
state entry for a triangle, six vertices and two state entries for a quad) if mask
test is on, or the texture mode is not None and the semi-transparent mode is not
None; otherwise the ordered list and its state vector are unchanged. -/
theorem draw_ordered_queue (ops : FloatOps F) (L : StatusLayout) (r : Renderer F)
    (vertices : Nat → Vertex F) :
    ((draw_triangle ops L vertices r).queue.semi_transparent =
      if r.render_state.mask_test = true ∨
          (r.render_state.texture_mode ≠ TextureMode.None ∧
            r.render_state.semi_transparent ≠ SemiTransparentMode.None) then
        r.queue.semi_transparent ++
          [(build_attribs ops L r vertices 3).2 0, (build_attribs ops L r vertices 3).2 1,
           (build_attribs ops L r vertices 3).2 2]
      else r.queue.semi_transparent) ∧
    ((draw_triangle ops L vertices r).queue.semi_transparent_state =
      if r.render_state.mask_test = true ∨
          (r.render_state.texture_mode ≠ TextureMode.None ∧
            r.render_state.semi_transparent ≠ SemiTransparentMode.None) then
        r.queue.semi_transparent_state ++ [ordered_state r]
      else r.queue.semi_transparent_state) ∧
    ((draw_quad ops L vertices r).queue.semi_transparent =
      if r.render_state.mask_test = true ∨
          (r.render_state.texture_mode ≠ TextureMode.None ∧
            r.render_state.semi_transparent ≠ SemiTransparentMode.None) then
        r.queue.semi_transparent ++
          [(build_attribs ops L r vertices 4).2 0, (build_attribs ops L r vertices 4).2 1,
           (build_attribs ops L r vertices 4).2 2, (build_attribs ops L r vertices 4).2 3,
           (build_attribs ops L r vertices 4).2 2, (build_attribs ops L r vertices 4).2 1]
      else r.queue.semi_transparent) ∧
    ((draw_quad ops L vertices r).queue.semi_transparent_state =
      if r.render_state.mask_test = true ∨
          (r.render_state.texture_mode ≠ TextureMode.None ∧
            r.render_state.semi_transparent ≠ SemiTransparentMode.None) then
        r.queue.semi_transparent_state ++ [ordered_state r, ordered_state r]
      else r.queue.semi_transparent_state) := by
  refine ⟨?_, ?_, ?_, ?_⟩
  · exact (draw_ordered_lists ops L r vertices 3 _ _ 1).1
  · exact (draw_ordered_lists ops L r vertices 3 _ _ 1).2
  · exact (draw_ordered_lists ops L r vertices 4 _ _ 2).1
  · exact (draw_ordered_lists ops L r vertices 4 _ _ 2).2

/-- C15: for every quad `(v0, v1, v2, v3)`, `draw_quad` appends exactly the six built
vertices `v0, v1, v2, v3, v2, v1`, in this order, to the opaque bucket of the routing
table (when there is one, and to no other bucket) and, when the primitive is routed
to the ordered path, the same six vertices in the same order to `semi_transparent`;
the built vertex `i` comes from input vertex `i`. -/
theorem draw_quad_vertex_order (ops : FloatOps F) (L : StatusLayout) (r : Renderer F)
    (vertices : Nat → Vertex F) :
    (∀ c : Bucket,
      content (draw_quad ops L vertices r).queue c =
        if routed_bucket r.render_state r.last_surface.texture = some c then
          content r.queue c ++
            [(build_attribs ops L r vertices 4).2 0, (build_attribs ops L r vertices 4).2 1,
             (build_attribs ops L r vertices 4).2 2, (build_attribs ops L r vertices 4).2 3,
             (build_attribs ops L r vertices 4).2 2, (build_attribs ops L r vertices 4).2 1]
        else content r.queue c) ∧
    ((draw_quad ops L vertices r).queue.semi_transparent =
      if ordered r.render_state = true then
        r.queue.semi_transparent ++
          [(build_attribs ops L r vertices 4).2 0, (build_attribs ops L r vertices 4).2 1,
           (build_attribs ops L r vertices 4).2 2, (build_attribs ops L r vertices 4).2 3,
           (build_attribs ops L r vertices 4).2 2, (build_attribs ops L r vertices 4).2 1]
      else r.queue.semi_transparent) ∧
    (∀ i, (build_attribs ops L r vertices 4).2 i =
      build_vertex ops (allocate_depth ops L r).1 (allocate_depth ops L r).2 (vertices i)) := by
  refine ⟨?_, ?_, fun _ => rfl⟩
  · intro c
    unfold draw_quad
    simp only
    rw [push_ordered_content]
    exact draw_opaque_content ops L r vertices 4 _ c
  · have h := (draw_ordered_lists ops L r vertices 4
      [(build_attribs ops L r vertices 4).2 0, (build_attribs ops L r vertices 4).2 1,
       (build_attribs ops L r vertices 4).2 2, (build_attribs ops L r vertices 4).2 3,
       (build_attribs ops L r vertices 4).2 2, (build_attribs ops L r vertices 4).2 1]
      [(build_attribs ops L r vertices 4).2 0, (build_attribs ops L r vertices 4).2 1,
       (build_attribs ops L r vertices 4).2 2, (build_attribs ops L r vertices 4).2 3,
       (build_attribs ops L r vertices 4).2 2, (build_attribs ops L r vertices 4).2 1] 2).1
    by_cases hc : ordered r.render_state = true
    · rw [if_pos hc]
      rw [if_pos ((ordered_iff _).mp hc)] at h
      exact h
    · rw [if_neg hc]
      rw [if_neg (fun h2 => hc ((ordered_iff _).mpr h2))] at h
      exact h

/-- C16: for every ordered queue of fewer than `2^32 / 3` primitives that contains no
primitive that is both masked and semi-transparent,
`render_semi_transparent_primitives` emits one draw call per maximal run of
consecutive primitives with equal state, with vertex count 3 x (run length) and
first vertex 3 x (run start); the runs cover the queue in submission order, each is
a non-empty repetition of one state, and neighbouring runs differ in state.  In
particular four equal state entries (two quads of one state) give one draw call of
12 vertices, and two quads of differing state give two draw calls of 6 vertices. -/
theorem semi_transparent_batches (q : OpaqueQueue F)
    (hp : ∀ s ∈ q.semi_transparent_state,
      ¬ (s.masked = true ∧ s.semi_transparent ≠ SemiTransparentMode.None))
    (hsize : 3 * q.semi_transparent_state.length < U32) :
    draw_ranges (render_semi_transparent_primitives q) =
      run_ranges 0 (runs q.semi_transparent_state) ∧
    (runs q.semi_transparent_state).flatten = q.semi_transparent_state ∧
    (∀ g ∈ runs q.semi_transparent_state, ∃ s k, g = List.replicate (k + 1) s) ∧
    List.Chain' (fun g h => ∀ s ∈ g, ∀ t ∈ h, s ≠ t) (runs q.semi_transparent_state) ∧
    (∀ s, q.semi_transparent_state = [s, s, s, s] →
      draw_ranges (render_semi_transparent_primitives q) = [(12, 0)]) ∧
    (∀ s1 s2, s1 ≠ s2 → q.semi_transparent_state = [s1, s1, s2, s2] →
      draw_ranges (render_semi_transparent_primitives q) = [(6, 0), (6, 6)]) := by
  have hp2 : ∀ s ∈ q.semi_transparent_state, programmable s = false := by
    intro s hs
    have h := hp s hs
    unfold programmable
    cases hm : s.masked
    · rfl
    · rw [hm] at h
      simp only [true_and, ne_eq, not_not] at h
      simp [h]
  have hmain := render_ranges q hp2 hsize
  refine ⟨hmain, runs_join _, runs_constant _, runs_maximal _, ?_, ?_⟩
  · intro s hs
    rw [hmain, hs]
    simp [runs, runs_from, run_ranges]
  · intro s1 s2 hne hs
    rw [hmain, hs]
    have hne2 : ¬ s2 = s1 := fun h => hne h.symm
    simp [runs, runs_from, run_ranges, hne2]

/-- Witness of `semi_transparent_batches`: two quads with different textures. -/
theorem semi_transparent_batches_witness :
    (∀ s ∈ sample_queue.semi_transparent_state,
      ¬ (s.masked = true ∧ s.semi_transparent ≠ SemiTransparentMode.None)) ∧
    3 * sample_queue.semi_transparent_state.length < U32 ∧
    draw_ranges (render_semi_transparent_primitives sample_queue) = [(6, 0), (6, 6)] :=
  ⟨by decide, by decide,
    (semi_transparent_batches sample_queue (by decide) (by decide)).2.2.2.2.2
      ⟨0, SemiTransparentMode.Add, true, false⟩ ⟨1, SemiTransparentMode.Add, true, false⟩
      (by decide) rfl⟩

/-- C17: for every input vertex and render state, the colour word `build_attribs`
stores has its low 24 bits equal to `0x808080` when the texture mode is not None and
texture-colour-modulate is off, and equal to the low 24 bits of the input colour
otherwise; its high 8 bits are `0xFF` when force-mask-bit is on and `0x00`
otherwise. -/
theorem build_attribs_color (ops : FloatOps F) (L : StatusLayout) (r : Renderer F)
    (vertices : Nat → Vertex F) (count i : Nat) :
    ((build_attribs ops L r vertices count).2 i).color &&& 0xffffff =
      (if r.render_state.texture_mode ≠ TextureMode.None ∧
          r.render_state.texture_color_modulate = false then 0x808080
        else (vertices i).color &&& 0xffffff) ∧
    ((build_attribs ops L r vertices count).2 i).color >>> 24 =
      (if r.render_state.force_mask_bit = true then 0xff else 0x00) := by
  have hcol : ((build_attribs ops L r vertices count).2 i).color =
      (if r.render_state.texture_mode ≠ TextureMode.None ∧
          r.render_state.texture_color_modulate = false then 0x808080
        else (vertices i).color &&& 0xffffff) |||
      (if r.render_state.force_mask_bit = true then 0xff000000 else 0) := rfl
  have hlt : (if r.render_state.texture_mode ≠ TextureMode.None ∧
          r.render_state.texture_color_modulate = false then 0x808080
        else (vertices i).color &&& 0xffffff) < 16777216 := by
    split
    · norm_num
    · have h24 : (16777216 : Nat) = 2 ^ 24 := by norm_num
      rw [h24]
      exact Nat.and_lt_two_pow _ (by norm_num)
  rw [hcol]
  by_cases hf : r.render_state.force_mask_bit = true
  · rw [if_pos hf, if_pos hf]
    exact low24_or_high _ 255 hlt
  · rw [if_neg hf, if_neg hf]
    exact low24_or_high _ 0 hlt

/-- C18: for every hazard mask that passes the assertions of `Renderer::hazard`, the
destination stage mask of the barrier contains compute-shader, and it contains
fragment-shader and color-attachment-output if and only if the mask contains a
scaled-domain write flag; the mask is exactly compute-shader, or compute-shader with
the two other stages. -/
theorem hazard_dst_stages (L : StatusLayout) (flags : Nat) (b : HazardBarrier)
    (h : hazard L flags = some b) :
    b.dst_stages =
      (if flags &&& L.STATUS_SFB_WRITE ≠ 0 then
        VK_PIPELINE_STAGE_FRAGMENT_SHADER_BIT ||| VK_PIPELINE_STAGE_COLOR_ATTACHMENT_OUTPUT_BIT |||
          VK_PIPELINE_STAGE_COMPUTE_SHADER_BIT
      else VK_PIPELINE_STAGE_COMPUTE_SHADER_BIT) ∧
    b.dst_stages &&& VK_PIPELINE_STAGE_COMPUTE_SHADER_BIT
      = VK_PIPELINE_STAGE_COMPUTE_SHADER_BIT ∧
    ((b.dst_stages &&& VK_PIPELINE_STAGE_FRAGMENT_SHADER_BIT
        = VK_PIPELINE_STAGE_FRAGMENT_SHADER_BIT ∧
      b.dst_stages &&& VK_PIPELINE_STAGE_COLOR_ATTACHMENT_OUTPUT_BIT
        = VK_PIPELINE_STAGE_COLOR_ATTACHMENT_OUTPUT_BIT) ↔
      flags &&& L.STATUS_SFB_WRITE ≠ 0) := by
  unfold hazard at h
  split at h
  · exact absurd h (by simp)
  · rename_i ht
    have ht0 : flags &&& (L.STATUS_TRANSFER_FB_READ ||| L.STATUS_TRANSFER_FB_WRITE |||
        L.STATUS_TRANSFER_SFB_READ ||| L.STATUS_TRANSFER_SFB_WRITE) = 0 := by
      by_contra hne; exact ht hne
    have htw : flags &&& L.STATUS_TRANSFER_SFB_WRITE = 0 :=
      ((and_or_eq_zero_iff _ _ _).mp ht0).2
    have hiff : flags &&& L.STATUS_SFB_WRITE ≠ 0 ↔
        flags &&& (L.STATUS_COMPUTE_SFB_WRITE ||| L.STATUS_FRAGMENT_SFB_WRITE) ≠ 0 := by
      unfold StatusLayout.STATUS_SFB_WRITE
      rw [not_iff_not, and_or_eq_zero_iff, and_or_eq_zero_iff, and_or_eq_zero_iff]
      constructor
      · exact fun h1 => ⟨h1.1.1, h1.2⟩
      · exact fun h1 => ⟨⟨h1.1, htw⟩, h1.2⟩
    have hb : b = hazard_masks L flags := by
      simp only at h
      split at h
      · exact absurd h (by simp)
      · split at h
        · exact absurd h (by simp)
        · exact (Option.some.inj h).symm
    have hdst : b.dst_stages =
        (if flags &&& (L.STATUS_COMPUTE_SFB_WRITE ||| L.STATUS_FRAGMENT_SFB_WRITE) ≠ 0 then
          VK_PIPELINE_STAGE_FRAGMENT_SHADER_BIT |||
            VK_PIPELINE_STAGE_COLOR_ATTACHMENT_OUTPUT_BIT |||
            VK_PIPELINE_STAGE_COMPUTE_SHADER_BIT
        else VK_PIPELINE_STAGE_COMPUTE_SHADER_BIT) := by
      rw [hb]
      unfold hazard_masks
      simp only [decide_eq_true_eq]
      split <;> simp
    by_cases hs : flags &&& L.STATUS_SFB_WRITE ≠ 0
    · rw [hdst, if_pos (hiff.mp hs), if_pos hs]
      exact ⟨rfl, by decide, ⟨fun _ => hs, fun _ => by decide⟩⟩
    · rw [hdst, if_neg (fun h1 => hs (hiff.mpr h1)), if_neg hs]
      refine ⟨rfl, by decide, ?_⟩
      constructor
      · intro h1
        exact absurd h1.1 (by decide)
      · intro h1
        exact absurd h1 hs

/-- Witness of `hazard_dst_stages`: the mask `COMPUTE_SFB_WRITE` of the standard
layout is accepted and yields fragment-shader, color-attachment-output and
compute-shader. -/
theorem hazard_dst_stages_witness :
    hazard stdLayout stdLayout.STATUS_COMPUTE_SFB_WRITE
      = some (hazard_masks stdLayout stdLayout.STATUS_COMPUTE_SFB_WRITE) ∧
    (hazard_masks stdLayout stdLayout.STATUS_COMPUTE_SFB_WRITE).dst_stages = 0xc80 :=
  ⟨by decide,
    ((hazard_dst_stages stdLayout stdLayout.STATUS_COMPUTE_SFB_WRITE
      (hazard_masks stdLayout stdLayout.STATUS_COMPUTE_SFB_WRITE) (by decide)).1).trans
      (by decide)⟩

/-- C19: for every renderer whose resolve lists are below the range of the
`unsigned` loop counter, `flush_resolves` (with fuel for the loops) records, for the
scaled list and then for the unscaled list, one upload and one dispatch per chunk,
`(S, S, N)` for a scaled chunk of size N and `(1, 1, N)` for an unscaled one, and
leaves both lists empty; the chunks of a list of n rectangles are `ceil(n / 1024)`
consecutive slices in order, each of 1 to 1024 rectangles, whose sizes sum
to n. -/
theorem flush_resolves_chunks (r : Renderer F) (fuel : Nat)
    (hs : r.queue.scaled_resolves.length + 1024 ≤ U32)
    (hu : r.queue.unscaled_resolves.length + 1024 ≤ U32)
    (hfs : r.queue.scaled_resolves.length ≤ 1024 * fuel)
    (hfu : r.queue.unscaled_resolves.length ≤ 1024 * fuel) :
    flush_resolves fuel r =
      some ({ r with queue := { r.queue with scaled_resolves := [], unscaled_resolves := [] } },
        chunk_cmds Domain.Scaled r.scaling r.scaling r.queue.scaled_resolves ++
          chunk_cmds Domain.Unscaled 1 1 r.queue.unscaled_resolves) ∧
    (∀ rects : List VkRect2D,
      (chunks rects).length = (rects.length + 1023) / 1024 ∧
      (∀ c ∈ chunks rects, 1 ≤ c.length ∧ c.length ≤ 1024) ∧
      (chunks rects).flatten = rects ∧
      ((chunks rects).map List.length).sum = rects.length) := by
  constructor
  · unfold flush_resolves
    rw [resolve_pass_eq _ _ _ _ hs fuel hfs, resolve_pass_eq _ _ _ _ hu fuel hfu]
  · intro rects
    exact ⟨chunks_length rects, chunks_size rects, chunks_flatten rects, chunks_sum rects⟩

/-- Witness of `flush_resolves_chunks`: a renderer of scaling 2 with two queued
scaled resolves, flushed with fuel 1. -/
theorem flush_resolves_chunks_witness :
    sample_renderer.queue.scaled_resolves.length + 1024 ≤ U32 ∧
    sample_renderer.queue.unscaled_resolves.length + 1024 ≤ U32 ∧
    sample_renderer.queue.scaled_resolves.length ≤ 1024 * 1 ∧
    sample_renderer.queue.unscaled_resolves.length ≤ 1024 * 1 ∧
    (flush_resolves 1 sample_renderer).map Prod.snd =
      some [ResolveCmd.bind_program Domain.Scaled,
        ResolveCmd.upload [⟨0, 0, 8, 8⟩, ⟨8, 0, 8, 8⟩], ResolveCmd.dispatch 2 2 2] :=
  ⟨by decide, by decide, by decide, by decide, by
    rw [(flush_resolves_chunks sample_renderer 1 (by decide) (by decide) (by decide)
      (by decide)).1]
    decide⟩

end Renderer

namespace FBAtlas

/-- C20 as stated fails: `{4,0,0,8}` has width 0 and its origin inside VRAM, but its
block range is the block `(0,0)`; on a fresh atlas `write_domain` turns that block
into `FB_ONLY` with `COMPUTE_FB_WRITE` and `read_domain` sets `COMPUTE_FB_READ`
on it. -/
theorem zero_width_rect_touches_block :
    (⟨4, 0, 0, 8⟩ : Rect).origin_inside ∧ (⟨4, 0, 0, 8⟩ : Rect).width = 0 ∧
    block_range ⟨4, 0, 0, 8⟩ = [(0, 0)] ∧
    ¬ ((write_domain stdLayout Domain.Unscaled Stage.Compute ⟨4, 0, 0, 8⟩
          (init stdLayout)).info 0 0 = (init stdLayout).info 0 0) ∧
    ¬ ((read_domain stdLayout Domain.Unscaled Stage.Compute ⟨4, 0, 0, 8⟩
          (init stdLayout)).info 0 0 = (init stdLayout).info 0 0) := by
  simp only [write_domain_eq]
  decide

/-- C20, amended: for every atlas state and every rectangle with its origin inside
VRAM that has width 0 at an x that is a positive multiple of `BLOCK_WIDTH`, or height
0 at a y that is a positive multiple of `BLOCK_HEIGHT`, `read_domain`,
`write_domain` and `sync_domain` are no-ops: the whole atlas state (block grid,
render-pass state, barriers issued) is unchanged. -/
theorem aligned_zero_area_noop (L : StatusLayout) (d : Domain) (s : Stage) (rect : Rect)
    (a : FBAtlas) (ho : rect.origin_inside) (he : rect.empty_aligned) :
    read_domain L d s rect a = a ∧ write_domain L d s rect a = a ∧
    sync_domain L d rect a = a := by
  have hr := block_range_empty_aligned rect ho he
  have hz : rect.width = 0 ∨ rect.height = 0 := by
    rcases he with ⟨hw, _, _⟩ | ⟨hh, _, _⟩
    · exact Or.inl hw
    · exact Or.inr hh
  have hi := inside_render_pass_zero_area a rect ho hz
  refine ⟨?_, ?_, ?_⟩
  · simp [read_domain, hi, scan_hazards, hr, barrier_if]
  · rw [write_domain_eq]
    simp [hi, write_blocks, scan_hazards, hr, barrier_if]
  · simp [sync_domain, ownership_bits, hr]

/-- Witness of `aligned_zero_area_noop`: the rectangle `{8,8,0,0}` on the state with
a pass open on `{0,0,8,8}`. -/
theorem aligned_zero_area_noop_witness :
    (⟨8, 8, 0, 0⟩ : Rect).origin_inside ∧ (⟨8, 8, 0, 0⟩ : Rect).empty_aligned ∧
    read_domain stdLayout Domain.Scaled Stage.Compute ⟨8, 8, 0, 0⟩ open_pass_state
      = open_pass_state ∧
    write_domain stdLayout Domain.Scaled Stage.Compute ⟨8, 8, 0, 0⟩ open_pass_state
      = open_pass_state ∧
    sync_domain stdLayout Domain.Scaled ⟨8, 8, 0, 0⟩ open_pass_state = open_pass_state :=
  ⟨by decide, by decide,
    aligned_zero_area_noop stdLayout Domain.Scaled Stage.Compute ⟨8, 8, 0, 0⟩ open_pass_state
      (by decide) (by decide)⟩

end FBAtlas

/-! ## Repeated synchronisation -/

namespace FBAtlas

theorem sync_domain_clean (L : StatusLayout) (hL : L.WF) (d : Domain) (rect : Rect)
    (a : FBAtlas) (b : Nat × Nat) (hb : b ∈ block_range rect) :
    ownership L (sync_domain L d rect a) b.1 b.2 ≠ L.dirty_value d := by
  rw [sync_domain_eq]
  split
  · rename_i h
    exact (sync_fast_iff L hL d rect a).mp h b hb
  · unfold ownership
    rw [map_blocks_info_mem _ (sync_update_idem L hL d) _ _ b hb]
    exact sync_update_not_dirty L hL d _

/-! ## Counting the barriers of an operation -/

theorem issues_within_refl (a : FBAtlas) : issues_within 0 a a :=
  ⟨[], by simp, by simp⟩

theorem issues_within_trans {m n : Nat} {a b c : FBAtlas} (h1 : issues_within m a b)
    (h2 : issues_within n b c) : issues_within (m + n) a c := by
  obtain ⟨l1, e1, b1⟩ := h1
  obtain ⟨l2, e2, b2⟩ := h2
  refine ⟨l1 ++ l2, ?_, ?_⟩
  · rw [e2, e1, List.append_assoc]
  · rw [List.length_append]
    omega

theorem issues_within_mono {m n : Nat} {a b : FBAtlas} (h : issues_within m a b)
    (hmn : m ≤ n) : issues_within n a b := by
  obtain ⟨l, e, hb⟩ := h
  exact ⟨l, e, by omega⟩

theorem barrier_if_within (wd : Nat) (a : FBAtlas) : issues_within 1 a (barrier_if wd a) := by
  refine ⟨if wd ≠ 0 then [wd] else [], barrier_if_barriers wd a, ?_⟩
  have h : open_passes (barrier_if wd a) = open_passes a := by
    unfold open_passes
    rw [barrier_if_renderpass]
  rw [h]
  split <;> simp

theorem map_blocks_within (f : Nat → Nat) (l : List (Nat × Nat)) (a : FBAtlas) :
    issues_within 0 a (map_blocks f l a) := by
  refine ⟨[], by simp [map_blocks_barriers], ?_⟩
  unfold open_passes
  rw [map_blocks_renderpass]
  simp

theorem write_blocks_within (L : StatusLayout) (d : Domain) (s : Stage) (rect : Rect)
    (a : FBAtlas) : issues_within 1 a (write_blocks L d s rect a) := by
  rw [write_blocks_eq]
  exact issues_within_trans (barrier_if_within _ a) (map_blocks_within _ _ _)

theorem flush_within (L : StatusLayout) (a : FBAtlas) :
    issues_within 0 a (flush_render_pass L a) := by
  rw [flush_render_pass_eq]
  by_cases h : a.renderpass.inside = false
  · rw [if_pos h]
    exact issues_within_refl a
  · rw [if_neg h]
    obtain ⟨l, e, hb⟩ := write_blocks_within L Domain.Scaled Stage.Fragment a.renderpass.rect
      { a with renderpass := { a.renderpass with inside := false } }
    refine ⟨l, e, ?_⟩
    have h1 : open_passes a = 1 := by
      unfold open_passes
      simp at h
      simp [h]
    have h2 : open_passes ({ a with renderpass := { a.renderpass with inside := false } }
        : FBAtlas) = 0 := by
      unfold open_passes
      simp
    rw [h2] at hb
    omega

theorem guard_within (L : StatusLayout) (rect : Rect) (a : FBAtlas) :
    issues_within 0 a (if inside_render_pass a rect = true then flush_render_pass L a else a) := by
  split
  · exact flush_within L a
  · exact issues_within_refl a

theorem write_domain_within (L : StatusLayout) (d : Domain) (s : Stage) (rect : Rect)
    (a : FBAtlas) : issues_within 1 a (write_domain L d s rect a) := by
  rw [write_domain_eq]
  exact issues_within_trans (guard_within L rect a) (write_blocks_within L d s rect _)

theorem read_domain_eq (L : StatusLayout) (d : Domain) (s : Stage) (rect : Rect)
    (a : FBAtlas) :
    read_domain L d s rect a =
      map_blocks (fun v => v ||| (read_masks L d s).2) (block_range rect)
        (barrier_if
          (scan_hazards (if inside_render_pass a rect = true then flush_render_pass L a else a)
            rect (read_masks L d s).1)
          (if inside_render_pass a rect = true then flush_render_pass L a else a)) := rfl

theorem read_domain_within (L : StatusLayout) (d : Domain) (s : Stage) (rect : Rect)
    (a : FBAtlas) : issues_within 1 a (read_domain L d s rect a) := by
  rw [read_domain_eq]
  exact issues_within_trans (guard_within L rect a)
    (issues_within_trans (barrier_if_within _ _) (map_blocks_within _ _ _))

theorem sync_domain_within (L : StatusLayout) (d : Domain) (rect : Rect) (a : FBAtlas) :
    issues_within 1 a (sync_domain L d rect a) := by
  rw [sync_domain_eq]
  split
  · exact issues_within_mono (issues_within_refl a) (by omega)
  · exact issues_within_trans (guard_within L rect a)
      (issues_within_trans (barrier_if_within _ _) (map_blocks_within _ _ _))

theorem run_within (L : StatusLayout) (acc : Access) (d : Domain) (rect : Rect) (a : FBAtlas) :
    issues_within 2 a (acc.run L d rect a) := by
  cases acc
  · exact issues_within_trans (sync_domain_within L d rect a) (read_domain_within L d _ rect _)
  · exact issues_within_trans (sync_domain_within L d rect a) (write_domain_within L d _ rect _)
  · exact issues_within_trans (sync_domain_within L d rect a) (read_domain_within L d _ rect _)
  · exact issues_within_trans (sync_domain_within L d rect a) (write_domain_within L d _ rect _)

theorem read_texture_within (L : StatusLayout) (rect : Rect) (a : FBAtlas) :
    issues_within 2 a (read_texture L rect a) :=
  issues_within_trans (sync_domain_within L _ rect a) (read_domain_within L _ _ rect _)

theorem issues_within_bound {n : Nat} {a b : FBAtlas} (h : issues_within n a b) :
    ∃ l : List Nat, b.barriers = a.barriers ++ l ∧ l.length ≤ n + 1 ∧
      (a.renderpass.inside = false → l.length ≤ n) := by
  obtain ⟨l, e, hb⟩ := h
  refine ⟨l, e, ?_, ?_⟩
  · have : open_passes a ≤ 1 := by unfold open_passes; split <;> simp
    omega
  · intro hin
    have : open_passes a = 0 := by unfold open_passes; simp [hin]
    omega

/-! ## The masks passed to `pipeline_barrier` -/

theorem WF.own_transfer {L : StatusLayout} (hL : L.WF) (v : Nat) (hv : v ∈ L.ownerships)
    (h : Nat) (hh : h &&& L.STATUS_OWNERSHIP_MASK = 0) : v &&& h = 0 := by
  rw [← hL.own_sub v hv, Nat.and_assoc, Nat.and_comm _ h, hh, Nat.and_zero]

theorem WF.transfer_mask {L : StatusLayout} (hL : L.WF) :
    L.transfer_flags &&& L.STATUS_OWNERSHIP_MASK = 0 := by
  unfold StatusLayout.transfer_flags
  exact or_and_eq_zero (or_and_eq_zero (or_and_eq_zero
    (hL.hz _ (by simp [StatusLayout.hazard_bits])).2
    (hL.hz _ (by simp [StatusLayout.hazard_bits])).2)
    (hL.hz _ (by simp [StatusLayout.hazard_bits])).2)
    (hL.hz _ (by simp [StatusLayout.hazard_bits])).2

theorem WF.fragment_write_transfer {L : StatusLayout} (hL : L.WF) :
    L.STATUS_FRAGMENT_SFB_WRITE &&& L.transfer_flags = 0 := by
  have hd := hL.hazard_disjoint
  simp only [StatusLayout.hazard_bits, List.pairwise_cons, List.mem_cons,
    List.mem_singleton, forall_eq_or_imp, forall_eq] at hd
  unfold StatusLayout.transfer_flags
  apply and_comm_eq_zero
  refine or_and_eq_zero (or_and_eq_zero (or_and_eq_zero ?_ ?_) ?_) ?_
  · exact hd.2.2.2.2.1.2.2.2.2.1
  · exact hd.2.2.2.2.2.2.1.2.2.1
  · exact hd.2.2.2.2.2.1.2.2.2.1
  · exact hd.2.2.2.2.2.2.2.1.2.1


theorem issues_masks_refl (L : StatusLayout) (a : FBAtlas) : issues_masks L a a :=
  ⟨[], by simp, by simp, by simp⟩

theorem issues_masks_trans {L : StatusLayout} {a b c : FBAtlas} (h1 : issues_masks L a b)
    (hf : transfer_free L a → transfer_free L b) (h2 : issues_masks L b c) :
    issues_masks L a c := by
  obtain ⟨l1, e1, p1, t1⟩ := h1
  obtain ⟨l2, e2, p2, t2⟩ := h2
  refine ⟨l1 ++ l2, ?_, ?_, ?_⟩
  · rw [e2, e1, List.append_assoc]
  · intro m hm
    rcases List.mem_append.mp hm with h | h
    · exact p1 m h
    · exact p2 m h
  · intro ha m hm
    rcases List.mem_append.mp hm with h | h
    · exact t1 ha m h
    · exact t2 (hf ha) m h

theorem transfer_free_barrier_if (L : StatusLayout) (wd : Nat) (a : FBAtlas)
    (h : transfer_free L a) : transfer_free L (barrier_if wd a) := by
  intro j
  unfold barrier_if
  split
  · exact and_and_eq_zero _ _ _ (h j)
  · exact h j

theorem transfer_free_map_blocks (L : StatusLayout) (f : Nat → Nat)
    (hf : ∀ v, v &&& L.transfer_flags = 0 → f v &&& L.transfer_flags = 0)
    (l : List (Nat × Nat)) (a : FBAtlas) (h : transfer_free L a) :
    transfer_free L (map_blocks f l a) := by
  induction l generalizing a with
  | nil => exact h
  | cons b t ih =>
    unfold map_blocks
    rw [List.foldl_cons]
    apply ih
    intro j
    unfold set_info
    simp only [Function.update_apply]
    split
    · exact hf _ (h _)
    · exact h j

/-- The conditional barrier on a scan of the block range is a well-formed step. -/
theorem barrier_if_masks (L : StatusLayout) (a : FBAtlas) (wd : Nat)
    (hm : wd &&& L.STATUS_OWNERSHIP_MASK = 0)
    (ht : transfer_free L a → wd &&& L.transfer_flags = 0) :
    issues_masks L a (barrier_if wd a) := by
  refine ⟨if wd ≠ 0 then [wd] else [], barrier_if_barriers wd a, ?_, ?_⟩
  · intro m hmem
    split at hmem
    · simp only [List.mem_singleton] at hmem
      subst hmem
      rename_i h0
      exact ⟨h0, hm⟩
    · simp at hmem
  · intro ha m hmem
    split at hmem
    · simp only [List.mem_singleton] at hmem
      subst hmem
      exact ht ha
    · simp at hmem

theorem map_blocks_masks (L : StatusLayout) (f : Nat → Nat) (l : List (Nat × Nat))
    (a : FBAtlas) : issues_masks L a (map_blocks f l a) :=
  ⟨[], by simp [map_blocks_barriers], by simp, by simp⟩

theorem scan_masks (L : StatusLayout) (a : FBAtlas) (rect : Rect) (h : Nat)
    (hh : h &&& L.STATUS_OWNERSHIP_MASK = 0) :
    scan_hazards a rect h &&& L.STATUS_OWNERSHIP_MASK = 0 ∧
    (transfer_free L a → scan_hazards a rect h &&& L.transfer_flags = 0) := by
  unfold scan_hazards
  constructor
  · apply foldl_or_and_zero
    intro b _
    rw [Nat.and_assoc, hh, Nat.and_zero]
  · intro ha
    apply foldl_or_and_zero
    intro b _
    exact and_and_eq_zero _ _ _ (ha _)

theorem sync_scan_masks (L : StatusLayout) (hL : L.WF) (d : Domain) (a : FBAtlas)
    (rect : Rect) :
    sync_scan L d rect a &&& L.STATUS_OWNERSHIP_MASK = 0 ∧
    (transfer_free L a → sync_scan L d rect a &&& L.transfer_flags = 0) := by
  rw [sync_scan_eq]
  constructor
  · apply foldl_or_and_zero
    intro b _
    split
    · rw [Nat.and_assoc, sync_hazard_mask L hL d, Nat.and_zero]
    · simp
  · intro ha
    apply foldl_or_and_zero
    intro b _
    split
    · exact and_and_eq_zero _ _ _ (ha _)
    · simp

theorem write_blocks_masks (L : StatusLayout) (hL : L.WF) (d : Domain) (s : Stage)
    (rect : Rect) (a : FBAtlas) : issues_masks L a (write_blocks L d s rect a) := by
  rw [write_blocks_eq]
  obtain ⟨h1, h2⟩ := scan_masks L a rect (write_masks L d s).1 (write_hazard_mask L hL d s)
  exact issues_masks_trans (barrier_if_masks L a _ h1 h2)
    (transfer_free_barrier_if L _ a) (map_blocks_masks L _ _ _)

/-- The marks of a flush carry no transfer flag. -/
theorem fragment_marks_free (L : StatusLayout) (hL : L.WF) (v : Nat)
    (hv : v &&& L.transfer_flags = 0) :
    ((v &&& not32 L.STATUS_OWNERSHIP_MASK) |||
      (write_masks L Domain.Scaled Stage.Fragment).2) &&& L.transfer_flags = 0 := by
  have hm : (write_masks L Domain.Scaled Stage.Fragment).2 =
      L.STATUS_FRAGMENT_SFB_WRITE ||| L.STATUS_SFB_ONLY := by
    simp [write_masks]
  rw [hm]
  refine or_and_eq_zero (and_and_eq_zero _ _ _ hv) (or_and_eq_zero ?_ ?_)
  · exact WF.fragment_write_transfer hL
  · exact WF.own_transfer hL _ (by simp [StatusLayout.ownerships]) _ (WF.transfer_mask hL)

theorem flush_masks (L : StatusLayout) (hL : L.WF) (a : FBAtlas) :
    issues_masks L a (flush_render_pass L a) ∧
    (transfer_free L a → transfer_free L (flush_render_pass L a)) := by
  rw [flush_render_pass_eq]
  by_cases h : a.renderpass.inside = false
  · rw [if_pos h]
    exact ⟨issues_masks_refl L a, fun ha => ha⟩
  · rw [if_neg h]
    constructor
    · obtain ⟨l, e, p, t⟩ := write_blocks_masks L hL Domain.Scaled Stage.Fragment
        a.renderpass.rect { a with renderpass := { a.renderpass with inside := false } }
      exact ⟨l, e, p, fun ha => t ha⟩
    · intro ha
      rw [write_blocks_eq]
      apply transfer_free_map_blocks L _ (fragment_marks_free L hL)
      exact transfer_free_barrier_if L _ _ ha

theorem guard_masks (L : StatusLayout) (hL : L.WF) (rect : Rect) (a : FBAtlas) :
    issues_masks L a (if inside_render_pass a rect = true then flush_render_pass L a else a) ∧
    (transfer_free L a →
      transfer_free L (if inside_render_pass a rect = true then flush_render_pass L a else a)) := by
  split
  · exact flush_masks L hL a
  · exact ⟨issues_masks_refl L a, fun ha => ha⟩

theorem write_domain_masks (L : StatusLayout) (hL : L.WF) (d : Domain) (s : Stage)
    (rect : Rect) (a : FBAtlas) : issues_masks L a (write_domain L d s rect a) := by
  rw [write_domain_eq]
  exact issues_masks_trans (guard_masks L hL rect a).1 (guard_masks L hL rect a).2
    (write_blocks_masks L hL d s rect _)

theorem read_domain_masks (L : StatusLayout) (hL : L.WF) (d : Domain) (s : Stage)
    (rect : Rect) (a : FBAtlas) : issues_masks L a (read_domain L d s rect a) := by
  rw [read_domain_eq]
  obtain ⟨h1, h2⟩ := scan_masks L
    (if inside_render_pass a rect = true then flush_render_pass L a else a) rect
    (read_masks L d s).1 (read_hazard_mask L hL d s)
  exact issues_masks_trans (guard_masks L hL rect a).1 (guard_masks L hL rect a).2
    (issues_masks_trans (barrier_if_masks L _ _ h1 h2) (transfer_free_barrier_if L _ _)
      (map_blocks_masks L _ _ _))

theorem sync_domain_masks (L : StatusLayout) (hL : L.WF) (d : Domain) (rect : Rect)
    (a : FBAtlas) : issues_masks L a (sync_domain L d rect a) := by
  rw [sync_domain_eq]
  split
  · exact issues_masks_refl L a
  · obtain ⟨h1, h2⟩ := sync_scan_masks L hL d
      (if inside_render_pass a rect = true then flush_render_pass L a else a) rect
    exact issues_masks_trans (guard_masks L hL rect a).1 (guard_masks L hL rect a).2
      (issues_masks_trans (barrier_if_masks L _ _ h1 h2) (transfer_free_barrier_if L _ _)
        (map_blocks_masks L _ _ _))

theorem written_state_transfer_free : transfer_free stdLayout written_state := by
  unfold written_state write_compute
  rw [sync_domain_fresh stdLayout stdLayout_wf _ _ _ (init_fresh _ _),
    write_domain_fresh stdLayout stdLayout_wf _ _ _ _ (init_fresh _ _)]
  apply transfer_free_map_blocks
  · intro v hv
    exact or_and_eq_zero (and_and_eq_zero _ _ _ hv) (by decide)
  · intro j
    show stdLayout.STATUS_FB_PREFER &&& stdLayout.transfer_flags = 0
    decide

end FBAtlas

/-! ## Renderer: programmable draws, feedback flag and queue sizes -/

namespace Renderer

variable {F : Type}

theorem programmable_barrier (s : SemiTransparentState) :
    set_state_pixel_barrier s = programmable s := by
  unfold set_state_pixel_barrier programmable
  cases s.semi_transparent <;> simp

theorem semi_loop_head (rest : List SemiTransparentState) (i : Nat)
    (s : SemiTransparentState) (hs : programmable s = true) (hsize : 3 * (i + 1) < U32) :
    ∃ tail, semi_loop rest (i + 1) s i = SemiCmd.draw 3 1 (3 * i) 0 :: tail := by
  have h1 : mul32 (i + 1 - i) 3 = 3 := by
    have : i + 1 - i = 1 := by omega
    rw [this]
    rfl
  have h2 : mul32 i 3 = 3 * i := mul32_three i (by omega)
  cases rest with
  | nil => exact ⟨[], by simp only [semi_loop, h1, h2]⟩
  | cons t rest =>
    unfold semi_loop
    rw [if_pos (Or.inl hs), h1, h2]
    exact ⟨_, rfl⟩

theorem semi_loop_own (rest : List SemiTransparentState) (i : Nat)
    (last : SemiTransparentState) (off k : Nat) (s : SemiTransparentState)
    (hk : rest[k]? = some s) (hs : programmable s = true)
    (hsize : 3 * (i + rest.length) < U32) :
    List.IsInfix [SemiCmd.set_state s, SemiCmd.draw 3 1 (3 * (i + k)) 0]
      (semi_loop rest i last off) := by
  induction rest generalizing i last off k with
  | nil => simp at hk
  | cons t rest ih =>
    simp only [List.length_cons] at hsize
    unfold semi_loop
    cases k with
    | zero =>
      simp only [List.getElem?_cons_zero, Option.some.injEq] at hk
      subst hk
      by_cases hc : programmable last = true ∨ last ≠ t
      · rw [if_pos hc]
        obtain ⟨tail, ht⟩ := semi_loop_head rest i t hs (by omega)
        rw [ht]
        exact ⟨[SemiCmd.draw (mul32 (i - off) 3) 1 (mul32 off 3) 0], tail, rfl⟩
      · exfalso
        have h1 : ¬ programmable last = true := fun h => hc (Or.inl h)
        have h2 : last = t := by
          by_contra h
          exact hc (Or.inr h)
        rw [h2] at h1
        exact h1 hs
    | succ k =>
      simp only [List.getElem?_cons_succ] at hk
      have hi : 3 * (i + (k + 1)) = 3 * (i + 1 + k) := by omega
      rw [hi]
      split
      · obtain ⟨p, r, e⟩ := ih (i + 1) t i k hk (by omega)
        refine ⟨SemiCmd.draw (mul32 (i - off) 3) 1 (mul32 off 3) 0 :: SemiCmd.set_state t :: p,
          r, ?_⟩
        rw [← e]
        rfl
      · exact ih (i + 1) last off k hk (by omega)

theorem semi_loop_covers (rest : List SemiTransparentState) (i : Nat)
    (last : SemiTransparentState) (off : Nat) (hoff : off < i)
    (hsize : 3 * (i + rest.length) < U32) :
    covers (3 * off) (draw_ranges (semi_loop rest i last off)) (3 * (i + rest.length)) := by
  induction rest generalizing i last off with
  | nil =>
    simp only [List.length_nil, Nat.add_zero] at hsize ⊢
    simp only [semi_loop, draw_ranges, covers]
    rw [mul32_three _ (by omega), mul32_three _ (by omega)]
    omega
  | cons t rest ih =>
    simp only [List.length_cons] at hsize ⊢
    unfold semi_loop
    split
    · simp only [draw_ranges, covers]
      rw [mul32_three _ (by omega), mul32_three _ (by omega)]
      refine ⟨rfl, by omega, ?_⟩
      have h := ih (i + 1) t i (by omega) (by omega)
      have e1 : 3 * off + 3 * (i - off) = 3 * i := by omega
      have e2 : i + 1 + rest.length = i + (rest.length + 1) := by omega
      rw [e1, ← e2]
      exact h
    · have h := ih (i + 1) last off (by omega) (by omega)
      have e2 : i + 1 + rest.length = i + (rest.length + 1) := by omega
      rw [← e2]
      exact h

theorem mem_draw_ranges_of_infix (s : SemiTransparentState) (n first : Nat)
    (cs : List SemiCmd)
    (h : List.IsInfix [SemiCmd.set_state s, SemiCmd.draw n 1 first 0] cs) :
    (n, first) ∈ draw_ranges cs := by
  obtain ⟨p, r, e⟩ := h
  subst e
  induction p with
  | nil => simp [draw_ranges]
  | cons c p ih =>
    cases c with
    | upload k => exact ih
    | set_state t => exact ih
    | draw a b c d => exact List.mem_cons_of_mem _ ih

theorem push_ordered_fields (r : Renderer F) (vs : List (BufferVertex F)) (n : Nat) :
    (push_ordered r vs n).render_pass_is_feedback
      = (dragon_path r.render_state || r.render_pass_is_feedback) ∧
    (push_ordered r vs n).queue.semi_transparent
      = r.queue.semi_transparent ++ (if ordered r.render_state = true then vs else []) ∧
    (push_ordered r vs n).queue.semi_transparent_state
      = r.queue.semi_transparent_state ++
        (if ordered r.render_state = true then List.replicate n (ordered_state r) else []) := by
  unfold push_ordered
  by_cases ho : ordered r.render_state = true
  · rw [if_pos ho, if_pos ho, if_pos ho]
    refine ⟨?_, rfl, rfl⟩
    cases hd : dragon_path r.render_state <;> simp
  · rw [if_neg ho, if_neg ho, if_neg ho]
    refine ⟨?_, by simp, by simp⟩
    have hd : dragon_path r.render_state = false := by
      unfold dragon_path
      unfold ordered at ho
      cases hm : r.render_state.mask_test
      · simp
      · simp [hm] at ho
    simp [hd]

theorem draw_fields (ops : FloatOps F) (L : StatusLayout) (r : Renderer F)
    (vertices : Nat → Vertex F) (count : Nat) (ws vs : List (BufferVertex F)) (n : Nat) :
    (push_ordered
        { (select_pipeline (build_attribs ops L r vertices count).1).1 with
          queue :=
            push_all (select_pipeline (build_attribs ops L r vertices count).1).1.queue
              (select_pipeline (build_attribs ops L r vertices count).1).2 ws }
        vs n).render_pass_is_feedback
      = (dragon_path r.render_state || r.render_pass_is_feedback) ∧
    (push_ordered
        { (select_pipeline (build_attribs ops L r vertices count).1).1 with
          queue :=
            push_all (select_pipeline (build_attribs ops L r vertices count).1).1.queue
              (select_pipeline (build_attribs ops L r vertices count).1).2 ws }
        vs n).queue.semi_transparent.length
      = r.queue.semi_transparent.length + (if ordered r.render_state = true then vs.length else 0) ∧
    (push_ordered
        { (select_pipeline (build_attribs ops L r vertices count).1).1 with
          queue :=
            push_all (select_pipeline (build_attribs ops L r vertices count).1).1.queue
              (select_pipeline (build_attribs ops L r vertices count).1).2 ws }
        vs n).queue.semi_transparent_state.length
      = r.queue.semi_transparent_state.length + (if ordered r.render_state = true then n else 0) := by
  obtain ⟨hq, hrs, _, hfb⟩ := build_attribs_fields ops L r vertices count
  obtain ⟨_, _, _, hst, hss, hsr, _, hsf⟩ :=
    select_pipeline_spec (build_attribs ops L r vertices count).1
  obtain ⟨hp1, hp2⟩ := push_all_ordered
    (select_pipeline (build_attribs ops L r vertices count).1).1.queue
    (select_pipeline (build_attribs ops L r vertices count).1).2 ws
  obtain ⟨h1, h2, h3⟩ := push_ordered_fields
    { (select_pipeline (build_attribs ops L r vertices count).1).1 with
      queue :=
        push_all (select_pipeline (build_attribs ops L r vertices count).1).1.queue
          (select_pipeline (build_attribs ops L r vertices count).1).2 ws } vs n
  rw [h1, h2, h3]
  simp only [hsr, hrs, hsf, hfb, hp1, hp2, hst, hss, hq]
  refine ⟨trivial, ?_, ?_⟩
  · split <;> simp
  · split <;> simp

end Renderer

namespace DrawCall

variable {F : Type}

theorem run_fields (ops : FloatOps F) (L : StatusLayout) (c : DrawCall F) (r : Renderer F) :
    (c.run ops L r).render_pass_is_feedback
      = (Renderer.dragon_path c.state || r.render_pass_is_feedback) ∧
    ∃ k, (c.run ops L r).queue.semi_transparent.length
        = r.queue.semi_transparent.length + 3 * k ∧
      (c.run ops L r).queue.semi_transparent_state.length
        = r.queue.semi_transparent_state.length + k := by
  cases c with
  | triangle rs surface vertices =>
    obtain ⟨h1, h2, h3⟩ := Renderer.draw_fields ops L
      { r with render_state := rs, last_surface := surface } vertices 3
      [(Renderer.build_attribs ops L { r with render_state := rs, last_surface := surface }
          vertices 3).2 0,
       (Renderer.build_attribs ops L { r with render_state := rs, last_surface := surface }
          vertices 3).2 1,
       (Renderer.build_attribs ops L { r with render_state := rs, last_surface := surface }
          vertices 3).2 2]
      [(Renderer.build_attribs ops L { r with render_state := rs, last_surface := surface }
          vertices 3).2 0,
       (Renderer.build_attribs ops L { r with render_state := rs, last_surface := surface }
          vertices 3).2 1,
       (Renderer.build_attribs ops L { r with render_state := rs, last_surface := surface }
          vertices 3).2 2] 1
    refine ⟨h1, if Renderer.ordered rs = true then 1 else 0, ?_, ?_⟩
    · refine Eq.trans h2 ?_
      show _ + (if Renderer.ordered rs = true then _ else _) = _
      split <;> simp
    · refine Eq.trans h3 ?_
      rfl
  | quad rs surface vertices =>
    obtain ⟨h1, h2, h3⟩ := Renderer.draw_fields ops L
      { r with render_state := rs, last_surface := surface } vertices 4
      [(Renderer.build_attribs ops L { r with render_state := rs, last_surface := surface }
          vertices 4).2 0,
       (Renderer.build_attribs ops L { r with render_state := rs, last_surface := surface }
          vertices 4).2 1,
       (Renderer.build_attribs ops L { r with render_state := rs, last_surface := surface }
          vertices 4).2 2,
       (Renderer.build_attribs ops L { r with render_state := rs, last_surface := surface }
          vertices 4).2 3,
       (Renderer.build_attribs ops L { r with render_state := rs, last_surface := surface }
          vertices 4).2 2,
       (Renderer.build_attribs ops L { r with render_state := rs, last_surface := surface }
          vertices 4).2 1]
      [(Renderer.build_attribs ops L { r with render_state := rs, last_surface := surface }
          vertices 4).2 0,
       (Renderer.build_attribs ops L { r with render_state := rs, last_surface := surface }
          vertices 4).2 1,
       (Renderer.build_attribs ops L { r with render_state := rs, last_surface := surface }
          vertices 4).2 2,
       (Renderer.build_attribs ops L { r with render_state := rs, last_surface := surface }
          vertices 4).2 3,
       (Renderer.build_attribs ops L { r with render_state := rs, last_surface := surface }
          vertices 4).2 2,
       (Renderer.build_attribs ops L { r with render_state := rs, last_surface := surface }
          vertices 4).2 1] 2
    refine ⟨h1, if Renderer.ordered rs = true then 2 else 0, ?_, ?_⟩
    · refine Eq.trans h2 ?_
      show _ + (if Renderer.ordered rs = true then _ else _) = _
      split <;> simp
    · refine Eq.trans h3 ?_
      rfl

end DrawCall

namespace Renderer

variable {F : Type}

theorem draw_call_sizes (ops : FloatOps F) (L : StatusLayout) (rs : RenderState)
    (surface : TextureSurface) (vertices : Nat → Vertex F) (r : Renderer F) :
    (((DrawCall.triangle rs surface vertices).run ops L r).queue.semi_transparent.length
        = r.queue.semi_transparent.length + (if ordered rs = true then 3 else 0) ∧
      ((DrawCall.triangle rs surface vertices).run ops L r).queue.semi_transparent_state.length
        = r.queue.semi_transparent_state.length + (if ordered rs = true then 1 else 0)) ∧
    (((DrawCall.quad rs surface vertices).run ops L r).queue.semi_transparent.length
        = r.queue.semi_transparent.length + (if ordered rs = true then 6 else 0) ∧
      ((DrawCall.quad rs surface vertices).run ops L r).queue.semi_transparent_state.length
        = r.queue.semi_transparent_state.length + (if ordered rs = true then 2 else 0)) := by
  constructor
  · obtain ⟨_, h2, h3⟩ := draw_fields ops L
      { r with render_state := rs, last_surface := surface } vertices 3
      [(build_attribs ops L { r with render_state := rs, last_surface := surface }
          vertices 3).2 0,
       (build_attribs ops L { r with render_state := rs, last_surface := surface }
          vertices 3).2 1,
       (build_attribs ops L { r with render_state := rs, last_surface := surface }
          vertices 3).2 2]
      [(build_attribs ops L { r with render_state := rs, last_surface := surface }
          vertices 3).2 0,
       (build_attribs ops L { r with render_state := rs, last_surface := surface }
          vertices 3).2 1,
       (build_attribs ops L { r with render_state := rs, last_surface := surface }
          vertices 3).2 2] 1
    exact ⟨h2, h3⟩
  · obtain ⟨_, h2, h3⟩ := draw_fields ops L
      { r with render_state := rs, last_surface := surface } vertices 4
      [(build_attribs ops L { r with render_state := rs, last_surface := surface }
          vertices 4).2 0,
       (build_attribs ops L { r with render_state := rs, last_surface := surface }
          vertices 4).2 1,
       (build_attribs ops L { r with render_state := rs, last_surface := surface }
          vertices 4).2 2,
       (build_attribs ops L { r with render_state := rs, last_surface := surface }
          vertices 4).2 3,
       (build_attribs ops L { r with render_state := rs, last_surface := surface }
          vertices 4).2 2,
       (build_attribs ops L { r with render_state := rs, last_surface := surface }
          vertices 4).2 1]
      [(build_attribs ops L { r with render_state := rs, last_surface := surface }
          vertices 4).2 0,
       (build_attribs ops L { r with render_state := rs, last_surface := surface }
          vertices 4).2 1,
       (build_attribs ops L { r with render_state := rs, last_surface := surface }
          vertices 4).2 2,
       (build_attribs ops L { r with render_state := rs, last_surface := surface }
          vertices 4).2 3,
       (build_attribs ops L { r with render_state := rs, last_surface := surface }
          vertices 4).2 2,
       (build_attribs ops L { r with render_state := rs, last_surface := surface }
          vertices 4).2 1] 2
    exact ⟨h2, h3⟩

theorem dragon_path_iff (rs : RenderState) :
    dragon_path rs = true ↔
      (rs.mask_test = true ∧ rs.texture_mode ≠ TextureMode.None ∧
        rs.semi_transparent ≠ SemiTransparentMode.None) := by
  unfold dragon_path
  simp [and_assoc]

theorem foldl_feedback (ops : FloatOps F) (L : StatusLayout) (calls : List (DrawCall F))
    (r : Renderer F) :
    (calls.foldl (fun s c => c.run ops L s) r).render_pass_is_feedback =
      (calls.any (fun c => dragon_path c.state) || r.render_pass_is_feedback) := by
  induction calls generalizing r with
  | nil => simp
  | cons c cs ih =>
    rw [List.foldl_cons, ih, (DrawCall.run_fields ops L c r).1, List.any_cons]
    cases dragon_path c.state <;> simp [Bool.or_comm]

theorem mul32_le (a : Nat) : mul32 a 3 ≤ 3 * a := by
  unfold mul32
  rw [Nat.mul_comm]
  exact Nat.mod_le _ _

theorem semi_loop_inside (rest : List SemiTransparentState) (i : Nat)
    (last : SemiTransparentState) (off : Nat) (hoff : off ≤ i) :
    ∀ p ∈ draw_ranges (semi_loop rest i last off), p.2 + p.1 ≤ 3 * (i + rest.length) := by
  induction rest generalizing i last off with
  | nil =>
    intro p hp
    simp only [semi_loop, draw_ranges, List.mem_singleton] at hp
    subst hp
    have h1 := mul32_le (i - off)
    have h2 := mul32_le off
    simp only [List.length_nil]
    omega
  | cons t rest ih =>
    intro p hp
    unfold semi_loop at hp
    simp only [List.length_cons]
    split at hp
    · simp only [draw_ranges, List.mem_cons] at hp
      rcases hp with hp | hp
      · subst hp
        have h1 := mul32_le (i - off)
        have h2 := mul32_le off
        simp only
        omega
      · have h := ih (i + 1) t i (by omega) p hp
        omega
    · have h := ih (i + 1) last off (by omega) p hp
      omega

theorem semi_loop_no_upload (rest : List SemiTransparentState) (i : Nat)
    (last : SemiTransparentState) (off n : Nat) :
    SemiCmd.upload n ∉ semi_loop rest i last off := by
  induction rest generalizing i last off with
  | nil => simp [semi_loop]
  | cons t rest ih =>
    unfold semi_loop
    split
    · simp only [List.mem_cons, not_or]
      exact ⟨by simp, by simp, ih _ _ _⟩
    · exact ih _ _ _

theorem render_inside (q : OpaqueQueue F) :
    (∀ p ∈ draw_ranges (render_semi_transparent_primitives q),
      p.2 + p.1 ≤ 3 * q.semi_transparent_state.length) ∧
    (∀ n, SemiCmd.upload n ∈ render_semi_transparent_primitives q →
      n = q.semi_transparent.length) := by
  unfold render_semi_transparent_primitives
  have hm := Nat.mod_le q.semi_transparent_state.length U32
  have hl := List.length_take_le (q.semi_transparent_state.length % U32) q.semi_transparent_state
  simp only
  split
  · simp [draw_ranges]
  · rename_i s0 rest heq
    rw [heq] at hl
    simp only [List.length_cons] at hl
    simp only [draw_ranges]
    constructor
    · intro p hp
      have h := semi_loop_inside rest 1 s0 0 (by omega) p hp
      omega
    · intro n hn
      simp only [List.mem_cons, SemiCmd.upload.injEq] at hn
      rcases hn with hn | hn | hn
      · exact hn
      · cases hn
      · exact absurd hn (semi_loop_no_upload _ _ _ _ _)

theorem foldl_sizes (ops : FloatOps F) (L : StatusLayout) (calls : List (QueueCall F))
    (r : Renderer F)
    (h : r.queue.semi_transparent.length = 3 * r.queue.semi_transparent_state.length) :
    (calls.foldl (fun s c => c.run ops L s) r).queue.semi_transparent.length =
      3 * (calls.foldl (fun s c => c.run ops L s) r).queue.semi_transparent_state.length := by
  induction calls generalizing r with
  | nil => exact h
  | cons c cs ih =>
    rw [List.foldl_cons]
    apply ih
    cases c with
    | draw d =>
      obtain ⟨_, k, h1, h2⟩ := DrawCall.run_fields ops L d r
      show (d.run ops L r).queue.semi_transparent.length = _
      rw [h1]
      show _ = 3 * (d.run ops L r).queue.semi_transparent_state.length
      rw [h2]
      omega
    | reset => rfl

end Renderer

/-! ## Claims C21 - C30 -/

namespace FBAtlas

/-- C21, evaluated at failing inputs: `{1020,0,8,8}` and `{0,508,8,8}` start inside the
VRAM and extend past its right and bottom edge; their block ranges are not clipped
and contain the blocks `(128,0)` and `(0,64)`, outside the 128x64 grid.  The flat
index of `(128,0)` is the one of block `(0,1)`, which shares no pixel with the
rectangle and is marked by `write_compute` all the same; the flat index of `(0,64)` is
the size of `fb_info`, and `write_compute` writes there. -/
theorem block_range_not_clipped :
    (⟨1020, 0, 8, 8⟩ : Rect).origin_inside ∧ (⟨0, 508, 8, 8⟩ : Rect).origin_inside ∧
    (128, 0) ∈ block_range ⟨1020, 0, 8, 8⟩ ∧ ¬ (128 < NUM_BLOCKS_X) ∧
    (0, 64) ∈ block_range ⟨0, 508, 8, 8⟩ ∧ ¬ (64 < NUM_BLOCKS_Y) ∧
    idx (128, 0) = idx (0, 1) ∧ idx (0, 64) = NUM_BLOCKS_X * NUM_BLOCKS_Y ∧
    ¬ (block_rect (0, 1)).shares_pixel ⟨1020, 0, 8, 8⟩ ∧
    (init stdLayout).info 0 1 = stdLayout.STATUS_FB_PREFER ∧
    (write_compute stdLayout Domain.Unscaled ⟨1020, 0, 8, 8⟩ (init stdLayout)).info 0 1 =
      stdLayout.STATUS_FB_ONLY ||| stdLayout.STATUS_COMPUTE_FB_WRITE ∧
    (write_compute stdLayout Domain.Unscaled ⟨0, 508, 8, 8⟩ (init stdLayout)).fb_info
        (NUM_BLOCKS_X * NUM_BLOCKS_Y) =
      stdLayout.STATUS_FB_ONLY ||| stdLayout.STATUS_COMPUTE_FB_WRITE := by
  refine ⟨by decide, by decide, by decide, by decide, by decide, by decide, by decide,
    by decide, ?_, by decide, ?_, ?_⟩
  · rintro ⟨px, py, h1, h2⟩
    simp only [Rect.contains, block_rect, BLOCK_WIDTH, BLOCK_HEIGHT] at h1 h2
    omega
  · simp only [write_compute, write_domain_eq]
    decide
  · simp only [write_compute, write_domain_eq]
    decide

/-- C22 as stated fails: on the atlas after `write_compute(Unscaled, {0,0,8,8})` the
single call `read_compute(Scaled, {0,0,8,8})` issues two barriers (`COMPUTE_FB_WRITE`
by its `sync_domain` step, `TRANSFER_SFB_WRITE` by its `read_domain` step); with a
render pass open, `read_compute(Scaled, {0,0,16,8})` on `busy_pass_state` issues
three (the flush of the pass comes first). -/
theorem read_compute_two_barriers :
    (⟨0, 0, 8, 8⟩ : Rect).valid ∧ written_state.barriers = [] ∧
    (read_compute stdLayout Domain.Scaled ⟨0, 0, 8, 8⟩ written_state).barriers =
      [stdLayout.STATUS_COMPUTE_FB_WRITE, stdLayout.STATUS_TRANSFER_SFB_WRITE] ∧
    (⟨0, 0, 16, 8⟩ : Rect).valid ∧
    busy_pass_state.renderpass.inside = true ∧ busy_pass_state.barriers = [] ∧
    (read_compute stdLayout Domain.Scaled ⟨0, 0, 16, 8⟩ busy_pass_state).barriers =
      [stdLayout.STATUS_COMPUTE_SFB_READ, stdLayout.STATUS_COMPUTE_FB_WRITE,
       stdLayout.STATUS_TRANSFER_SFB_WRITE ||| stdLayout.STATUS_FRAGMENT_SFB_WRITE] := by
  simp only [written_state, busy_pass_state, read_compute, write_compute, write_domain_eq,
    read_domain, sync_domain, flush_render_pass_eq]
  decide

/-- C22, amended: for every atlas state, domain and rectangle, a single call of
`read_compute`, `write_compute`, `read_transfer`, `write_transfer` or `read_texture`
issues at most two pipeline barriers when no render pass is open and at most three
when one is open; each of its steps `sync_domain`, `read_domain`, `write_domain`
issues at most one barrier when no pass is open and at most two otherwise (the flush
of the pass issues one of its own). -/
theorem access_barrier_bound (L : StatusLayout) (d : Domain) (rect : Rect) (a : FBAtlas) :
    (∀ acc : Access, ∃ l : List Nat,
      (acc.run L d rect a).barriers = a.barriers ++ l ∧ l.length ≤ 3 ∧
      (a.renderpass.inside = false → l.length ≤ 2)) ∧
    (∃ l : List Nat,
      (read_texture L rect a).barriers = a.barriers ++ l ∧ l.length ≤ 3 ∧
      (a.renderpass.inside = false → l.length ≤ 2)) ∧
    (∀ s : Stage, ∃ l : List Nat,
      (read_domain L d s rect a).barriers = a.barriers ++ l ∧ l.length ≤ 2 ∧
      (a.renderpass.inside = false → l.length ≤ 1)) ∧
    (∀ s : Stage, ∃ l : List Nat,
      (write_domain L d s rect a).barriers = a.barriers ++ l ∧ l.length ≤ 2 ∧
      (a.renderpass.inside = false → l.length ≤ 1)) ∧
    (∃ l : List Nat,
      (sync_domain L d rect a).barriers = a.barriers ++ l ∧ l.length ≤ 2 ∧
      (a.renderpass.inside = false → l.length ≤ 1)) :=
  ⟨fun acc => issues_within_bound (run_within L acc d rect a),
    issues_within_bound (read_texture_within L rect a),
    fun s => issues_within_bound (read_domain_within L d s rect a),
    fun s => issues_within_bound (write_domain_within L d s rect a),
    issues_within_bound (sync_domain_within L d rect a)⟩

end FBAtlas

namespace Replayer

/-- C23, evaluated at a failing input: a `LOAD_IMAGE` record for `{0,0,1,1}` is 30
bytes long.  When the file ends after 28 or 29 of them, inside the pixel payload,
`read_command` returns normally, with the same result as on the complete record;
when it ends at any earlier byte of the record, a read throws. -/
theorem read_command_short_pixel_payload :
    load_image_record.length = 30 ∧
    read_command load_image_record = Except.ok ⟨true, false, []⟩ ∧
    read_command (load_image_record.take 28) = Except.ok ⟨true, false, []⟩ ∧
    read_command (load_image_record.take 29) = Except.ok ⟨true, false, []⟩ ∧
    (∀ k, k < 28 → returns_normally (read_command (load_image_record.take k)) = false) := by
  refine ⟨by decide, by rfl, by rfl, by rfl, ?_⟩
  decide

end Replayer

namespace FBAtlas

/-- C24: for every non-empty rectangle R inside the 1024x512 VRAM and every block,
the block range the hazard operations compute for R contains the block if and only
if the 8x8 pixel area of the block shares at least one pixel with R. -/
theorem block_range_iff_shares_pixel (rect : Rect) (hv : rect.valid) (b : Nat × Nat) :
    b ∈ block_range rect ↔ (block_rect b).shares_pixel rect := by
  rw [mem_block_range_valid rect hv]
  obtain ⟨hw, hh, hx, hy⟩ := hv
  unfold Rect.shares_pixel Rect.contains block_rect BLOCK_WIDTH BLOCK_HEIGHT
  simp only
  constructor
  · intro h
    refine ⟨max rect.x (8 * b.1), max rect.y (8 * b.2), ?_⟩
    omega
  · rintro ⟨px, py, h1, h2⟩
    omega

/-- Witness of `block_range_iff_shares_pixel`: the rectangle `{4,4,8,8}` and the
block `(1,0)`. -/
theorem block_range_iff_shares_pixel_witness :
    (⟨4, 4, 8, 8⟩ : Rect).valid ∧
    ((1, 0) ∈ block_range ⟨4, 4, 8, 8⟩ ↔ (block_rect (1, 0)).shares_pixel ⟨4, 4, 8, 8⟩) :=
  ⟨by decide, block_range_iff_shares_pixel ⟨4, 4, 8, 8⟩ (by decide) (1, 0)⟩

end FBAtlas

namespace Renderer

variable {F : Type}

/-- C25: for every ordered queue of fewer than `2^32 / 3` primitives, the draw calls
of `render_semi_transparent_primitives` follow each other without gap or overlap over
the vertices of the queue, and every primitive `j` whose state is masked and
semi-transparent (mode not `None`) is drawn by a call of exactly 3 vertices starting
at vertex `3 j`, recorded right after a call of `set_state` for its state, which
records a pixel barrier: the primitive is merged with neither neighbour, whatever
their states. -/
theorem programmable_primitive_own_draw (q : OpaqueQueue F)
    (hsize : 3 * q.semi_transparent_state.length < U32) :
    covers 0 (draw_ranges (render_semi_transparent_primitives q))
      (3 * q.semi_transparent_state.length) ∧
    ∀ (j : Nat) (s : SemiTransparentState), q.semi_transparent_state[j]? = some s →
      s.masked = true → s.semi_transparent ≠ SemiTransparentMode.None →
      set_state_pixel_barrier s = true ∧
      List.IsInfix [SemiCmd.set_state s, SemiCmd.draw 3 1 (3 * j) 0]
        (render_semi_transparent_primitives q) ∧
      (3, 3 * j) ∈ draw_ranges (render_semi_transparent_primitives q) := by
  have hlen : q.semi_transparent_state.length % U32 = q.semi_transparent_state.length :=
    Nat.mod_eq_of_lt (by omega)
  have hown : ∀ (j : Nat) (s : SemiTransparentState), q.semi_transparent_state[j]? = some s →
      programmable s = true →
      List.IsInfix [SemiCmd.set_state s, SemiCmd.draw 3 1 (3 * j) 0]
        (render_semi_transparent_primitives q) := by
    intro j s hj hs
    unfold render_semi_transparent_primitives
    simp only [hlen, List.take_length]
    cases hst : q.semi_transparent_state with
    | nil => rw [hst] at hj; simp at hj
    | cons s0 rest =>
      rw [hst] at hj hsize
      simp only [List.length_cons] at hsize
      simp only
      cases j with
      | zero =>
        simp only [List.getElem?_cons_zero, Option.some.injEq] at hj
        subst hj
        obtain ⟨tail, ht⟩ := semi_loop_head rest 0 s0 hs (by omega)
        simp only [Nat.zero_add, Nat.mul_zero] at ht ⊢
        rw [ht]
        exact ⟨[SemiCmd.upload q.semi_transparent.length], tail, rfl⟩
      | succ k =>
        simp only [List.getElem?_cons_succ] at hj
        obtain ⟨p, r, e⟩ := semi_loop_own rest 1 s0 0 k s hj hs (by omega)
        have hi : 3 * (k + 1) = 3 * (1 + k) := by omega
        rw [hi]
        refine ⟨SemiCmd.upload q.semi_transparent.length :: SemiCmd.set_state s0 :: p, r, ?_⟩
        rw [← e]
        rfl
  constructor
  · unfold render_semi_transparent_primitives
    simp only [hlen, List.take_length]
    cases hst : q.semi_transparent_state with
    | nil => simp [draw_ranges, covers]
    | cons s0 rest =>
      rw [hst] at hsize
      simp only [List.length_cons] at hsize ⊢
      simp only [draw_ranges]
      have h := semi_loop_covers rest 1 s0 0 (by omega) (by omega)
      have e : 1 + rest.length = rest.length + 1 := by omega
      rw [e] at h
      exact h
  · intro j s hj hm hn
    have hs : programmable s = true := by
      unfold programmable
      simp [hm, hn]
    refine ⟨by rw [programmable_barrier]; exact hs, hown j s hj hs, ?_⟩
    exact mem_draw_ranges_of_infix s 3 (3 * j) _ (hown j s hj hs)

/-- Witness of `programmable_primitive_own_draw`: three masked `Add` primitives with
one state are drawn by three calls of 3 vertices. -/
theorem programmable_primitive_own_draw_witness :
    3 * masked_queue.semi_transparent_state.length < U32 ∧
    draw_ranges (render_semi_transparent_primitives masked_queue) = [(3, 0), (3, 3), (3, 6)] ∧
    (3, 3 * 1) ∈ draw_ranges (render_semi_transparent_primitives masked_queue) :=
  ⟨by decide, by decide,
    ((programmable_primitive_own_draw masked_queue (by decide)).2 1
      ⟨0, SemiTransparentMode.Add, true, true⟩ rfl rfl (by decide)).2.2⟩

/-- C26: after `reset_queue` and any sequence of `draw_triangle` and `draw_quad`
calls, `render_pass_is_feedback` is true if and only if at least one of the draws was
issued with mask test on, texture mode not `None` and semi-transparent mode not
`None`; `reset_queue` sets the flag to false. -/
theorem feedback_iff_masked_blend_draw (ops : FloatOps F) (L : StatusLayout) (r0 : Renderer F)
    (calls : List (DrawCall F)) :
    ((calls.foldl (fun s c => c.run ops L s) (reset_queue r0)).render_pass_is_feedback = true ↔
      ∃ c ∈ calls, c.state.mask_test = true ∧ c.state.texture_mode ≠ TextureMode.None ∧
        c.state.semi_transparent ≠ SemiTransparentMode.None) ∧
    (calls.foldl (fun s c => c.run ops L s) (reset_queue r0)).render_pass_is_feedback
      = calls.any (fun c => dragon_path c.state) ∧
    (∀ r : Renderer F, (reset_queue r).render_pass_is_feedback = false) := by
  have h : (calls.foldl (fun s c => c.run ops L s) (reset_queue r0)).render_pass_is_feedback
      = calls.any (fun c => dragon_path c.state) := by
    rw [foldl_feedback]
    show (_ || false) = _
    simp
  refine ⟨?_, h, fun _ => rfl⟩
  rw [h, List.any_eq_true]
  constructor
  · rintro ⟨c, hc, hd⟩
    exact ⟨c, hc, (dragon_path_iff _).mp hd⟩
  · rintro ⟨c, hc, hd⟩
    exact ⟨c, hc, (dragon_path_iff _).mpr hd⟩

end Renderer

namespace FBAtlas

/-- C27: for every atlas state, domain D and rectangle R, after `sync_domain(D, R)` no
block of R has the dirty ownership of D, a repeated `sync_domain(D, R)` finds no dirty
bit (the fast path) and returns the atlas state unchanged, barriers included. -/
theorem sync_domain_idempotent (L : StatusLayout) (hL : L.WF) (d : Domain) (rect : Rect)
    (a : FBAtlas) :
    (∀ b ∈ block_range rect,
      ownership L (sync_domain L d rect a) b.1 b.2 ≠ L.dirty_value d) ∧
    ownership_bits L (sync_domain L d rect a) rect &&& dirty_bits L d = 0 ∧
    sync_domain L d rect (sync_domain L d rect a) = sync_domain L d rect a := by
  have h1 : ∀ b ∈ block_range rect,
      ownership L (sync_domain L d rect a) b.1 b.2 ≠ L.dirty_value d :=
    fun b hb => sync_domain_clean L hL d rect a b hb
  have h2 := (sync_fast_iff L hL d rect (sync_domain L d rect a)).mpr h1
  refine ⟨h1, h2, ?_⟩
  rw [sync_domain_eq L d rect (sync_domain L d rect a), if_pos h2]

/-- Witness of `sync_domain_idempotent`: the standard layout and the resolve of an
upload to `{64,64,16,16}` for the scaled domain. -/
theorem sync_domain_idempotent_witness :
    stdLayout.WF ∧
    sync_domain stdLayout Domain.Scaled ⟨64, 64, 16, 16⟩
        (sync_domain stdLayout Domain.Scaled ⟨64, 64, 16, 16⟩ uploaded_state)
      = sync_domain stdLayout Domain.Scaled ⟨64, 64, 16, 16⟩ uploaded_state :=
  ⟨stdLayout_wf,
    (sync_domain_idempotent stdLayout stdLayout_wf Domain.Scaled ⟨64, 64, 16, 16⟩
      uploaded_state).2.2⟩

/-- C28: for every atlas state and rectangle, the calls of `write_domain` and
`flush_render_pass` into each other end within three nested calls: with any bound of
at least 3 (2 for `flush_render_pass`) the bounded functions return, with the state
the functions compute and with at most one call of `flush_render_pass` past its
guard; the `write_domain` that `flush_render_pass` calls finds no open pass, because
`inside` has been cleared. -/
theorem write_domain_flush_depth (L : StatusLayout) (d : Domain) (s : Stage) (rect : Rect)
    (a : FBAtlas) (depth : Nat) :
    write_domain_calls L (depth + 3) d s rect a =
      some (write_domain L d s rect a, if inside_render_pass a rect = true then 1 else 0) ∧
    flush_render_pass_calls L (depth + 2) a =
      some (flush_render_pass L a, if a.renderpass.inside = true then 1 else 0) ∧
    inside_render_pass
      ({ a with renderpass := { a.renderpass with inside := false } } : FBAtlas)
      a.renderpass.rect = false := by
  have hf : ∀ (k : Nat) (x : FBAtlas), flush_render_pass_calls L (k + 2) x =
      some (flush_render_pass L x, if x.renderpass.inside = true then 1 else 0) := by
    intro k x
    rw [flush_render_pass_eq]
    unfold flush_render_pass_calls
    by_cases h : x.renderpass.inside = false
    · simp [h]
    · have h1 : x.renderpass.inside = true := by simpa using h
      rw [if_neg h, if_neg h, if_pos h1]
      unfold write_domain_calls
      have h2 : inside_render_pass
          ({ x with renderpass := { x.renderpass with inside := false } } : FBAtlas)
          x.renderpass.rect = false := inside_render_pass_closed _ _ rfl
      simp [h2]
  refine ⟨?_, hf depth a, inside_render_pass_closed _ _ rfl⟩
  rw [write_domain_eq]
  unfold write_domain_calls
  by_cases h : inside_render_pass a rect = true
  · have hin : a.renderpass.inside = true := by
      by_contra hc
      have hc2 : a.renderpass.inside = false := by simpa using hc
      rw [inside_render_pass_closed a rect hc2] at h
      exact Bool.false_ne_true h
    rw [if_pos h, if_pos h, if_pos h, hf depth a, if_pos hin]
    rfl
  · rw [if_neg h, if_neg h, if_neg h]

/-- C29 as stated fails: after an upload into the draw area, a draw and a change of
the draw rect (`drawn_upload_state`), and after `read_compute(Scaled, R)` on an
uploaded rectangle R, the second mask passed to `pipeline_barrier` is
`TRANSFER_SFB_WRITE`, a transfer flag, for which the condition of the first assertion
of `Renderer::hazard` is false. -/
theorem barrier_mask_has_transfer_bit :
    drawn_upload_state.barriers =
      [stdLayout.STATUS_COMPUTE_FB_WRITE, stdLayout.STATUS_TRANSFER_SFB_WRITE] ∧
    (read_compute stdLayout Domain.Scaled ⟨64, 64, 16, 16⟩ uploaded_state).barriers =
      [stdLayout.STATUS_COMPUTE_FB_WRITE, stdLayout.STATUS_TRANSFER_SFB_WRITE] ∧
    stdLayout.STATUS_TRANSFER_SFB_WRITE &&&
      (stdLayout.STATUS_TRANSFER_FB_READ ||| stdLayout.STATUS_TRANSFER_FB_WRITE |||
        stdLayout.STATUS_TRANSFER_SFB_READ ||| stdLayout.STATUS_TRANSFER_SFB_WRITE) ≠ 0 ∧
    Renderer.hazard stdLayout stdLayout.STATUS_TRANSFER_SFB_WRITE = none := by
  refine ⟨?_, ?_, by decide, by decide⟩
  · unfold drawn_upload_state
    rw [set_draw_rect, flush_render_pass_eq, write_compute, write_domain_eq]
    decide
  · simp only [uploaded_state, write_compute, write_domain_eq]
    decide

/-- C29, amended: for every atlas state, every mask that `read_domain`,
`write_domain` and `sync_domain` pass to `pipeline_barrier` (the one of a flush
included) is non-zero and has no ownership bit, and it has no `TRANSFER_*` bit when no
status word of the grid carries one before the call. -/
theorem barrier_masks_transfer_free (L : StatusLayout) (hL : L.WF) (d : Domain) (s : Stage)
    (rect : Rect) (a : FBAtlas) :
    (∃ l : List Nat, (read_domain L d s rect a).barriers = a.barriers ++ l ∧
      (∀ m ∈ l, m ≠ 0 ∧ m &&& L.STATUS_OWNERSHIP_MASK = 0) ∧
      (transfer_free L a → ∀ m ∈ l, m &&& L.transfer_flags = 0)) ∧
    (∃ l : List Nat, (write_domain L d s rect a).barriers = a.barriers ++ l ∧
      (∀ m ∈ l, m ≠ 0 ∧ m &&& L.STATUS_OWNERSHIP_MASK = 0) ∧
      (transfer_free L a → ∀ m ∈ l, m &&& L.transfer_flags = 0)) ∧
    (∃ l : List Nat, (sync_domain L d rect a).barriers = a.barriers ++ l ∧
      (∀ m ∈ l, m ≠ 0 ∧ m &&& L.STATUS_OWNERSHIP_MASK = 0) ∧
      (transfer_free L a → ∀ m ∈ l, m &&& L.transfer_flags = 0)) :=
  ⟨read_domain_masks L hL d s rect a, write_domain_masks L hL d s rect a,
    sync_domain_masks L hL d rect a⟩

/-- Witness of `barrier_masks_transfer_free`: the standard layout and the atlas after
`write_compute(Unscaled, {0,0,8,8})`, which carries no transfer flag; the resolve by
`sync_domain(Scaled, {0,0,8,8})` passes the mask `COMPUTE_FB_WRITE`. -/
theorem barrier_masks_transfer_free_witness :
    stdLayout.WF ∧ transfer_free stdLayout written_state ∧
    (sync_domain stdLayout Domain.Scaled ⟨0, 0, 8, 8⟩ written_state).barriers
      = [stdLayout.STATUS_COMPUTE_FB_WRITE] ∧
    ∃ l : List Nat,
      (sync_domain stdLayout Domain.Scaled ⟨0, 0, 8, 8⟩ written_state).barriers
        = written_state.barriers ++ l ∧
      (∀ m ∈ l, m ≠ 0 ∧ m &&& stdLayout.STATUS_OWNERSHIP_MASK = 0) ∧
      (transfer_free stdLayout written_state → ∀ m ∈ l, m &&& stdLayout.transfer_flags = 0) :=
  ⟨stdLayout_wf, written_state_transfer_free,
    by
      simp only [written_state, write_compute, write_domain_eq]
      decide,
    (barrier_masks_transfer_free stdLayout stdLayout_wf Domain.Scaled Stage.Compute
      ⟨0, 0, 8, 8⟩ written_state).2.2⟩

end FBAtlas

namespace Renderer

variable {F : Type}

/-- C30: from every renderer whose ordered queue holds three vertices per state
entry (the empty queue of a new renderer does), after any sequence of
`draw_triangle`, `draw_quad` and `reset_queue` calls the queue satisfies
`semi_transparent.size() = 3 x semi_transparent_state.size()`, and every draw range
of `render_semi_transparent_primitives` ends inside the uploaded vertex buffer.  A
triangle adds 3 vertices and 1 state entry and a quad adds 6 vertices and 2 state
entries when mask test is on or the primitive is textured and semi-transparent,
nothing otherwise; `reset_queue` empties both vectors. -/
theorem ordered_queue_sizes (ops : FloatOps F) (L : StatusLayout) (r0 : Renderer F)
    (h0 : r0.queue.semi_transparent.length = 3 * r0.queue.semi_transparent_state.length)
    (calls : List (QueueCall F)) :
    (calls.foldl (fun s c => c.run ops L s) r0).queue.semi_transparent.length =
      3 * (calls.foldl (fun s c => c.run ops L s) r0).queue.semi_transparent_state.length ∧
    (∀ n, SemiCmd.upload n ∈ render_semi_transparent_primitives
        (calls.foldl (fun s c => c.run ops L s) r0).queue →
      ∀ p ∈ draw_ranges (render_semi_transparent_primitives
          (calls.foldl (fun s c => c.run ops L s) r0).queue),
        p.2 + p.1 ≤ n) ∧
    (∀ (rs : RenderState) (surface : TextureSurface) (vertices : Nat → Vertex F)
        (r : Renderer F),
      (((DrawCall.triangle rs surface vertices).run ops L r).queue.semi_transparent.length
          = r.queue.semi_transparent.length +
            (if rs.mask_test = true ∨ (rs.texture_mode ≠ TextureMode.None ∧
              rs.semi_transparent ≠ SemiTransparentMode.None) then 3 else 0) ∧
        ((DrawCall.triangle rs surface vertices).run ops L r).queue.semi_transparent_state.length
          = r.queue.semi_transparent_state.length +
            (if rs.mask_test = true ∨ (rs.texture_mode ≠ TextureMode.None ∧
              rs.semi_transparent ≠ SemiTransparentMode.None) then 1 else 0)) ∧
      (((DrawCall.quad rs surface vertices).run ops L r).queue.semi_transparent.length
          = r.queue.semi_transparent.length +
            (if rs.mask_test = true ∨ (rs.texture_mode ≠ TextureMode.None ∧
              rs.semi_transparent ≠ SemiTransparentMode.None) then 6 else 0) ∧
        ((DrawCall.quad rs surface vertices).run ops L r).queue.semi_transparent_state.length
          = r.queue.semi_transparent_state.length +
            (if rs.mask_test = true ∨ (rs.texture_mode ≠ TextureMode.None ∧
              rs.semi_transparent ≠ SemiTransparentMode.None) then 2 else 0))) ∧
    (∀ r : Renderer F, (reset_queue r).queue.semi_transparent = [] ∧
      (reset_queue r).queue.semi_transparent_state = []) := by
  have hs := foldl_sizes ops L calls r0 h0
  refine ⟨hs, ?_, ?_, fun _ => ⟨rfl, rfl⟩⟩
  · intro n hn p hp
    obtain ⟨h1, h2⟩ := render_inside (calls.foldl (fun s c => c.run ops L s) r0).queue
    rw [h2 n hn, hs]
    exact h1 p hp
  · intro rs surface vertices r
    have h := draw_call_sizes ops L rs surface vertices r
    by_cases ho : ordered rs = true
    · simp only [if_pos ho] at h
      simp only [if_pos ((ordered_iff rs).mp ho)]
      exact h
    · simp only [if_neg ho] at h
      simp only [if_neg (fun hc => ho ((ordered_iff rs).mpr hc))]
      exact h

/-- Witness of `ordered_queue_sizes`: a quad, a queue reset and a triangle, all
masked, textured and semi-transparent, on a renderer with an empty queue; one state
entry is left. -/
theorem ordered_queue_sizes_witness :
    ready_renderer.queue.semi_transparent.length
      = 3 * ready_renderer.queue.semi_transparent_state.length ∧
    (sample_calls.foldl (fun s c => c.run int_ops stdLayout s)
        ready_renderer).queue.semi_transparent.length =
      3 * (sample_calls.foldl (fun s c => c.run int_ops stdLayout s)
        ready_renderer).queue.semi_transparent_state.length ∧
    (sample_calls.foldl (fun s c => c.run int_ops stdLayout s)
        ready_renderer).queue.semi_transparent_state.length = 1 :=
  ⟨by decide, (ordered_queue_sizes int_ops stdLayout ready_renderer (by decide) sample_calls).1, by decide⟩

end Renderer

end PSX
